import Mathlib

/-! # Project Pilot hooks: a shallow embedding

Model of the lifecycle hooks of `project-pilot/scripts` and `scripts`:

* `pre-bash.js` (snapshot capture before a shell command),
* `post-bash-guard.js` (integrity check and restore after a shell command),
* `log-change.js` and `log-bash.js` (the writers of the change ledger),
* `session-synthesis.js` (the Stop hook: ledger partition, session weight,
  synthesis count and trigger),
* `pre-compact.js` and `session-start.js` (the other readers of the ledger and
  the checks at a session boundary).

**The file system.**  The scripts touch four disjoint places: `CWD/.pilot`,
`CWD/CLAUDE.md`, `CWD/.claude` and `os.tmpdir()/pp-<md5 of CWD>`.  A state `FS`
records what is found at each of them (`none` when the path does not exist) as
a tree `Node`.  Directories are association lists from entry names to nodes.
A node is a regular file, a directory, or `other` (an entry for which neither
`isDirectory()` nor `isFile()` holds: a fifo, a socket, a device); symbolic
links are not modelled.

**Errors.**  Calls of `fs` raise for reasons visible in the tree (copying a
directory as a file, listing a regular file, ...); the model computes those.
The two copy operations of each script can also raise for reasons that are not
visible in the tree (permissions, a full disk).  Those are supplied by a
`Faults` parameter: for a snapshot location and a protected item it may name
an error message and what is left at the destination when the copy raises.
The three removals of the guard's opt-out branch can raise for such reasons
too: `postBashGuardWith` takes them from a `Removals` parameter, and
`postBashGuard` is the guard when none of them does.  The other calls
(`existsSync`, `mkdirSync`, `writeFileSync`) are given the behaviour visible
in the tree only.

**Input and clock.**  A hook reads its input from stdin: `HookInput` holds
the text and what `JSON.parse` makes of it.  The current time is a parameter:
an `Instant` for the ledger writers, the elapsed times since the last change
of two files for `session-start.js`.  A call that raises outside a `try`
block ends the run with exit code 1 (`HookResult.uncaught`).

**Numbers.**  The synthesis count is a JavaScript number: `JsNum` holds the
doubles with an integer value and the infinities, `toDouble` rounds an
integer to the nearest double, `jsString` is `String(n)`.

**Traces.**  The results of the scripts carry, next to the state, exit code
and output, the list of copy operations that were called (`attempts` for the
guard, `SnapEvent`s for the capture), so that statements about what was or was
not attempted can be made.
-/

namespace ProjectPilot

/-! ## Trees -/

/-- A file system node: regular file with its content, directory with its
entries, or an entry that is neither. -/
inductive Node where
  | file (bytes : String)
  | dir (entries : List (String × Node))
  | other

/-- Entry `name` of a directory listing (first match). -/
def lookupEntry (name : String) : List (String × Node) → Option Node
  | [] => none
  | (k, v) :: rest => if k = name then some v else lookupEntry name rest

/-- Create or replace entry `name` of a directory listing. -/
def setEntry (name : String) (v : Node) : List (String × Node) → List (String × Node)
  | [] => [(name, v)]
  | (k, w) :: rest => if k = name then (k, v) :: rest else (k, w) :: setEntry name v rest

/-- Remove entry `name` from a directory listing. -/
def eraseEntry (name : String) : List (String × Node) → List (String × Node)
  | [] => []
  | (k, w) :: rest => if k = name then eraseEntry name rest else (k, w) :: eraseEntry name rest

/-- What is found at `path.join(base, name)`: nothing when `base` does not
exist or is not a directory. -/
def join (base : Option Node) (name : String) : Option Node :=
  match base with
  | some (.dir es) => lookupEntry name es
  | _ => none

/-- Replace what is found at `path.join(base, name)` by `v` (`none` removes
it).  Nothing happens when `base` is not a directory. -/
def putAt (base : Option Node) (name : String) (v : Option Node) : Option Node :=
  match base, v with
  | some (.dir es), some n => some (.dir (setEntry name n es))
  | some (.dir es), none => some (.dir (eraseEntry name es))
  | b, _ => b

/-- Model of `fs.existsSync`. -/
def existsSync (p : Option Node) : Bool := p.isSome

/-- Outcome of a copy: what is at the destination afterwards and the message
of the error raised, if any. -/
structure CopyRes where
  dest : Option Node
  err : Option String

/-- Model of `fs.copyFileSync(src, dest)` for an existing `src`: a regular file
is copied onto nothing or onto a regular file; a directory as source or
destination raises `EISDIR`; a source or destination that is neither file nor
directory is taken to raise as well. -/
def copyFileSync (src : Node) (dest : Option Node) : CopyRes :=
  match src with
  | .file b =>
    match dest with
    | none => ⟨some (.file b), none⟩
    | some (.file _) => ⟨some (.file b), none⟩
    | some (.dir es) => ⟨some (.dir es), some "EISDIR"⟩
    | some .other => ⟨some .other, some "EEXIST"⟩
  | .dir _ => ⟨dest, some "EISDIR"⟩
  | .other => ⟨dest, some "EINVAL"⟩

mutual
/-- Model of `copyDirSync(src, dest)` (the same function in `pre-bash.js` and
`post-bash-guard.js`) for an existing `src`: `mkdirSync(dest, recursive)`, then
every entry of `readdirSync(src)` in turn. -/
def copyDirSync (src : Node) (dest : Option Node) : CopyRes :=
  match dest with
  | some (.file b) => ⟨some (.file b), some "EEXIST"⟩
  | some .other => ⟨some .other, some "EEXIST"⟩
  | some (.dir d) =>
    match src with
    | .dir es => copyEntries es d
    | _ => ⟨some (.dir d), some "ENOTDIR"⟩
  | none =>
    match src with
    | .dir es => copyEntries es []
    | _ => ⟨some (.dir []), some "ENOTDIR"⟩
/-- The `for` loop of `copyDirSync` over the entries of the source, `d` being
the entries of the destination directory so far.  The first error leaves the
loop. -/
def copyEntries (es : List (String × Node)) (d : List (String × Node)) : CopyRes :=
  match es with
  | [] => ⟨some (.dir d), none⟩
  | (name, .dir sub) :: rest =>
    let r := copyDirSync (.dir sub) (lookupEntry name d)
    let d1 := match r.dest with
      | some n => setEntry name n d
      | none => d
    match r.err with
    | some e => ⟨some (.dir d1), some e⟩
    | none => copyEntries rest d1
  | (name, .file b) :: rest =>
    let r := copyFileSync (.file b) (lookupEntry name d)
    match r.err with
    | some e => ⟨some (.dir d), some e⟩
    | none => copyEntries rest (setEntry name (.file b) d)
  | (_, .other) :: rest => copyEntries rest d
end

/-! ## State and environment -/

/-- The four places the guard scripts read and write. -/
structure FS where
  /-- What is at `CWD/.pilot` (`PILOT_DIR`). -/
  pilot : Option Node
  /-- What is at `CWD/CLAUDE.md` (`CLAUDE_MD`). -/
  claudeMd : Option Node
  /-- What is at `CWD/.claude` (`CLAUDE_DIR`). -/
  claudeDir : Option Node
  /-- What is at `os.tmpdir()/pp-<hash>` (`SNAPSHOT_TMP`). -/
  snapshotTmp : Option Node

/-- The two snapshot locations. -/
inductive Loc where
  | localSnap
  | tmpSnap
  deriving DecidableEq, Repr

/-- The two protected items. -/
inductive Item where
  | pilot
  | claudeMd
  deriving DecidableEq, Repr

/-- The name under which the scripts report an item. -/
def Item.label : Item → String
  | .pilot => ".pilot/"
  | .claudeMd => "CLAUDE.md"

/-- Errors raised by copies for reasons outside the tree: for a location and
an item, the message and what the failed copy leaves at its destination. -/
def Faults := Loc → Item → Option (String × Option Node)

/-- No copy raises for a reason outside the tree. -/
def noFaults : Faults := fun _ _ => none

/-- A copy under a possible outside error. -/
def faulty (f : Option (String × Option Node)) (run : CopyRes) : CopyRes :=
  match f with
  | some (msg, left) => ⟨left, some msg⟩
  | none => run

/-- What is at `SNAPSHOT_LOCAL = CWD/.claude/.pp-snapshot`. -/
def SNAPSHOT_LOCAL (fs : FS) : Option Node := join fs.claudeDir ".pp-snapshot"

/-- What is at `SENTINEL_LOCAL = CWD/.claude/project-pilot-initialized`. -/
def SENTINEL_LOCAL (fs : FS) : Option Node := join fs.claudeDir "project-pilot-initialized"

/-- What is at `ONBOARDING = CWD/.pilot/internal/.onboarding`. -/
def ONBOARDING (fs : FS) : Option Node := join (join fs.pilot "internal") ".onboarding"

/-- What is at `NO_GUARD = CWD/.claude/.pp-no-guard`. -/
def NO_GUARD (fs : FS) : Option Node := join fs.claudeDir ".pp-no-guard"

/-- What is at `SENTINEL_TMP = SNAPSHOT_TMP/.sentinel`. -/
def SENTINEL_TMP (fs : FS) : Option Node := join fs.snapshotTmp ".sentinel"

/-- The snapshot directory of a location. -/
def snapshotDir (fs : FS) : Loc → Option Node
  | .localSnap => SNAPSHOT_LOCAL fs
  | .tmpSnap => fs.snapshotTmp

/-- The live path of a protected item. -/
def FS.item (fs : FS) : Item → Option Node
  | .pilot => fs.pilot
  | .claudeMd => fs.claudeMd

/-- Model of `try { fs.unlinkSync(path.join(base, name)) } catch (_) {}`:
removes a file (or `other`) entry; a directory or a missing entry makes
`unlinkSync` raise, which is swallowed. -/
def unlinkSync (base : Option Node) (name : String) : Option Node :=
  match join base name with
  | some (.dir _) => base
  | some _ => putAt base name none
  | none => base

/-- The value of `initialized` in both scripts. -/
def initialized (fs : FS) : Bool :=
  existsSync (SENTINEL_LOCAL fs) || existsSync (SENTINEL_TMP fs)

/-! ## `post-bash-guard.js` -/

/-- One call of a copy operation by `tryRestore`: from which snapshot, for
which item (by its label), and whether it returned without raising. -/
structure Attempt where
  loc : Loc
  item : String
  ok : Bool
  deriving DecidableEq, Repr

/-- The `results` object of `tryRestore`. -/
structure Results where
  restored : List String
  failed : List String
  deriving DecidableEq, Repr

/-- What `tryRestore` returns and does: its `results`, the state it leaves and
the copies it called. -/
structure RestoreOut where
  results : Results
  fs : FS
  attempts : List Attempt

/-- The `if (missingP) { ... }` block of `tryRestore`, on the `results`, state
and copies so far; `snap` is what is found at `snapshotDir`. -/
def restorePilot (ft : Faults) (loc : Loc) (snap : Option Node) (o : RestoreOut) : RestoreOut :=
  match join snap "pilot" with
  | some src =>
    let r := faulty (ft loc .pilot) (copyDirSync src o.fs.pilot)
    match r.err with
    | none =>
      ⟨⟨o.results.restored ++ [".pilot/"], o.results.failed⟩,
        { o.fs with pilot := r.dest }, o.attempts ++ [⟨loc, ".pilot/", true⟩]⟩
    | some msg =>
      ⟨⟨o.results.restored, o.results.failed ++ [".pilot/ (error: " ++ msg ++ ")"]⟩,
        { o.fs with pilot := r.dest }, o.attempts ++ [⟨loc, ".pilot/", false⟩]⟩
  | none =>
    ⟨⟨o.results.restored, o.results.failed ++ [".pilot/ (not in this snapshot)"]⟩,
      o.fs, o.attempts⟩

/-- The `if (missingC) { ... }` block of `tryRestore`. -/
def restoreClaude (ft : Faults) (loc : Loc) (snap : Option Node) (o : RestoreOut) : RestoreOut :=
  match join snap "CLAUDE.md" with
  | some src =>
    let r := faulty (ft loc .claudeMd) (copyFileSync src o.fs.claudeMd)
    match r.err with
    | none =>
      ⟨⟨o.results.restored ++ ["CLAUDE.md"], o.results.failed⟩,
        { o.fs with claudeMd := r.dest }, o.attempts ++ [⟨loc, "CLAUDE.md", true⟩]⟩
    | some msg =>
      ⟨⟨o.results.restored, o.results.failed ++ ["CLAUDE.md (error: " ++ msg ++ ")"]⟩,
        { o.fs with claudeMd := r.dest }, o.attempts ++ [⟨loc, "CLAUDE.md", false⟩]⟩
  | none =>
    ⟨⟨o.results.restored, o.results.failed ++ ["CLAUDE.md (not in this snapshot)"]⟩,
      o.fs, o.attempts⟩

/-- Model of `tryRestore(snapshotDir, missingP, missingC)`, for the snapshot at
location `loc`. -/
def tryRestore (ft : Faults) (loc : Loc) (missingP missingC : Bool) (fs : FS) : RestoreOut :=
  let snap := snapshotDir fs loc
  let results : RestoreOut := ⟨⟨[], []⟩, fs, []⟩
  if !existsSync snap then results else
  let o1 := if missingP then restorePilot ft loc snap results else results
  if missingC then restoreClaude ft loc snap o1 else o1

/-- Model of `snapshotHadMissingContent(snapshotDir, checkPilot, checkClaude)`. -/
def snapshotHadMissingContent (snap : Option Node) (checkPilot checkClaude : Bool) : Bool :=
  if !existsSync snap then false
  else if checkPilot && existsSync (join snap "pilot") then true
  else if checkClaude && existsSync (join snap "CLAUDE.md") then true
  else false

/-- The three headings the guard prints. -/
inductive Banner where
  /-- Heading `Project Pilot — Files Missing (Cannot Restore)`. -/
  | filesMissing
  /-- Heading `Project Pilot — Files Restored Automatically`. -/
  | filesRestored
  /-- Heading `Project Pilot — Integrity Alert (Action Required)`. -/
  | integrityAlert
  deriving DecidableEq, Repr

/-- What the guard writes to stderr: the heading and the lists it prints under
it (`missing` for the first heading, `restored` and `failed` for the other
two). -/
structure Report where
  banner : Banner
  missing : List String
  restored : List String
  failed : List String
  deriving DecidableEq, Repr

/-- One run of the guard: the state it leaves, its exit code, what it wrote to
stderr (`none`: nothing) and the copies it called, in order. -/
structure GuardResult where
  fs : FS
  exitCode : Nat
  stderr : Option Report
  attempts : List Attempt

/-- The values of `restored` and `failed` after the restore orchestration,
with the state it leaves and the copies it called. -/
structure Recovery where
  restored : List String
  failed : List String
  fs : FS
  attempts : List Attempt

/-- The restore orchestration of `post-bash-guard.js` (from `let restored = []`
to the end of the `if (stillMissingPilot || stillMissingClaude)` statement). -/
def recover (ft : Faults) (missingPilot missingClaude : Bool) (fs : FS) : Recovery :=
  let localResult := tryRestore ft .localSnap missingPilot missingClaude fs
  let restored := localResult.results.restored
  let stillMissingPilot := missingPilot && !restored.contains ".pilot/"
  let stillMissingClaude := missingClaude && !restored.contains "CLAUDE.md"
  if stillMissingPilot || stillMissingClaude then
    let tmpResult := tryRestore ft .tmpSnap stillMissingPilot stillMissingClaude localResult.fs
    let finalMissingPilot := stillMissingPilot && !tmpResult.results.restored.contains ".pilot/"
    let finalMissingClaude := stillMissingClaude && !tmpResult.results.restored.contains "CLAUDE.md"
    ⟨restored ++ tmpResult.results.restored,
      (if finalMissingPilot then [".pilot/"] else []) ++
        (if finalMissingClaude then ["CLAUDE.md"] else []),
      tmpResult.fs, localResult.attempts ++ tmpResult.attempts⟩
  else
    ⟨restored, localResult.results.failed, localResult.fs, localResult.attempts⟩

/-- The report section of `post-bash-guard.js` (from `const allRestored` to
the end of the script). -/
def report (missingPilot missingClaude : Bool) (rc : Recovery) : GuardResult :=
  let allRestored := decide (rc.restored.length > 0) && decide (rc.failed.length = 0)
  let totalFail := decide (rc.restored.length = 0)
  let hadContent :=
    snapshotHadMissingContent (SNAPSHOT_LOCAL rc.fs) missingPilot missingClaude ||
      snapshotHadMissingContent rc.fs.snapshotTmp missingPilot missingClaude
  if totalFail && !hadContent then
    let missing :=
      (if missingPilot then [".pilot/"] else []) ++ (if missingClaude then ["CLAUDE.md"] else [])
    ⟨rc.fs, 2, some ⟨.filesMissing, missing, [], []⟩, rc.attempts⟩
  else if allRestored then
    ⟨rc.fs, 0, some ⟨.filesRestored, [], rc.restored, rc.failed⟩, rc.attempts⟩
  else
    ⟨rc.fs, 2, some ⟨.integrityAlert, [], rc.restored, rc.failed⟩, rc.attempts⟩

/-- Model of the script `post-bash-guard.js`. -/
def postBashGuard (ft : Faults) (fs : FS) : GuardResult :=
  if existsSync (ONBOARDING fs) then ⟨fs, 0, none, []⟩ else
  if existsSync (NO_GUARD fs) then
    let c1 := unlinkSync fs.claudeDir ".pp-no-guard"
    let c2 := unlinkSync c1 "project-pilot-initialized"
    ⟨{ fs with claudeDir := c2, snapshotTmp := none }, 0, none, []⟩
  else
  if !initialized fs then ⟨fs, 0, none, []⟩ else
  let missingPilot := !existsSync fs.pilot
  let missingClaude := !existsSync fs.claudeMd
  if !missingPilot && !missingClaude then ⟨fs, 0, none, []⟩ else
  report missingPilot missingClaude (recover ft missingPilot missingClaude fs)

/-- Errors of the three removals of the opt-out branch that are not visible
in the tree (a read-only `.claude/`, a busy file): whether `unlinkSync` of the
flag and of the sentinel file raises, leaving the entry in place, and, when
`rmSync` of the durable snapshot raises, what it leaves there.  The script
swallows all three. -/
structure Removals where
  flag : Bool
  sentinel : Bool
  tmp : Option (Option Node)

/-- No removal fails for a reason outside the tree. -/
def noRemovalFaults : Removals := ⟨false, false, none⟩

/-- Model of `try { fs.unlinkSync(path.join(base, name)) } catch (_) {}` when
the call may also raise for a reason outside the tree (`blocked`). -/
def unlinkWith (blocked : Bool) (base : Option Node) (name : String) : Option Node :=
  if blocked then base else unlinkSync base name

/-- Model of `try { fs.rmSync(SNAPSHOT_TMP, { recursive: true, force: true }) }
catch (_) {}`: nothing is left, unless the call raises on an existing
snapshot. -/
def rmTmp (tmp : Option (Option Node)) (snap : Option Node) : Option Node :=
  match snap, tmp with
  | some _, some left => left
  | _, _ => none

/-- Model of the script `post-bash-guard.js` when the removals of the opt-out
branch may fail for reasons outside the tree; the other branches remove
nothing and are those of `postBashGuard`. -/
def postBashGuardWith (rm : Removals) (ft : Faults) (fs : FS) : GuardResult :=
  if existsSync (ONBOARDING fs) then ⟨fs, 0, none, []⟩ else
  if existsSync (NO_GUARD fs) then
    let c1 := unlinkWith rm.flag fs.claudeDir ".pp-no-guard"
    let c2 := unlinkWith rm.sentinel c1 "project-pilot-initialized"
    ⟨{ fs with claudeDir := c2, snapshotTmp := rmTmp rm.tmp fs.snapshotTmp }, 0, none, []⟩
  else postBashGuard ft fs

/-! ## `pre-bash.js` -/

/-- The steps of `takeSnapshot` after the snapshot directory was emptied. -/
inductive SnapEvent where
  /-- Call of `copyDirSync(PILOT_DIR, snapshotDir/pilot)`; `ok`: it returned. -/
  | copyPilot (ok : Bool)
  /-- Call of `copyFileSync(CLAUDE_MD, snapshotDir/CLAUDE.md)`; `ok`: it returned. -/
  | copyClaudeMd (ok : Bool)
  /-- Call of `writeFileSync(snapshotDir/.sentinel, ...)`. -/
  | writeSentinel
  deriving DecidableEq, Repr

/-- What `takeSnapshot` leaves at the snapshot directory, the error it raised
(if any) and the steps it reached, in order. -/
structure SnapOut where
  snap : Option Node
  threw : Option String
  events : List SnapEvent

/-- Run the next statement of `takeSnapshot`, unless an earlier one raised. -/
def SnapOut.next (o : SnapOut) (step : SnapOut → SnapOut) : SnapOut :=
  match o.threw with
  | some _ => o
  | none => step o

/-- The statement `if (fs.existsSync(PILOT_DIR)) copyDirSync(PILOT_DIR,
path.join(snapshotDir, 'pilot'))` of `takeSnapshot`. -/
def stagePilot (ft : Faults) (loc : Loc) (fs : FS) (o : SnapOut) : SnapOut :=
  match fs.pilot with
  | some p =>
    let r := faulty (ft loc .pilot) (copyDirSync p (join o.snap "pilot"))
    ⟨putAt o.snap "pilot" r.dest, r.err, o.events ++ [.copyPilot r.err.isNone]⟩
  | none => o

/-- The statement `if (fs.existsSync(CLAUDE_MD)) fs.copyFileSync(CLAUDE_MD,
path.join(snapshotDir, 'CLAUDE.md'))` of `takeSnapshot`. -/
def stageClaude (ft : Faults) (loc : Loc) (fs : FS) (o : SnapOut) : SnapOut :=
  match fs.claudeMd with
  | some c =>
    let r := faulty (ft loc .claudeMd) (copyFileSync c (join o.snap "CLAUDE.md"))
    ⟨putAt o.snap "CLAUDE.md" r.dest, r.err, o.events ++ [.copyClaudeMd r.err.isNone]⟩
  | none => o

/-- The statement `fs.writeFileSync(path.join(snapshotDir, '.sentinel'), ...)`
of `takeSnapshot`; `stamp` is the text written (the working directory and the
time). -/
def stampSentinel (stamp : String) (o : SnapOut) : SnapOut :=
  ⟨putAt o.snap ".sentinel" (some (.file stamp)), none, o.events ++ [.writeSentinel]⟩

/-- Model of `takeSnapshot(snapshotDir)` for the snapshot at location `loc`.
`rmSync` and `mkdirSync` leave an empty directory at `snapshotDir`, whatever
was there; then the three statements run in turn until one raises. -/
def takeSnapshot (ft : Faults) (loc : Loc) (stamp : String) (fs : FS) : SnapOut :=
  let emptied : SnapOut := ⟨some (.dir []), none, []⟩
  ((emptied.next (stagePilot ft loc fs)).next (stageClaude ft loc fs)).next (stampSentinel stamp)

/-- One run of `pre-bash.js`: the state it leaves, its exit code, whether it
wrote anything to stdout or stderr, and for each of its two `try` blocks the
error caught there and the steps `takeSnapshot` reached. -/
structure PreBashResult where
  fs : FS
  exitCode : Nat
  output : Bool
  localThrew : Option String
  localEvents : List SnapEvent
  tmpThrew : Option String
  tmpEvents : List SnapEvent

/-- Model of the script `pre-bash.js`. -/
def preBash (ft : Faults) (stamp : String) (fs : FS) : PreBashResult :=
  if existsSync (ONBOARDING fs) then ⟨fs, 0, false, none, [], none, []⟩ else
  if !initialized fs then ⟨fs, 0, false, none, [], none, []⟩ else
  -- try { mkdirSync(CLAUDE_DIR); takeSnapshot(SNAPSHOT_LOCAL) } catch (_) {}
  let loc : SnapOut × Option Node :=
    match fs.claudeDir with
    | some (.file b) => (⟨none, some "EEXIST", []⟩, some (.file b))
    | some .other => (⟨none, some "EEXIST", []⟩, some .other)
    | some (.dir es) =>
      let o := takeSnapshot ft .localSnap stamp fs
      (o, putAt (some (.dir es)) ".pp-snapshot" o.snap)
    | none =>
      let o := takeSnapshot ft .localSnap stamp fs
      (o, putAt (some (.dir [])) ".pp-snapshot" o.snap)
  -- try { takeSnapshot(SNAPSHOT_TMP) } catch (_) {}
  let tmp := takeSnapshot ft .tmpSnap stamp fs
  ⟨{ fs with claudeDir := loc.2, snapshotTmp := tmp.snap }, 0, false,
    loc.1.threw, loc.1.events, tmp.threw, tmp.events⟩

/-! ## `session-synthesis.js`: the ledger and the session weight

A JavaScript string read from a UTF-8 file is a sequence of characters
(`List Char`); its UTF-16 code units, which `<` and `>` compare, are
`codeUnits`. -/

/-- The UTF-16 code units of one character. -/
def utf16 (c : Char) : List Nat :=
  if c.toNat < 0x10000 then [c.toNat]
  else [0xD800 + (c.toNat - 0x10000) / 0x400, 0xDC00 + (c.toNat - 0x10000) % 0x400]

/-- The UTF-16 code units of a string. -/
def codeUnits (s : List Char) : List Nat := s.flatMap utf16

/-- Lexicographic `<` on sequences of code units (a proper initial segment is
smaller). -/
def unitsLt : List Nat → List Nat → Bool
  | _, [] => false
  | [], _ :: _ => true
  | a :: as, b :: bs => decide (a < b) || (decide (a = b) && unitsLt as bs)

/-- Model of the JavaScript comparison `a > b` on strings. -/
def jsGt (a b : List Char) : Bool := unitsLt (codeUnits b) (codeUnits a)

/-- The characters `String.prototype.trim` removes (white space and line
terminators). -/
def isWhiteSpace (c : Char) : Bool :=
  let n := c.toNat
  n = 0x09 || n = 0x0A || n = 0x0B || n = 0x0C || n = 0x0D || n = 0x20 || n = 0xA0 ||
    n = 0x1680 || (decide (0x2000 ≤ n) && decide (n ≤ 0x200A)) || n = 0x2028 || n = 0x2029 ||
    n = 0x202F || n = 0x205F || n = 0x3000 || n = 0xFEFF

/-- Model of `s.trim()`. -/
def jsTrim (s : List Char) : List Char :=
  ((s.dropWhile isWhiteSpace).reverse.dropWhile isWhiteSpace).reverse

/-- Model of `s.split('\n')`. -/
def splitLines : List Char → List (List Char)
  | [] => [[]]
  | c :: cs =>
    if c = '\n' then [] :: splitLines cs
    else
      match splitLines cs with
      | l :: ls => (c :: l) :: ls
      | [] => [[c]]

/-- The string starts with the separator `" | "`. -/
def startsWithSep : List Char → Bool
  | ' ' :: '|' :: ' ' :: _ => true
  | _ => false

/-- Model of `l.split(' | ')[0]`: the text before the first `" | "`, the whole
of `l` when there is none. -/
def firstField : List Char → List Char
  | [] => []
  | c :: cs => if startsWithSep (c :: cs) then [] else c :: firstField cs

/-- Model of `l.startsWith('#')`. -/
def startsWithHash : List Char → Bool
  | '#' :: _ => true
  | _ => false

/-- The value of `ledgerLines`: the lines of the ledger kept by
`l.trim() && !l.startsWith('#')`. -/
def ledgerLines (ledger : List Char) : List (List Char) :=
  (splitLines ledger).filter (fun l => !(jsTrim l).isEmpty && !startsWithHash l)

/-- The value of `newChanges`, from the text of the ledger and the text of
`.last-synthesis` (`none` when that file does not exist). -/
def newChanges (ledger : List Char) (lastSynthesis : Option (List Char)) : List (List Char) :=
  match lastSynthesis with
  | some w =>
    let lastTime := jsTrim w
    (ledgerLines ledger).filter (fun l => jsGt (firstField l) lastTime)
  | none => ledgerLines ledger

/-- The three session weights. -/
inductive Weight where
  | light
  | medium
  | heavy
  deriving DecidableEq, Repr

/-- The value of a decimal digit. -/
def digitValue (c : Char) : Option Nat :=
  if '0' ≤ c ∧ c ≤ '9' then some (c.toNat - '0'.toNat) else none

/-- The longest run of decimal digits at the start of a string, as digit
values. -/
def leadingDigits : List Char → List Nat
  | [] => []
  | c :: cs =>
    match digitValue c with
    | some d => d :: leadingDigits cs
    | none => []

/-- The integer that `parseInt(s, 10)` reads: leading white space, an optional
sign, then the longest run of digits; `none` is `NaN`.  The result here is the
integer the digits denote; the number `parseInt` returns is the double nearest
to it (`toDouble`), the same integer below `2^53`. -/
def parseInt10 (s : List Char) : Option Int :=
  let t := s.dropWhile isWhiteSpace
  let (neg, body) : Bool × List Char :=
    match t with
    | '-' :: r => (true, r)
    | '+' :: r => (false, r)
    | r => (false, r)
  match leadingDigits body with
  | [] => none
  | ds =>
    let v : Int := (ds.foldl (fun acc d => acc * 10 + d) 0 : Nat)
    some (if neg then -v else v)

/-- A JavaScript number whose value is an integer or infinite: what
`parseInt` and `+ 1` produce.  `fin n` is the double with the integer value
`n`; `NaN` is kept apart (`none` of `parseInt10`). -/
inductive JsNum where
  | fin (n : Int)
  | inf (negative : Bool)
  deriving DecidableEq, Repr

instance (n : Nat) : OfNat JsNum n := ⟨.fin (Int.ofNat n)⟩

/-- The least `e`, counting up from the given one, with `n / 2 ^ e < 2 ^ 53`;
`fuel` bounds the search. -/
def shiftFor : Nat → Nat → Nat → Nat
  | 0, e, _ => e
  | fuel + 1, e, n => if n / 2 ^ e < 2 ^ 53 then e else shiftFor fuel (e + 1) n

/-- The double nearest to a natural number, ties to the even significand
(IEEE 754 binary64: 53 bits, the largest exponent `2 ^ 971` for the last
bit); `none` when the rounding reaches `2 ^ 1024` and overflows to
`Infinity`. -/
def roundNat (n : Nat) : Option Nat :=
  if n < 2 ^ 53 then some n
  else
    let e := shiftFor 1024 1 n
    if 971 < e then none
    else
      let q := n / 2 ^ e
      let r := n % 2 ^ e
      let half := 2 ^ (e - 1)
      let q1 := if half < r ∨ (r = half ∧ q % 2 = 1) then q + 1 else q
      if q1 = 2 ^ 53 ∧ e = 971 then none else some (q1 * 2 ^ e)

/-- The JavaScript number for an integer: the nearest double, or an infinity. -/
def toDouble (z : Int) : JsNum :=
  match roundNat z.natAbs with
  | some v => .fin (if z < 0 then -(v : Int) else (v : Int))
  | none => .inf (decide (z < 0))

/-- Model of `x + 1` on a number that is an integer or infinite. -/
def jsAdd1 : JsNum → JsNum
  | .fin n => toDouble (n + 1)
  | .inf negative => .inf negative

/-- The value of `synthesisCount` from the text of `.synthesis-count` (`none`
when that file does not exist): 1, or `parseInt` of the trimmed text plus 1 in
double arithmetic. -/
def synthesisCount (countFile : Option (List Char)) : JsNum :=
  match countFile with
  | none => 1
  | some t =>
    match parseInt10 (jsTrim t) with
    | none => 1
    | some parsed => jsAdd1 (toDouble parsed)

/-- The value of `sessionWeight` in the trigger message, from `changeCount`
and `synthesisCount`. -/
def sessionWeight (changeCount : Nat) (synthesisCount : Int) : Weight :=
  let w0 := Weight.light
  let w1 := if changeCount ≥ 6 then Weight.medium else w0
  let w2 := if changeCount ≥ 16 then Weight.heavy else w1
  if synthesisCount.tmod 5 = 0 then Weight.heavy else w2

/-- The value of `sessionWeight` for the number `synthesisCount` of the hook:
for an infinite count `synthesisCount % 5` is `NaN`, so only `changeCount`
decides. -/
def countWeight (changeCount : Nat) : JsNum → Weight
  | .fin n => sessionWeight changeCount n
  | .inf _ =>
    if changeCount ≥ 16 then Weight.heavy
    else if changeCount ≥ 6 then Weight.medium
    else Weight.light

/-! ## Auxiliary notions for the statements about the guard -/

/-- The copy of `.pilot/` that `tryRestore` runs from the snapshot at `loc` in
state `fs` when asked for `.pilot/`; `none` when the snapshot does not hold
`pilot`. -/
def pilotCopy (ft : Faults) (loc : Loc) (fs : FS) : Option CopyRes :=
  match join (snapshotDir fs loc) "pilot" with
  | some src => some (faulty (ft loc .pilot) (copyDirSync src fs.pilot))
  | none => none

/-- The copy of `CLAUDE.md` that `tryRestore` runs from the snapshot at `loc`
in state `fs` when asked for `CLAUDE.md`; `none` when the snapshot does not
hold it. -/
def claudeCopy (ft : Faults) (loc : Loc) (fs : FS) : Option CopyRes :=
  match join (snapshotDir fs loc) "CLAUDE.md" with
  | some src => some (faulty (ft loc .claudeMd) (copyFileSync src fs.claudeMd))
  | none => none

/-- A copy was run and returned without raising. -/
def copyOk : Option CopyRes → Bool
  | some r => r.err.isNone
  | none => false

/-- The trace entry of a copy, if it was run. -/
def attemptOf (loc : Loc) (name : String) : Option CopyRes → List Attempt
  | some r => [⟨loc, name, r.err.isNone⟩]
  | none => []

/-- What is at the destination after a copy, `old` if none was run. -/
def destAfter (old : Option Node) : Option CopyRes → Option Node
  | some r => r.dest
  | none => old

/-- The guard is armed: no onboarding flag, no opt-out flag, and the project is
initialized. -/
def armed (fs : FS) : Bool :=
  !existsSync (ONBOARDING fs) && !existsSync (NO_GUARD fs) && initialized fs


/-- The name of an item's staged copy inside a snapshot directory. -/
def Item.entry : Item → String
  | .pilot => "pilot"
  | .claudeMd => "CLAUDE.md"

/-- The other protected item. -/
def Item.other : Item → Item
  | .pilot => .claudeMd
  | .claudeMd => .pilot

/-- The state after a command deleted one protected item and changed nothing
else. -/
def FS.remove (fs : FS) : Item → FS
  | .pilot => { fs with pilot := none }
  | .claudeMd => { fs with claudeMd := none }

/-- The copy operation `tryRestore` uses for an item: `copyDirSync` for
`.pilot/`, `fs.copyFileSync` for `CLAUDE.md`. -/
def copyItem : Item → Node → Option Node → CopyRes
  | .pilot => copyDirSync
  | .claudeMd => copyFileSync

/-! ## Example states -/

/-- An initialized project: `.pilot/` with a brief and a ledger, `CLAUDE.md`,
and the sentinel file in `.claude/`; no snapshot yet. -/
def fsDemo : FS :=
  { pilot := some (.dir [("project-brief.md", .file "brief"),
      ("internal", .dir [("change-ledger.log", .file "# Project Pilot Change Ledger\n")])])
    claudeMd := some (.file "# CLAUDE")
    claudeDir := some (.dir [("project-pilot-initialized", .file "2025-01-15T10:30:00Z\n")])
    snapshotTmp := none }

/-- An environment in which copying `.pilot/` into the local snapshot raises
(an unreadable file), leaving an empty `pilot` directory there. -/
def localPilotDenied : Faults := fun loc X =>
  match loc, X with
  | .localSnap, .pilot => some ("EACCES", some (.dir []))
  | _, _ => none

/-- An initialized project in which `.pilot` is a regular file. -/
def fsPilotIsFile : FS :=
  { pilot := some (.file "not a directory")
    claudeMd := some (.file "# CLAUDE")
    claudeDir := some (.dir [("project-pilot-initialized", .file "2025-01-15T10:30:00Z\n")])
    snapshotTmp := none }

/-! ## The ledger partition in the words of the specification -/

/-- The separator of ledger fields, `" | "`. -/
def fieldSep : List Char := [' ', '|', ' ']

/-- The lines of a text: the pieces between its newline characters. -/
def IsLinesOf (text : List Char) (ls : List (List Char)) : Prop :=
  ls ≠ [] ∧ text = [('\n' : Char)].intercalate ls ∧ ∀ l ∈ ls, '\n' ∉ l

/-- A blank line: nothing but white space. -/
def IsBlank (l : List Char) : Prop := ∀ c ∈ l, isWhiteSpace c = true

/-- A comment line: it starts with `#`. -/
def IsComment (l : List Char) : Prop := ∃ r, l = '#' :: r

/-- The timestamp field of a line: the text before the first `" | "` (the
whole line when it has none). -/
def IsTimestampOf (f l : List Char) : Prop :=
  (l = f ∧ ∀ a b, l ≠ a ++ fieldSep ++ b) ∨
  ((∃ r, l = f ++ fieldSep ++ r) ∧ ∀ a b, l = a ++ fieldSep ++ b → f.length ≤ a.length)

/-- Lexical order on strings: lexicographic on UTF-16 code units. -/
def LexLt (a b : List Char) : Prop := List.Lex (fun x y : Nat => x < y) (codeUnits a) (codeUnits b)

/-- A ledger line is unsynthesized with respect to the watermark `W`: it is
not blank, not a comment, and its timestamp field is strictly greater than
`W`. -/
def IsUnsynthesized (W l : List Char) : Prop :=
  ¬ IsBlank l ∧ ¬ IsComment l ∧ ∃ f, IsTimestampOf f l ∧ LexLt W f

/-- A ledger entry: a non-blank line that is not a comment. -/
def IsEntry (l : List Char) : Prop := ¬ IsBlank l ∧ ¬ IsComment l

/-- The project after `rm -rf .`: everything under the working directory is
gone, the durable snapshot taken before the command is intact. -/
def fsWiped : FS :=
  { pilot := none
    claudeMd := none
    claudeDir := none
    snapshotTmp := some (.dir [("pilot", .dir [("project-brief.md", .file "brief")]),
      ("CLAUDE.md", .file "# CLAUDE"), (".sentinel", .file "/work\n2025-01-15T10:31:00.000Z\n")]) }

/-- Both protected items are missing; both snapshots were taken when
`CLAUDE.md` did not exist, so they hold `pilot` only. -/
def fsBothGone : FS :=
  { pilot := none
    claudeMd := none
    claudeDir := some (.dir [("project-pilot-initialized", .file "2025-01-15T10:30:00Z\n"),
      (".pp-snapshot", .dir [("pilot", .dir [("project-brief.md", .file "brief")]),
        (".sentinel", .file "/work\n2025-01-15T10:31:00.000Z\n")])])
    snapshotTmp := some (.dir [("pilot", .dir [("project-brief.md", .file "brief")]),
      (".sentinel", .file "/work\n2025-01-15T10:31:00.000Z\n")]) }

/-- As `fsBothGone`, but `.pilot/` is still there: only `CLAUDE.md` is missing,
and no snapshot holds it. -/
def fsLostClaude : FS :=
  { fsBothGone with pilot := some (.dir [("project-brief.md", .file "brief")]) }

/-- A project that was never initialized: no sentinel anywhere, no protected
item, a leftover local snapshot directory. -/
def fsFresh : FS :=
  { pilot := none
    claudeMd := none
    claudeDir := some (.dir [(".pp-snapshot", .dir [("pilot", .dir []), ("CLAUDE.md", .file "x")])])
    snapshotTmp := none }

/-- An initialized project in which the opt-out flag was set and `.pilot/` was
then deleted on purpose. -/
def fsOptOut : FS :=
  { pilot := none
    claudeMd := some (.file "# CLAUDE")
    claudeDir := some (.dir [("project-pilot-initialized", .file "2025-01-15T10:30:00Z\n"),
      (".pp-no-guard", .file ""),
      (".pp-snapshot", .dir [("pilot", .dir [("project-brief.md", .file "brief")]),
        ("CLAUDE.md", .file "# CLAUDE"), (".sentinel", .file "/work\n2025-01-15T10:31:00.000Z\n")])])
    snapshotTmp := some (.dir [("pilot", .dir [("project-brief.md", .file "brief")]),
      ("CLAUDE.md", .file "# CLAUDE"), (".sentinel", .file "/work\n2025-01-15T10:31:00.000Z\n")]) }

/-! ## Auxiliary notions for the statements about the capture -/

/-- The entries of a snapshot directory after a capture that raised nothing:
the staged copies `np` of `.pilot/` and `nc` of `CLAUDE.md` (when those items
existed) and the marker with text `stamp`. -/
def capturedEntries (np nc : Option Node) (stamp : String) : List (String × Node) :=
  (match np with
    | some n => [("pilot", n)]
    | none => []) ++
  (match nc with
    | some n => [("CLAUDE.md", n)]
    | none => []) ++
  [(".sentinel", .file stamp)]

/-- The snapshot directory `S` holds exactly the most recent capture of the
protected items of `fs`: it is a directory, it holds a staged copy of an item
exactly when the item exists, that copy is the copy of the item onto nothing,
the marker holds `stamp`, and there is no other entry. -/
def IsFreshSnapshot (fs : FS) (stamp : String) (S : Option Node) : Prop :=
  (∃ es, S = some (.dir es)) ∧
  existsSync (join S "pilot") = existsSync fs.pilot ∧
  existsSync (join S "CLAUDE.md") = existsSync fs.claudeMd ∧
  (∀ p, fs.pilot = some p → join S "pilot" = (copyDirSync p none).dest) ∧
  (∀ c, fs.claudeMd = some c → join S "CLAUDE.md" = (copyFileSync c none).dest) ∧
  join S ".sentinel" = some (.file stamp) ∧
  (∀ n, n ≠ "pilot" → n ≠ "CLAUDE.md" → n ≠ ".sentinel" → join S n = none)

/-- An initialized project whose two snapshot directories hold an older
capture: a staged `CLAUDE.md` (the file has since been removed on purpose), an
older `pilot` and a stray entry. -/
def fsStale : FS :=
  { pilot := some (.dir [("project-brief.md", .file "brief v2")])
    claudeMd := none
    claudeDir := some (.dir [("project-pilot-initialized", .file "2025-01-15T10:30:00Z\n"),
      (".pp-snapshot", .dir [("pilot", .dir [("project-brief.md", .file "brief v1"),
          ("notes.md", .file "old notes")]),
        ("CLAUDE.md", .file "# CLAUDE"), ("stray", .file "x"),
        (".sentinel", .file "/work\n2025-01-15T10:31:00.000Z\n")])])
    snapshotTmp := some (.dir [("pilot", .dir [("project-brief.md", .file "brief v1"),
          ("notes.md", .file "old notes")]),
        ("CLAUDE.md", .file "# CLAUDE"), ("stray", .file "x"),
        (".sentinel", .file "/work\n2025-01-15T10:31:00.000Z\n")]) }


/-- A project whose only trace of initialization is the marker inside the
local snapshot: no sentinel file, no durable snapshot, and `.pilot/` is
missing. -/
def fsLocalMarkerOnly : FS :=
  { pilot := none
    claudeMd := some (.file "# CLAUDE")
    claudeDir := some (.dir [(".pp-snapshot",
      .dir [("pilot", .dir [("project-brief.md", .file "brief")]),
        ("CLAUDE.md", .file "# CLAUDE"), (".sentinel", .file "/work\n2025-01-15T10:31:00.000Z\n")])])
    snapshotTmp := none }

mutual
/-- A tree made of directories and regular files only, in which no directory
lists a name twice. -/
def Node.plain : Node → Bool
  | .file _ => true
  | .dir es => entriesPlain es
  | .other => false
/-- The entries of a directory are plain trees with pairwise different
names. -/
def entriesPlain : List (String × Node) → Bool
  | [] => true
  | (name, n) :: rest => n.plain && (lookupEntry name rest).isNone && entriesPlain rest
end

/-- A directory. -/
def Node.isDir : Node → Bool
  | .dir _ => true
  | _ => false

/-- A regular file. -/
def Node.isFile : Node → Bool
  | .file _ => true
  | _ => false

/-- The state after `.claude` was deleted, with everything in it. -/
def FS.dropClaudeDir (fs : FS) : FS := { fs with claudeDir := none }

/-! ## Hook input and JavaScript string operations -/

/-- A value returned by `JSON.parse`, as far as the hooks look at it: a
string, an object with its properties, `null`, or any other value (number,
boolean, array), of which only the truthiness and the text that a template
literal renders matter; such a value has none of the properties the hooks
read. -/
inductive JsVal where
  | str (s : List Char)
  | obj (fields : List (String × JsVal))
  | null
  | other (truthy : Bool) (text : List Char)

/-- The input of a hook: the text read from stdin and the result of
`JSON.parse` on it (`none` when `JSON.parse` raises).  `JSON.parse` itself is
not modelled: statements hold for every pair. -/
structure HookInput where
  text : List Char
  parsed : Option JsVal

/-- Property `name` of an object (`none`: `undefined`). -/
def lookupField (name : String) : List (String × JsVal) → Option JsVal
  | [] => none
  | (k, v) :: rest => if k = name then some v else lookupField name rest

/-- Model of the property access `v.name`: `none` is `undefined`; reading a
property of `null` raises a `TypeError`. -/
def getProp (v : JsVal) (name : String) : Except String (Option JsVal) :=
  match v with
  | .obj fields => .ok (lookupField name fields)
  | .null => .error "TypeError"
  | _ => .ok none

/-- JavaScript truthiness of a value or `undefined`. -/
def truthy : Option JsVal → Bool
  | none => false
  | some (.str s) => !s.isEmpty
  | some (.obj _) => true
  | some .null => false
  | some (.other t _) => t

/-- Model of the expression `parsed.key || (parsed.tool_input &&
parsed.tool_input.key)`. -/
def fieldOrToolInput (parsed : JsVal) (key : String) : Except String (Option JsVal) :=
  match getProp parsed key with
  | .error e => .error e
  | .ok direct =>
    if truthy direct then .ok direct
    else
      match getProp parsed "tool_input" with
      | .error e => .error e
      | .ok toolInput =>
        if !truthy toolInput then .ok toolInput
        else
          match toolInput with
          | some t => getProp t key
          | none => .ok none

/-- The text a template literal renders for a truthy value. -/
def render : JsVal → List Char
  | .str s => s
  | .obj _ => "[object Object]".toList
  | .null => "null".toList
  | .other _ text => text

/-- The rest of `s` after the literal `pat` at its start, if `s` starts with
`pat`. -/
def dropLiteral : List Char → List Char → Option (List Char)
  | [], s => some s
  | _ :: _, [] => none
  | p :: ps, c :: cs => if p = c then dropLiteral ps cs else none

/-- Model of `s.startsWith(pat)`. -/
def jsStartsWith (s pat : List Char) : Bool := (dropLiteral pat s).isSome

/-- Model of `s.includes(pat)`. -/
def jsIncludes : List Char → List Char → Bool
  | [], pat => pat.isEmpty
  | c :: cs, pat => jsStartsWith (c :: cs) pat || jsIncludes cs pat

/-- Model of `s.endsWith(pat)`. -/
def jsEndsWith (s pat : List Char) : Bool := jsStartsWith s.reverse pat.reverse

/-- A match of the regular expression `"key"\s*:\s*"([^"]*)"` at the start of
`s`: the captured group. -/
def matchFieldAt (key s : List Char) : Option (List Char) :=
  match dropLiteral ('"' :: key ++ ['"']) s with
  | none => none
  | some r1 =>
    match r1.dropWhile isWhiteSpace with
    | ':' :: r2 =>
      match r2.dropWhile isWhiteSpace with
      | '"' :: r3 =>
        match r3.dropWhile (fun c => c ≠ '"') with
        | '"' :: _ => some (r3.takeWhile (fun c => c ≠ '"'))
        | _ => none
      | _ => none
    | _ => none

/-- Model of `input.match(/"key"\s*:\s*"([^"]*)"/)`: group 1 of the leftmost
match, `none` when there is no match. -/
def matchField (key : List Char) : List Char → Option (List Char)
  | [] => none
  | c :: cs =>
    match matchFieldAt key (c :: cs) with
    | some g => some g
    | none => matchField key cs

/-- Model of `s.replace(/\\/g, '/')`: every backslash becomes a slash. -/
def slashes (s : List Char) : List Char := s.map fun c => if c = '\\' then '/' else c

/-- Model of `s.replace(/\\\\/g, '\\')`: every pair of backslashes, from the
left, becomes one backslash. -/
def unescapeBackslashes : List Char → List Char
  | '\\' :: '\\' :: rest => '\\' :: unescapeBackslashes rest
  | c :: rest => c :: unescapeBackslashes rest
  | [] => []

/-- Model of `s.replace(/\\"/g, '"')`: every backslash followed by a double
quote becomes a double quote. -/
def unescapeQuotes : List Char → List Char
  | '\\' :: '"' :: rest => '"' :: unescapeQuotes rest
  | c :: rest => c :: unescapeQuotes rest
  | [] => []

/-- Model of the test `/"stop_hook_active"\s*:\s*true/.test(input)` at the
start of `s`. -/
def stopActiveAt (s : List Char) : Bool :=
  match dropLiteral "\"stop_hook_active\"".toList s with
  | none => false
  | some r1 =>
    match r1.dropWhile isWhiteSpace with
    | ':' :: r2 => jsStartsWith (r2.dropWhile isWhiteSpace) "true".toList
    | _ => false

/-- Model of `/"stop_hook_active"\s*:\s*true/.test(input)`. -/
def stopHookActive : List Char → Bool
  | [] => false
  | c :: cs => stopActiveAt (c :: cs) || stopHookActive cs

/-! ## Timestamps -/

/-- An instant of UTC civil time, as `Date` breaks it down: year, month
(1 to 12), day of the month, hour, minute, second and millisecond. -/
structure Instant where
  year : Nat
  month : Nat
  day : Nat
  hour : Nat
  minute : Nat
  second : Nat
  millis : Nat
  deriving DecidableEq, Repr

/-- The decimal digit `d % 10` as a character. -/
def digitChar (d : Nat) : Char := Char.ofNat (48 + d % 10)

/-- Two decimal digits of `n`, zero-padded. -/
def pad2 (n : Nat) : List Char := [digitChar (n / 10), digitChar n]

/-- Three decimal digits of `n`, zero-padded. -/
def pad3 (n : Nat) : List Char := [digitChar (n / 100), digitChar (n / 10), digitChar n]

/-- Four decimal digits of `n`, zero-padded. -/
def pad4 (n : Nat) : List Char :=
  [digitChar (n / 1000), digitChar (n / 100), digitChar (n / 10), digitChar n]

/-- Six decimal digits of `n`, zero-padded. -/
def pad6 (n : Nat) : List Char :=
  [digitChar (n / 100000), digitChar (n / 10000), digitChar (n / 1000), digitChar (n / 100),
    digitChar (n / 10), digitChar n]

/-- Model of `Date.prototype.toISOString`: `YYYY-MM-DDTHH:mm:ss.sssZ`, the
year with four digits up to 9999 and as `+YYYYYY` beyond. -/
def toISOString (t : Instant) : List Char :=
  (if t.year ≤ 9999 then pad4 t.year else '+' :: pad6 t.year) ++
    '-' :: pad2 t.month ++ '-' :: pad2 t.day ++ 'T' :: pad2 t.hour ++ ':' :: pad2 t.minute ++
    ':' :: pad2 t.second ++ '.' :: pad3 t.millis ++ ['Z']

/-- The text after a `.` matches `\d{3}Z$`. -/
def millisTail : List Char → Bool
  | [a, b, c, 'Z'] => a.isDigit && b.isDigit && c.isDigit
  | _ => false

/-- Model of `s.replace(/\.\d{3}Z$/, 'Z')`. -/
def stripMillis : List Char → List Char
  | [] => []
  | c :: cs => if c = '.' ∧ millisTail cs = true then ['Z'] else c :: stripMillis cs

/-- The value of `timestamp` in the ledger writers (and of `ts` in
`finalize.js`) at the instant `now`:
`new Date().toISOString().replace(/\.\d{3}Z$/, 'Z')`. -/
def isoTimestamp (now : Instant) : List Char := stripMillis (toISOString now)

/-! ## Files of `.pilot/` -/

/-- What is found at `.pilot/internal`. -/
def INTERNAL (fs : FS) : Option Node := join fs.pilot "internal"

/-- What is found at `.pilot/internal/change-ledger.log`. -/
def LEDGER (fs : FS) : Option Node := join (INTERNAL fs) "change-ledger.log"

/-- What is found at `.pilot/internal/.last-synthesis`. -/
def LAST_SYNTHESIS (fs : FS) : Option Node := join (INTERNAL fs) ".last-synthesis"

/-- What is found at `.pilot/internal/critical-paths.txt`. -/
def CRITICAL_PATHS (fs : FS) : Option Node := join (INTERNAL fs) "critical-paths.txt"

/-- What is found at `.pilot/internal/.synthesis-count`. -/
def countFile (fs : FS) : Option Node := join (INTERNAL fs) ".synthesis-count"

/-- Model of `fs.readFileSync(p, 'utf8')`: the text of a regular file; a
directory raises `EISDIR`, a missing path `ENOENT`; an entry that is neither
file nor directory is taken to raise as well. -/
def readFileSync (p : Option Node) : Except String (List Char) :=
  match p with
  | some (.file b) => .ok b.toList
  | some (.dir _) => .error "EISDIR"
  | some .other => .error "EINVAL"
  | none => .error "ENOENT"

/-- Model of `fs.appendFileSync(p, text)` inside an existing directory: what is
at `p` afterwards.  A missing file is created; a directory raises `EISDIR`; an
entry that is neither file nor directory is taken to raise as well. -/
def appendFileSync (p : Option Node) (text : List Char) : Except String Node :=
  match p with
  | none => .ok (.file (String.mk text))
  | some (.file old) => .ok (.file (old ++ String.mk text))
  | some (.dir _) => .error "EISDIR"
  | some .other => .error "EINVAL"

/-- Replace what is found at `.pilot/internal/name` by `v`. -/
def FS.setInternal (fs : FS) (name : String) (v : Node) : FS :=
  { fs with pilot := putAt fs.pilot "internal" (putAt (INTERNAL fs) name (some v)) }

/-- The call `fs.appendFileSync(LEDGER, text)`: the state afterwards, or the
error raised (`ENOTDIR` when `.pilot/internal` is not a directory). -/
def appendLedger (fs : FS) (text : List Char) : Except String FS :=
  match INTERNAL fs with
  | some (.dir _) =>
    match appendFileSync (LEDGER fs) text with
    | .ok n => .ok (fs.setInternal "change-ledger.log" n)
    | .error e => .error e
  | _ => .error "ENOTDIR"

/-! ## Results of the ledger writers and the session hooks -/

/-- The messages the ledger writers and the session hooks write to stderr,
with the values they interpolate. -/
inductive Msg where
  /-- Line `Critical path "pattern": invariant` of `log-change.js`. -/
  | criticalPath (pattern invariant : List Char)
  /-- Line `Compacting with N unsynthesized change(s). ...` of `pre-compact.js`. -/
  | compacting (unsynthCount : Nat)
  /-- Trigger `Session synthesis #N: M change(s), weight: W. ...` of
  `session-synthesis.js`. -/
  | synthesis (synthesisCount : JsNum) (changeCount : Nat) (weight : Weight)
  /-- Note `Project Pilot is installed. Run /project-pilot:init-pilot ...` of
  `session-start.js` in a project without `.pilot/`. -/
  | nudge
  /-- Line `Recovery: N unsynthesized change(s) from before /source. ...`. -/
  | recovery (count : Nat) (source : List Char)
  /-- Line `Returning after N days away. ...`. -/
  | extendedAbsence (ageDays : Int)
  /-- Line `Warning: active-context.md is Nh old — verify before relying on it.` -/
  | staleContext (ageHours : Int)
  /-- Line `Modules available: names. ...`. -/
  | modules (names : List Char)
  /-- Line `Warning: dependency-map.md is Nh old.` -/
  | staleDepMap (depAge : Int)
  /-- Line `N sessions completed. Check M decision revisitation condition(s) in
  .pilot/decisions.md.` -/
  | revisit (count : Int) (revisitCount : Nat)
  deriving DecidableEq, Repr

/-- One run of a ledger writer or session hook: the state it leaves, its exit
code, the messages the script wrote to stderr, in order, and the error of an
uncaught exception if one ended the run (Node then prints the error and exits
with code 1). -/
structure HookResult where
  fs : FS
  exitCode : Nat
  stderr : List Msg
  uncaught : Option String

/-- The run ends with `process.exit(code)`. -/
def HookResult.exit (fs : FS) (code : Nat) (msgs : List Msg) : HookResult :=
  ⟨fs, code, msgs, none⟩

/-- The run ends with an uncaught exception. -/
def HookResult.crash (fs : FS) (msgs : List Msg) (e : String) : HookResult :=
  ⟨fs, 1, msgs, some e⟩

/-- The `try`/`catch` of the ledger writers that extracts `key` from the hook
input: the value of the variable afterwards (`some none`: `undefined`), or
`none` when the `catch` branch finds no match and exits.  `unescape` is what
the `catch` branch applies to the captured text. -/
def extract (input : HookInput) (key : String) (unescape : List Char → List Char) :
    Option (Option JsVal) :=
  let tried : Except String (Option JsVal) :=
    match input.parsed with
    | none => .error "SyntaxError"
    | some parsed => fieldOrToolInput parsed key
  match tried with
  | .ok v => some v
  | .error _ =>
    match matchField key.toList input.text with
    | none => none
    | some g => some (some (.str (unescape g)))

/-! ## `log-bash.js` -/

/-- The line `log-bash.js` appends for the command text `command` at the
instant `now`. -/
def bashEntry (now : Instant) (command : List Char) : List Char :=
  isoTimestamp now ++ " | BASH | ".toList ++ command ++ ['\n']

/-- Model of the script `log-bash.js` run at the instant `now`. -/
def logBash (now : Instant) (input : HookInput) (fs : FS) : HookResult :=
  if !existsSync (INTERNAL fs) then .exit fs 0 [] else
  if existsSync (ONBOARDING fs) then .exit fs 0 [] else
  match extract input "command" (fun g => unescapeQuotes (unescapeBackslashes g)) with
  | none => .exit fs 0 []
  | some none => .exit fs 0 []
  | some (some command) =>
    if !truthy (some command) then .exit fs 0 [] else
    match appendLedger fs (bashEntry now (render command)) with
    | .error e => .crash fs [] e
    | .ok fs1 => .exit fs1 0 []

/-! ## `log-change.js` -/

/-- The line `log-change.js` appends for the normalized path at the instant
`now`. -/
def editEntry (now : Instant) (normalizedPath : List Char) : List Char :=
  isoTimestamp now ++ " | EDIT | ".toList ++ normalizedPath ++ ['\n']

/-- The text after the first `|` of a line, if there is one
(`line.substring(sepIndex + 1)`). -/
def afterBar : List Char → Option (List Char)
  | [] => none
  | c :: cs => if c = '|' then some cs else afterBar cs

/-- The `for` loop of the critical path check over the lines of
`critical-paths.txt`: the messages written. -/
def criticalMatches (normalizedPath : List Char) (text : List Char) : List Msg :=
  (splitLines text).filterMap fun line =>
    if (jsTrim line).isEmpty || startsWithHash (jsTrim line) then none
    else
      match afterBar line with
      | none => none
      | some rest =>
        let pattern := slashes (jsTrim (line.takeWhile (fun c => c ≠ '|')))
        let invariant := jsTrim rest
        if !pattern.isEmpty && jsIncludes normalizedPath pattern then
          some (.criticalPath pattern invariant)
        else none

/-- Model of the script `log-change.js` run at the instant `now`. -/
def logChange (now : Instant) (input : HookInput) (fs : FS) : HookResult :=
  if !existsSync (INTERNAL fs) then .exit fs 0 [] else
  if existsSync (ONBOARDING fs) then .exit fs 0 [] else
  match extract input "file_path" unescapeBackslashes with
  | none => .exit fs 0 []
  | some none => .exit fs 0 []
  | some (some filePath) =>
    if !truthy (some filePath) then .exit fs 0 [] else
    match filePath with
    | .str p =>
      let normalizedPath := slashes p
      if jsIncludes normalizedPath ".pilot/internal/".toList then .exit fs 0 [] else
      if jsIncludes normalizedPath ".claude/".toList then .exit fs 0 [] else
      match appendLedger fs (editEntry now normalizedPath) with
      | .error e => .crash fs [] e
      | .ok fs1 =>
        if existsSync (CRITICAL_PATHS fs1) then
          match readFileSync (CRITICAL_PATHS fs1) with
          | .error e => .crash fs1 [] e
          | .ok text =>
            let msgs := criticalMatches normalizedPath text
            .exit fs1 (if msgs.isEmpty then 0 else 2) msgs
        else .exit fs1 0 []
    | _ => .crash fs [] "TypeError"

/-! ## `pre-compact.js`, `session-synthesis.js` and `session-start.js` -/

/-- The entries of the ledger not yet synthesized, as the three session hooks
compute them from `change-ledger.log` and `.last-synthesis`; an error when a
read raises. -/
def unsynthesized (fs : FS) : Except String (List (List Char)) :=
  match readFileSync (LEDGER fs) with
  | .error e => .error e
  | .ok ledger =>
    if existsSync (LAST_SYNTHESIS fs) then
      match readFileSync (LAST_SYNTHESIS fs) with
      | .error e => .error e
      | .ok w => .ok (newChanges ledger (some w))
    else .ok (newChanges ledger none)

/-- Model of the script `pre-compact.js`. -/
def preCompact (fs : FS) : HookResult :=
  if !existsSync fs.pilot || !existsSync (LEDGER fs) then .exit fs 0 [] else
  if existsSync (ONBOARDING fs) then .exit fs 0 [] else
  match unsynthesized fs with
  | .error e => .crash fs [] e
  | .ok lines =>
    if lines.length > 0 then .exit fs 0 [.compacting lines.length] else .exit fs 0 []

/-- One step of `Number::toString`: the digits `s` of length `k` and the
decimal exponent `n` with `s * 10 ^ (n - k)` rounding to the double `x`, if
there are such; of two candidates the one nearer to `x`, the even one in a
tie.  `D` is the number of decimal digits of `x`. -/
def shortestAt (x D k : Nat) : Option (Nat × Nat) :=
  if D < k then none
  else
    let e := D - k
    let lo := x / 10 ^ e
    let hi := lo + 1
    let hiRep : Nat × Nat := if hi = 10 ^ k then (1, D + 1) else (hi, D)
    let okLo : Bool := decide (roundNat (lo * 10 ^ e) = some x)
    let okHi : Bool := decide (roundNat (hi * 10 ^ e) = some x)
    if okLo && okHi then
      if x - lo * 10 ^ e < hi * 10 ^ e - x then some (lo, D)
      else if hi * 10 ^ e - x < x - lo * 10 ^ e then some hiRep
      else if lo % 2 = 0 then some (lo, D)
      else some hiRep
    else if okLo then some (lo, D)
    else if okHi then some hiRep
    else none

/-- The shortest digits `s` and the exponent `n` of `Number::toString` for a
double with the integer value `x`. -/
def shortest (x : Nat) : Nat × Nat :=
  let D := (Nat.repr x).length
  match (List.range 17).findSome? (fun i => shortestAt x D (i + 1)) with
  | some r => r
  | none => (x, D)

/-- The text `String(x)` of a double with the natural value `x`: all digits
below `2^53`; beyond, the shortest digits that read back as `x`, padded with
zeros up to 21 digits, in exponent form from there on. -/
def jsNatString (x : Nat) : List Char :=
  if x < 2 ^ 53 then (Nat.repr x).toList
  else
    let sn := shortest x
    let ds := (Nat.repr sn.1).toList
    if sn.2 ≤ 21 then ds ++ List.replicate (sn.2 - ds.length) '0'
    else
      match ds with
      | [] => []
      | d :: rest =>
        (if rest.isEmpty then [d] else d :: '.' :: rest) ++ "e+".toList ++
          (Nat.repr (sn.2 - 1)).toList

/-- The text `String(n)` of a number that is an integer or infinite. -/
def jsString : JsNum → List Char
  | .fin n => if n < 0 then '-' :: jsNatString n.natAbs else jsNatString n.natAbs
  | .inf false => "Infinity".toList
  | .inf true => "-Infinity".toList

/-- Model of the script `session-synthesis.js` (the Stop hook). -/
def sessionSynthesisHook (input : HookInput) (fs : FS) : HookResult :=
  if stopHookActive input.text then .exit fs 0 [] else
  if !existsSync fs.pilot then .exit fs 0 [] else
  if !existsSync (LEDGER fs) then .exit fs 0 [] else
  if existsSync (ONBOARDING fs) then .exit fs 0 [] else
  match unsynthesized fs with
  | .error e => .crash fs [] e
  | .ok changes =>
    if changes.length = 0 then .exit fs 0 [] else
    let changeCount := changes.length
    let counted : Except String JsNum :=
      if existsSync (countFile fs) then
        match readFileSync (countFile fs) with
        | .error e => .error e
        | .ok t => .ok (synthesisCount (some t))
      else .ok (synthesisCount none)
    match counted with
    | .error e => .crash fs [] e
    | .ok n =>
      let fs1 := fs.setInternal ".synthesis-count" (.file (String.mk (jsString n)))
      .exit fs1 2 [.synthesis n changeCount (countWeight changeCount n)]

/-- What `session-start.js` reads from the clock and the file times: the
milliseconds elapsed since the last modification of `active-context.md` and
of `dependency-map.md` (`Date.now() - mtimeMs`, rounded down; read only when
the file exists). -/
structure Elapsed where
  activeCtx : Int
  depMap : Int

/-- The number of whole hours in `ms` milliseconds:
`Math.floor(ms / 3600000)`. -/
def wholeHours (ms : Int) : Int := ms / 3600000

/-- The value of `source`: the captured text of
`input.match(/"source"\s*:\s*"([^"]*)"/)`, or `startup`. -/
def sourceOf (input : HookInput) : List Char :=
  match matchField "source".toList input.text with
  | some g => g
  | none => "startup".toList

/-- The recovery check of `session-start.js`: what it pushes to `output`. -/
def recoveryCheck (source : List Char) (fs : FS) : Except String (List Msg) :=
  if source = "clear".toList ∨ source = "compact".toList ∨ source = "resume".toList then
    if existsSync (LEDGER fs) then
      match unsynthesized fs with
      | .error e => .error e
      | .ok lines =>
        if lines.length > 0 then .ok [.recovery lines.length source] else .ok []
    else .ok []
  else .ok []

/-- The extended absence check of `session-start.js`. -/
def absenceCheck (el : Elapsed) (fs : FS) : List Msg :=
  if existsSync (join fs.pilot "active-context.md") then
    let ageHours := wholeHours el.activeCtx
    if ageHours > 336 then [.extendedAbsence (ageHours / 24)]
    else if ageHours > 48 then [.staleContext ageHours]
    else []
  else []

/-- Model of `f.replace('.md', '')`: the first occurrence of `.md` is
removed. -/
def dropFirstMd : List Char → List Char
  | [] => []
  | c :: cs =>
    match dropLiteral ".md".toList (c :: cs) with
    | some rest => rest
    | none => c :: dropFirstMd cs

/-- Insert a string into a list sorted by UTF-16 code units. -/
def insertSorted (a : List Char) : List (List Char) → List (List Char)
  | [] => [a]
  | b :: rest =>
    if unitsLt (codeUnits b) (codeUnits a) then b :: insertSorted a rest else a :: b :: rest

/-- Model of `names.sort()`: ascending order of UTF-16 code units. -/
def sortNames (names : List (List Char)) : List (List Char) :=
  names.foldr insertSorted []

/-- Model of `names.join(', ')`. -/
def joinComma : List (List Char) → List Char
  | [] => []
  | [a] => a
  | a :: b :: rest => a ++ ", ".toList ++ joinComma (b :: rest)

/-- The module context check of `session-start.js`; `readdirSync` raises
`ENOTDIR` when `.pilot/modules` is not a directory. -/
def modulesCheck (fs : FS) : Except String (List Msg) :=
  match join fs.pilot "modules" with
  | none => .ok []
  | some (.dir es) =>
    let modules := (es.map fun e => e.1.toList).filter fun f => jsEndsWith f ".md".toList
    if modules.length > 0 then .ok [.modules (joinComma (sortNames (modules.map dropFirstMd)))]
    else .ok []
  | some _ => .error "ENOTDIR"

/-- The dependency map staleness check of `session-start.js`. -/
def depMapCheck (el : Elapsed) (fs : FS) : List Msg :=
  if existsSync (join (INTERNAL fs) "dependency-map.md") then
    let depAge := wholeHours el.depMap
    if depAge > 72 then [.staleDepMap depAge] else []
  else []

/-- The number of matches of the literal `pat` in a text, from the left and
without overlap (`(content.match(/pat/g) || []).length`); `skip` characters
of the last match are still to be passed. -/
def countMatches (pat : List Char) : Nat → List Char → Nat
  | _, [] => 0
  | skip + 1, _ :: cs => countMatches pat skip cs
  | 0, c :: cs =>
    if jsStartsWith (c :: cs) pat then 1 + countMatches pat (pat.length - 1) cs
    else countMatches pat 0 cs

/-- The value of `revisitCount` for the text of `decisions.md`. -/
def revisitMarkers (content : List Char) : Nat :=
  countMatches "Revisit When".toList 0 content

/-- The decision revisitation reminder of `session-start.js`.  The message
carries the integer that `.synthesis-count` denotes; the test `count >= 10`
has the same outcome on it as on the double that `parseInt` returns. -/
def revisitCheck (fs : FS) : Except String (List Msg) :=
  if existsSync (countFile fs) then
    match readFileSync (countFile fs) with
    | .error e => .error e
    | .ok t =>
      match parseInt10 (jsTrim t) with
      | none => .ok []
      | some count =>
        if count ≥ 10 then
          if existsSync (join fs.pilot "decisions.md") then
            match readFileSync (join fs.pilot "decisions.md") with
            | .error e => .error e
            | .ok content =>
              let revisitCount := revisitMarkers content
              if revisitCount > 0 then .ok [.revisit count revisitCount] else .ok []
          else .ok []
        else .ok []
  else .ok []

/-- The five checks of `session-start.js` in turn: the value of `output`, or
the error of the first read that raises. -/
def sessionChecks (el : Elapsed) (source : List Char) (fs : FS) : Except String (List Msg) :=
  match recoveryCheck source fs with
  | .error e => .error e
  | .ok recovery =>
    match modulesCheck fs with
    | .error e => .error e
    | .ok modules =>
      match revisitCheck fs with
      | .error e => .error e
      | .ok revisit =>
        .ok (recovery ++ absenceCheck el fs ++ modules ++ depMapCheck el fs ++ revisit)

/-- Model of the script `session-start.js`. -/
def sessionStart (el : Elapsed) (input : HookInput) (fs : FS) : HookResult :=
  if existsSync (ONBOARDING fs) then .exit fs 0 [] else
  let source := sourceOf input
  if !existsSync fs.pilot then
    if source = "startup".toList then .exit fs 0 [.nudge] else .exit fs 0 []
  else
    match sessionChecks el source fs with
    | .error e => .crash fs [] e
    | .ok output => if output.length > 0 then .exit fs 2 output else .exit fs 0 []

/-! ## Example states and inputs for the ledger writers and the session hooks -/

/-- The instant 2025-01-15T10:30:00.123Z. -/
def t0 : Instant := ⟨2025, 1, 15, 10, 30, 0, 123⟩

/-- A project in the middle of onboarding: the flag `.onboarding` is there,
next to an armed guard with the opt-out flag, a ledger with one entry, a
synthesis count and stale context files. -/
def fsOnboarding : FS :=
  { pilot := some (.dir [("active-context.md", .file "ctx"),
      ("internal", .dir [(".onboarding", .file ""),
        ("change-ledger.log", .file "2025-01-15T10:00:00Z | EDIT | src/a.ts\n"),
        (".synthesis-count", .file "9"),
        ("critical-paths.txt", .file "src/ | keep the API stable\n"),
        ("dependency-map.md", .file "map")])])
    claudeMd := none
    claudeDir := some (.dir [("project-pilot-initialized", .file ""), (".pp-no-guard", .file "")])
    snapshotTmp := none }

/-- Hook input of an edit of `src/a.ts`, as text and as parsed by
`JSON.parse`. -/
def editInput : HookInput :=
  { text := "\x7b\"tool_input\":\x7b\"file_path\":\"src/a.ts\"\x7d\x7d".toList
    parsed := some (.obj [("tool_input", .obj [("file_path", .str "src/a.ts".toList)])]) }

/-- A set-up project with a ledger of one comment line and one entry, and a
watermark later than that entry. -/
def fsLedger : FS :=
  { pilot := some (.dir [("internal", .dir [
      ("change-ledger.log", .file "# Format: TIMESTAMP | ACTION | FILE_PATH_OR_COMMAND\n"),
      (".last-synthesis", .file "2025-01-15T10:00:00Z\n")])])
    claudeMd := none
    claudeDir := none
    snapshotTmp := none }

/-- Hook input of the shell command `echo a`, newline, `echo b` (the JSON text
carries the newline as the escape `\n`, `JSON.parse` decodes it). -/
def twoLineCommand : HookInput :=
  { text := "\x7b\"tool_input\":\x7b\"command\":\"echo a\\necho b\"\x7d\x7d".toList
    parsed := some (.obj [("tool_input", .obj [("command", .str "echo a\necho b".toList)])]) }

/-- The state `fsLedger` after the synthesis that follows the command of
`twoLineCommand`: the watermark is one minute later than the command. -/
def fsAfterSynthesis : FS :=
  ((logBash t0 twoLineCommand fsLedger).fs).setInternal ".last-synthesis"
    (.file "2025-01-15T10:31:00Z\n")

/-- A set-up project whose recorded synthesis count is 11 and whose
`decisions.md` holds two `Revisit When` markers. -/
def fsEleven : FS :=
  { pilot := some (.dir [
      ("decisions.md", .file "## D1\nRevisit When: load doubles\n## D2\nRevisit When: v2 ships\n"),
      ("internal", .dir [(".synthesis-count", .file "11")])])
    claudeMd := none
    claudeDir := none
    snapshotTmp := none }

/-- A project in which Project Pilot was never set up: no `.pilot/`. -/
def fsNoPilot : FS :=
  { pilot := none
    claudeMd := some (.file "# CLAUDE")
    claudeDir := none
    snapshotTmp := none }

/-- A set-up project with two unsynthesized ledger entries, a context file, a
module and a recorded synthesis count of 10 with one revisit marker. -/
def fsBusy : FS :=
  { pilot := some (.dir [
      ("active-context.md", .file "ctx"),
      ("decisions.md", .file "Revisit When: the schema changes\n"),
      ("modules", .dir [("web.md", .file "w"), ("api.md", .file "a"), ("notes.txt", .file "n")]),
      ("internal", .dir [
        ("change-ledger.log",
          .file "# Format\n2025-01-15T10:00:00Z | EDIT | a.ts\n2025-01-15T10:05:00Z | BASH | ls\n"),
        ("dependency-map.md", .file "map"),
        (".synthesis-count", .file "10\n")])])
    claudeMd := none
    claudeDir := none
    snapshotTmp := none }

/-- Hook input of a session boundary with reason `clear`. -/
def clearInput : HookInput :=
  { text := "\x7b\"source\": \"clear\"\x7d".toList
    parsed := some (.obj [("source", .str "clear".toList)]) }

/-- Hook input of a session boundary that names no reason. -/
def noReasonInput : HookInput :=
  { text := "\x7b\x7d".toList
    parsed := some (.obj []) }

/-! ## Civil time

The instants `Date` can hold correspond one to one to the valid breakdowns
into UTC civil fields (proleptic Gregorian calendar); the number of
milliseconds since the epoch is computed from the fields. -/

/-- Leap years of the Gregorian calendar. -/
def isLeapYear (y : Nat) : Bool := y % 4 = 0 && (y % 100 != 0 || y % 400 = 0)

/-- The number of days of month `m` in year `y`. -/
def daysInMonth (y m : Nat) : Nat :=
  if m = 2 then (if isLeapYear y then 29 else 28)
  else if m = 4 ∨ m = 6 ∨ m = 9 ∨ m = 11 then 30
  else 31

/-- The fields name a date and a time of day that exist. -/
def Instant.Valid (t : Instant) : Prop :=
  1 ≤ t.month ∧ t.month ≤ 12 ∧ 1 ≤ t.day ∧ t.day ≤ daysInMonth t.year t.month ∧
    t.hour < 24 ∧ t.minute < 60 ∧ t.second < 60 ∧ t.millis < 1000

instance (t : Instant) : Decidable t.Valid := by
  unfold Instant.Valid
  infer_instance

/-- The number of days in the years `0` to `y - 1`. -/
def daysBeforeYear (y : Nat) : Nat := 365 * y + (y + 3) / 4 - (y + 99) / 100 + (y + 399) / 400

/-- The number of days of year `y` before month `m`. -/
def daysBeforeMonth (y m : Nat) : Nat :=
  ((List.range (m - 1)).map fun i => daysInMonth y (i + 1)).sum

/-- The number of days from 1970-01-01 to the date of `t`. -/
def epochDay (t : Instant) : Int :=
  (daysBeforeYear t.year + daysBeforeMonth t.year t.month + (t.day - 1) : Nat) - 719528

/-- The time value of `t`: milliseconds since 1970-01-01T00:00:00Z. -/
def epochMillis (t : Instant) : Int :=
  (((epochDay t * 24 + t.hour) * 60 + t.minute) * 60 + t.second) * 1000 + t.millis

/-- The instant truncated to the second: whole seconds since the epoch. -/
def epochSeconds (t : Instant) : Int := epochMillis t / 1000

/-- An error oracle under which every copy of `.pilot/` raises `EACCES`
before anything is written. -/
def pilotDenied : Faults := fun _ X =>
  match X with
  | .pilot => some ("EACCES", none)
  | .claudeMd => none

/-- As `fsOptOut`, but the opt-out flag `.claude/.pp-no-guard` is a
directory. -/
def fsFlagIsDir : FS :=
  { pilot := none
    claudeMd := some (.file "# CLAUDE")
    claudeDir := some (.dir [("project-pilot-initialized", .file "2025-01-15T10:30:00Z\n"),
      (".pp-no-guard", .dir [])])
    snapshotTmp := none }

/-- A project with the opt-out flag set and `.pilot/` deleted on purpose, in
which `.claude/project-pilot-initialized` is a directory. -/
def fsSentinelIsDir : FS :=
  { pilot := none
    claudeMd := some (.file "# CLAUDE")
    claudeDir := some (.dir [("project-pilot-initialized", .dir []), (".pp-no-guard", .file "")])
    snapshotTmp := none }

/-- A set-up project in which `change-ledger.log` is a directory. -/
def fsLedgerIsDir : FS :=
  { pilot := some (.dir [("internal", .dir [("change-ledger.log", .dir [])])])
    claudeMd := none
    claudeDir := none
    snapshotTmp := none }

/-- A set-up project with one unsynthesized ledger entry in which
`.synthesis-count` is a directory. -/
def fsCountIsDir : FS :=
  { pilot := some (.dir [("internal", .dir [
      ("change-ledger.log", .file "2025-01-15T10:00:00Z | EDIT | a.ts\n"),
      (".synthesis-count", .dir [])])])
    claudeMd := none
    claudeDir := none
    snapshotTmp := none }

/-- A set-up project with one unsynthesized ledger entry whose stored
synthesis count is `2^53`. -/
def fsCountSaturated : FS :=
  { pilot := some (.dir [("internal", .dir [
      ("change-ledger.log", .file "2025-01-15T10:00:00Z | EDIT | a.ts\n"),
      (".synthesis-count", .file "9007199254740992")])])
    claudeMd := none
    claudeDir := none
    snapshotTmp := none }
/-! # Properties -/

/-! ## Directory listings -/

theorem lookupEntry_setEntry_same (n : String) (v : Node) (es : List (String × Node)) :
    lookupEntry n (setEntry n v es) = some v := by
  induction es with
  | nil => simp [setEntry, lookupEntry]
  | cons e rest ih =>
    obtain ⟨k, w⟩ := e
    by_cases h : k = n <;> simp [setEntry, lookupEntry, h, ih]

theorem lookupEntry_setEntry_ne {n m : String} (h : m ≠ n) (v : Node) (es : List (String × Node)) :
    lookupEntry n (setEntry m v es) = lookupEntry n es := by
  induction es with
  | nil => simp [setEntry, lookupEntry, h]
  | cons e rest ih =>
    obtain ⟨k, w⟩ := e
    by_cases hk : k = m
    · subst hk; simp [setEntry, lookupEntry, h]
    · by_cases hn : k = n
      · subst hn; simp [setEntry, lookupEntry, hk]
      · simp [setEntry, lookupEntry, hk, hn, ih]

theorem lookupEntry_eraseEntry_same (n : String) (es : List (String × Node)) :
    lookupEntry n (eraseEntry n es) = none := by
  induction es with
  | nil => simp [eraseEntry, lookupEntry]
  | cons e rest ih =>
    obtain ⟨k, w⟩ := e
    by_cases h : k = n <;> simp [eraseEntry, lookupEntry, h, ih]

theorem lookupEntry_eraseEntry_ne {n m : String} (h : m ≠ n) (es : List (String × Node)) :
    lookupEntry n (eraseEntry m es) = lookupEntry n es := by
  induction es with
  | nil => simp [eraseEntry, lookupEntry]
  | cons e rest ih =>
    obtain ⟨k, w⟩ := e
    by_cases hk : k = m
    · subst hk; simp [eraseEntry, lookupEntry, h, ih]
    · by_cases hn : k = n
      · subst hn; simp [eraseEntry, lookupEntry, hk]
      · simp [eraseEntry, lookupEntry, hk, hn, ih]

theorem join_putAt_ne {n m : String} (h : m ≠ n) (base v : Option Node) :
    join (putAt base m v) n = join base n := by
  unfold putAt join
  cases base with
  | none => simp
  | some b =>
    cases b <;> cases v <;>
      simp [lookupEntry_setEntry_ne h, lookupEntry_eraseEntry_ne h]

theorem join_putAt_same (n : String) (es : List (String × Node)) (v : Option Node) :
    join (putAt (some (.dir es)) n v) n = v := by
  cases v <;> simp [putAt, join, lookupEntry_setEntry_same, lookupEntry_eraseEntry_same]

theorem sessionWeight_thresholds (c : Nat) (n : Int) :
    sessionWeight c n =
      (if 16 ≤ c ∨ (5 : Int) ∣ n then Weight.heavy
       else if 6 ≤ c ∧ c ≤ 15 then Weight.medium else Weight.light) := by
  have hdiv : n.tmod 5 = 0 ↔ (5 : Int) ∣ n :=
    ⟨Int.dvd_of_tmod_eq_zero, Int.tmod_eq_zero_of_dvd⟩
  unfold sessionWeight
  by_cases h5 : (5 : Int) ∣ n
  · simp [hdiv.mpr h5, h5]
  · have h5' : ¬ n.tmod 5 = 0 := fun h => h5 (hdiv.mp h)
    simp only [h5', h5, if_false, or_false]
    by_cases h16 : 16 ≤ c
    · simp [h16]
    · by_cases h6 : 6 ≤ c
      · have : c ≤ 15 := by omega
        simp [h16, h6, this]
      · simp [h16, h6]


theorem tryRestore_fs (ft : Faults) (loc : Loc) (mp mc : Bool) (fs : FS) :
    (tryRestore ft loc mp mc fs).fs =
      { fs with
        pilot := if mp then destAfter fs.pilot (pilotCopy ft loc fs) else fs.pilot
        claudeMd := if mc then destAfter fs.claudeMd (claudeCopy ft loc fs) else fs.claudeMd } := by
  unfold tryRestore pilotCopy claudeCopy
  cases hs : snapshotDir fs loc with
  | none => simp [existsSync, join, destAfter]
  | some sn =>
    cases mp <;> cases mc <;> simp [existsSync, restorePilot, restoreClaude] <;>
      (repeat' split) <;> simp_all [destAfter]

theorem tryRestore_restored (ft : Faults) (loc : Loc) (mp mc : Bool) (fs : FS) :
    (tryRestore ft loc mp mc fs).results.restored =
      (if mp && copyOk (pilotCopy ft loc fs) then [".pilot/"] else []) ++
      (if mc && copyOk (claudeCopy ft loc fs) then ["CLAUDE.md"] else []) := by
  unfold tryRestore pilotCopy claudeCopy
  cases hs : snapshotDir fs loc with
  | none => simp [existsSync, join, copyOk]
  | some sn =>
    cases mp <;> cases mc <;> simp [existsSync, restorePilot, restoreClaude] <;>
      (repeat' split) <;> simp_all [copyOk]

theorem tryRestore_attempts (ft : Faults) (loc : Loc) (mp mc : Bool) (fs : FS) :
    (tryRestore ft loc mp mc fs).attempts =
      (if mp then attemptOf loc ".pilot/" (pilotCopy ft loc fs) else []) ++
      (if mc then attemptOf loc "CLAUDE.md" (claudeCopy ft loc fs) else []) := by
  unfold tryRestore pilotCopy claudeCopy
  cases hs : snapshotDir fs loc with
  | none => simp [existsSync, join, attemptOf]
  | some sn =>
    cases mp <;> cases mc <;> simp [existsSync, restorePilot, restoreClaude] <;>
      (repeat' split) <;> simp_all [attemptOf]

theorem tryRestore_failed_nil (ft : Faults) (loc : Loc) (mp mc : Bool) (fs : FS)
    (hp : mp = true → copyOk (pilotCopy ft loc fs) = true)
    (hc : mc = true → copyOk (claudeCopy ft loc fs) = true) :
    (tryRestore ft loc mp mc fs).results.failed = [] := by
  revert hp hc
  unfold tryRestore pilotCopy claudeCopy
  cases hs : snapshotDir fs loc with
  | none => simp [existsSync, join, copyOk]
  | some sn =>
    cases mp <;> cases mc <;> simp [existsSync, restorePilot, restoreClaude] <;>
      (repeat' split) <;> simp_all [copyOk]


theorem recover_restored (ft : Faults) (mp mc : Bool) (fs : FS) :
    (recover ft mp mc fs).restored =
      (if mp && copyOk (pilotCopy ft .localSnap fs) then [".pilot/"] else []) ++
      (if mc && copyOk (claudeCopy ft .localSnap fs) then ["CLAUDE.md"] else []) ++
      (if mp && !copyOk (pilotCopy ft .localSnap fs) &&
          copyOk (pilotCopy ft .tmpSnap (tryRestore ft .localSnap mp mc fs).fs)
        then [".pilot/"] else []) ++
      (if mc && !copyOk (claudeCopy ft .localSnap fs) &&
          copyOk (claudeCopy ft .tmpSnap (tryRestore ft .localSnap mp mc fs).fs)
        then ["CLAUDE.md"] else []) := by
  unfold recover
  simp only [tryRestore_restored]
  generalize (tryRestore ft .localSnap mp mc fs).fs = fs1
  generalize copyOk (pilotCopy ft .localSnap fs) = pL
  generalize copyOk (claudeCopy ft .localSnap fs) = cL
  cases mp <;> cases mc <;> cases pL <;> cases cL <;>
    simp

theorem recover_failed (ft : Faults) (mp mc : Bool) (fs : FS) :
    (recover ft mp mc fs).failed =
      (if mp && !copyOk (pilotCopy ft .localSnap fs) &&
          !copyOk (pilotCopy ft .tmpSnap (tryRestore ft .localSnap mp mc fs).fs)
        then [".pilot/"] else []) ++
      (if mc && !copyOk (claudeCopy ft .localSnap fs) &&
          !copyOk (claudeCopy ft .tmpSnap (tryRestore ft .localSnap mp mc fs).fs)
        then ["CLAUDE.md"] else []) := by
  unfold recover
  simp only [tryRestore_restored]
  by_cases hp : mp = true → copyOk (pilotCopy ft .localSnap fs) = true
  · by_cases hc : mc = true → copyOk (claudeCopy ft .localSnap fs) = true
    · have hf := tryRestore_failed_nil ft .localSnap mp mc fs hp hc
      rw [hf]
      cases mp <;> cases mc <;> simp_all
    · generalize (tryRestore ft .localSnap mp mc fs).fs = fs1
      generalize (tryRestore ft .localSnap mp mc fs).results.failed = lf
      simp at hc
      obtain ⟨hc1, hc2⟩ := hc
      subst hc1
      simp [hc2]
      cases mp <;> cases copyOk (pilotCopy ft .localSnap fs) <;> simp
  · generalize (tryRestore ft .localSnap mp mc fs).fs = fs1
    generalize (tryRestore ft .localSnap mp mc fs).results.failed = lf
    simp at hp
    obtain ⟨hp1, hp2⟩ := hp
    subst hp1
    simp [hp2]
    cases mc <;> cases copyOk (claudeCopy ft .localSnap fs) <;> simp

theorem recover_attempts (ft : Faults) (mp mc : Bool) (fs : FS) :
    (recover ft mp mc fs).attempts =
      (tryRestore ft .localSnap mp mc fs).attempts ++
      (tryRestore ft .tmpSnap (mp && !copyOk (pilotCopy ft .localSnap fs))
        (mc && !copyOk (claudeCopy ft .localSnap fs)) (tryRestore ft .localSnap mp mc fs).fs).attempts := by
  unfold recover
  simp only [tryRestore_restored]
  generalize (tryRestore ft .localSnap mp mc fs).fs = fs1
  generalize (tryRestore ft .localSnap mp mc fs).attempts = la
  cases mp <;> cases mc <;> cases copyOk (pilotCopy ft .localSnap fs) <;>
    cases copyOk (claudeCopy ft .localSnap fs) <;> simp [tryRestore_attempts]

theorem recover_fs (ft : Faults) (mp mc : Bool) (fs : FS) :
    (recover ft mp mc fs).fs =
      (tryRestore ft .tmpSnap (mp && !copyOk (pilotCopy ft .localSnap fs))
        (mc && !copyOk (claudeCopy ft .localSnap fs)) (tryRestore ft .localSnap mp mc fs).fs).fs := by
  unfold recover
  simp only [tryRestore_restored]
  generalize (tryRestore ft .localSnap mp mc fs).fs = fs1
  cases mp <;> cases mc <;> cases copyOk (pilotCopy ft .localSnap fs) <;>
    cases copyOk (claudeCopy ft .localSnap fs) <;> simp [tryRestore_fs]

theorem recover_restored_attempts (ft : Faults) (mp mc : Bool) (fs : FS) :
    (recover ft mp mc fs).restored =
      ((recover ft mp mc fs).attempts.filter (fun a => a.ok)).map (fun a => a.item) := by
  rw [recover_restored, recover_attempts]
  simp only [tryRestore_attempts]
  generalize (tryRestore ft .localSnap mp mc fs).fs = fs1
  cases mp <;> cases mc <;>
    rcases pilotCopy ft .localSnap fs with _ | ⟨d1, _ | e1⟩ <;>
    rcases claudeCopy ft .localSnap fs with _ | ⟨d2, _ | e2⟩ <;>
    rcases pilotCopy ft .tmpSnap fs1 with _ | ⟨d3, _ | e3⟩ <;>
    rcases claudeCopy ft .tmpSnap fs1 with _ | ⟨d4, _ | e4⟩ <;>
    simp [copyOk, attemptOf]

theorem mem_restored_iff (ft : Faults) (mp mc : Bool) (fs : FS) (l : String) :
    l ∈ (recover ft mp mc fs).restored ↔
      ∃ a ∈ (recover ft mp mc fs).attempts, a.item = l ∧ a.ok = true := by
  rw [recover_restored_attempts]
  simp only [List.mem_map, List.mem_filter]
  constructor
  · rintro ⟨a, ⟨ha, hok⟩, rfl⟩
    exact ⟨a, ha, rfl, hok⟩
  · rintro ⟨a, ha, rfl, hok⟩
    exact ⟨a, ⟨ha, hok⟩, rfl⟩



theorem postBashGuard_armed (ft : Faults) (fs : FS) (ha : armed fs = true) :
    postBashGuard ft fs =
      if existsSync fs.pilot && existsSync fs.claudeMd then ⟨fs, 0, none, []⟩
      else report (!existsSync fs.pilot) (!existsSync fs.claudeMd)
        (recover ft (!existsSync fs.pilot) (!existsSync fs.claudeMd) fs) := by
  unfold armed at ha
  simp only [Bool.and_eq_true, Bool.not_eq_true'] at ha
  obtain ⟨⟨h1, h2⟩, h3⟩ := ha
  unfold postBashGuard
  simp [h1, h2, h3]

theorem postBashGuard_idle (ft : Faults) (fs : FS) (ha : armed fs = false) :
    (postBashGuard ft fs).exitCode = 0 ∧ (postBashGuard ft fs).stderr = none ∧
    (postBashGuard ft fs).attempts = [] ∧ (postBashGuard ft fs).fs.pilot = fs.pilot ∧
    (postBashGuard ft fs).fs.claudeMd = fs.claudeMd := by
  unfold armed at ha
  unfold postBashGuard
  split
  · simp
  · split
    · simp
    · simp_all

theorem report_exit (mp mc : Bool) (rc : Recovery) :
    ((report mp mc rc).exitCode = 0 ∨ (report mp mc rc).exitCode = 2) ∧
    ((report mp mc rc).exitCode = 2 ↔ (rc.restored = [] ∨ rc.failed ≠ [])) ∧
    (report mp mc rc).attempts = rc.attempts ∧ (report mp mc rc).fs = rc.fs := by
  unfold report
  rcases hr : rc.restored with _ | ⟨x, xs⟩ <;> rcases hf : rc.failed with _ | ⟨y, ys⟩ <;>
    simp <;> split <;> simp



theorem recover_blocking_iff (ft : Faults) (mp mc : Bool) (fs : FS) (hm : (mp || mc) = true) :
    ((recover ft mp mc fs).restored = [] ∨ (recover ft mp mc fs).failed ≠ []) ↔
      ((mp = true ∧ ".pilot/" ∉ (recover ft mp mc fs).restored) ∨
        (mc = true ∧ "CLAUDE.md" ∉ (recover ft mp mc fs).restored)) := by
  rw [recover_restored, recover_failed]
  generalize (tryRestore ft .localSnap mp mc fs).fs = fs1
  revert hm
  cases mp <;> cases mc <;>
    cases copyOk (pilotCopy ft .localSnap fs) <;> cases copyOk (claudeCopy ft .localSnap fs) <;>
    cases copyOk (pilotCopy ft .tmpSnap fs1) <;> cases copyOk (claudeCopy ft .tmpSnap fs1) <;>
    simp

/-- C6 (guard outcome signal).  For every state and every outcome of the
copies, the guard ends with exit code 0 or 2 (nothing is raised: every error
of a copy is a value the script handles).  It exits 2 exactly when it was
armed and some missing protected item has no successful copy among the copies
it ran, and exactly when it printed the `Files Missing (Cannot Restore)` or
the `Integrity Alert` report; otherwise (nothing missing, every missing item
restored, or guard not armed) it exits 0. -/
theorem guard_outcome_signal (ft : Faults) (fs : FS) :
    ((postBashGuard ft fs).exitCode = 0 ∨ (postBashGuard ft fs).exitCode = 2) ∧
    ((postBashGuard ft fs).exitCode = 2 ↔
      (armed fs = true ∧ ∃ X : Item, existsSync (fs.item X) = false ∧
        ∀ a ∈ (postBashGuard ft fs).attempts, a.item = X.label → a.ok = false)) ∧
    ((postBashGuard ft fs).exitCode = 2 ↔
      ∃ rep, (postBashGuard ft fs).stderr = some rep ∧
        (rep.banner = Banner.filesMissing ∨ rep.banner = Banner.integrityAlert)) := by
  cases ha : armed fs with
  | false =>
    obtain ⟨h0, h1, h2, -, -⟩ := postBashGuard_idle ft fs ha
    simp [h0, h1]
  | true =>
    rw [postBashGuard_armed ft fs ha]
    by_cases hm : (existsSync fs.pilot && existsSync fs.claudeMd) = true
    · simp only [hm, if_true]
      simp only [Bool.and_eq_true] at hm
      refine ⟨by simp, ?_, by simp⟩
      constructor
      · intro h; simp at h
      · rintro ⟨-, X, hX, -⟩
        cases X <;> simp [FS.item, hm.1, hm.2] at hX
    · rw [if_neg hm]
      have hm' : (!existsSync fs.pilot || !existsSync fs.claudeMd) = true := by
        revert hm; cases existsSync fs.pilot <;> cases existsSync fs.claudeMd <;> simp
      obtain ⟨h01, h2, hat, -⟩ := report_exit (!existsSync fs.pilot) (!existsSync fs.claudeMd)
        (recover ft (!existsSync fs.pilot) (!existsSync fs.claudeMd) fs)
      refine ⟨h01, ?_, ?_⟩
      · rw [h2, hat, recover_blocking_iff ft _ _ fs hm']
        simp only [mem_restored_iff, true_and]
        constructor
        · rintro (⟨hp, hn⟩ | ⟨hc, hn⟩)
          · refine ⟨Item.pilot, by simpa [FS.item] using hp, ?_⟩
            intro a ha1 ha2
            cases hok : a.ok with
            | false => rfl
            | true => exact absurd ⟨a, ha1, ha2, hok⟩ hn
          · refine ⟨Item.claudeMd, by simpa [FS.item] using hc, ?_⟩
            intro a ha1 ha2
            cases hok : a.ok with
            | false => rfl
            | true => exact absurd ⟨a, ha1, ha2, hok⟩ hn
        · rintro ⟨X, hX, hall⟩
          cases X with
          | pilot =>
            left
            refine ⟨by simpa [FS.item] using hX, ?_⟩
            rintro ⟨a, ha1, ha2, hok⟩
            have := hall a ha1 ha2
            simp [hok] at this
          | claudeMd =>
            right
            refine ⟨by simpa [FS.item] using hX, ?_⟩
            rintro ⟨a, ha1, ha2, hok⟩
            have := hall a ha1 ha2
            simp [hok] at this
      · rw [h2]
        unfold report
        rcases hr : (recover ft (!existsSync fs.pilot) (!existsSync fs.claudeMd) fs).restored
          with _ | ⟨x, xs⟩ <;>
        rcases hf : (recover ft (!existsSync fs.pilot) (!existsSync fs.claudeMd) fs).failed
          with _ | ⟨y, ys⟩ <;>
          simp <;> split <;> simp


/-! ## The dormant guard -/

theorem join_unlinkSync_ne {n m : String} (h : m ≠ n) (base : Option Node) :
    join (unlinkSync base m) n = join base n := by
  unfold unlinkSync
  split
  · rfl
  · exact join_putAt_ne h base none
  · rfl

theorem join_unlinkSync_same (n : String) (base : Option Node)
    (h : ∀ es, join base n ≠ some (.dir es)) :
    join (unlinkSync base n) n = none := by
  unfold unlinkSync
  split
  · next es heq => exact absurd heq (h es)
  · next x hx heq =>
    cases base with
    | none => simp [join] at heq
    | some b =>
      cases b with
      | dir es => exact join_putAt_same n es none
      | file _ => simp [join] at heq
      | other => simp [join] at heq
  · next heq => exact heq

theorem postBashGuard_uninitialized (ft : Faults) (s : FS) (hi : initialized s = false)
    (hg : existsSync (NO_GUARD s) = false) :
    postBashGuard ft s = ⟨s, 0, none, []⟩ := by
  unfold postBashGuard
  simp [hi, hg]

theorem preBash_uninitialized (ft : Faults) (stamp : String) (s : FS)
    (hi : initialized s = false) :
    preBash ft stamp s = ⟨s, 0, false, none, [], none, []⟩ := by
  unfold preBash
  simp [hi]

/-- C4 (no false positives on fresh state).  When neither
`.claude/project-pilot-initialized` nor `.sentinel` of the durable snapshot
exists, the guard writes nothing, runs no copy, leaves `.pilot/` and
`CLAUDE.md` as they were and exits 0, whatever else the state holds. -/
theorem no_false_positive_on_fresh_state (ft : Faults) (fs : FS)
    (h1 : existsSync (SENTINEL_LOCAL fs) = false) (h2 : existsSync (SENTINEL_TMP fs) = false) :
    (postBashGuard ft fs).stderr = none ∧ (postBashGuard ft fs).attempts = [] ∧
    (postBashGuard ft fs).fs.pilot = fs.pilot ∧ (postBashGuard ft fs).fs.claudeMd = fs.claudeMd ∧
    (postBashGuard ft fs).exitCode = 0 := by
  have ha : armed fs = false := by simp [armed, initialized, h1, h2]
  obtain ⟨h0, hs, hat, hp, hc⟩ := postBashGuard_idle ft fs ha
  exact ⟨hs, hat, hp, hc, h0⟩

theorem postBashGuardWith_none (ft : Faults) (fs : FS) :
    postBashGuardWith noRemovalFaults ft fs = postBashGuard ft fs := by
  unfold postBashGuardWith postBashGuard
  by_cases h1 : existsSync (ONBOARDING fs) = true
  · simp [h1]
  · by_cases h2 : existsSync (NO_GUARD fs) = true
    · cases hs : fs.snapshotTmp <;> simp [h1, h2, noRemovalFaults, unlinkWith, rmTmp, hs]
    · simp [h1, h2]

theorem postBashGuardWith_observable (rm : Removals) (ft : Faults) (fs : FS) :
    (postBashGuardWith rm ft fs).exitCode = (postBashGuard ft fs).exitCode ∧
    (postBashGuardWith rm ft fs).stderr = (postBashGuard ft fs).stderr ∧
    (postBashGuardWith rm ft fs).attempts = (postBashGuard ft fs).attempts ∧
    (postBashGuardWith rm ft fs).fs.pilot = (postBashGuard ft fs).fs.pilot ∧
    (postBashGuardWith rm ft fs).fs.claudeMd = (postBashGuard ft fs).fs.claudeMd ∧
    (existsSync (NO_GUARD fs) = false →
      postBashGuardWith rm ft fs = postBashGuard ft fs) := by
  unfold postBashGuardWith
  by_cases h1 : existsSync (ONBOARDING fs) = true
  · simp [h1, postBashGuard]
  · by_cases h2 : existsSync (NO_GUARD fs) = true
    · simp [h1, h2, postBashGuard]
    · simp [h1, h2]

theorem join_unlinkWith_ne {n m : String} (h : m ≠ n) (blocked : Bool) (base : Option Node) :
    join (unlinkWith blocked base m) n = join base n := by
  unfold unlinkWith
  split
  · rfl
  · exact join_unlinkSync_ne h base

theorem existsSync_join_unlinkWith (blocked : Bool) (base : Option Node) (n : String) :
    existsSync (join (unlinkWith blocked base n) n) = false ↔
      (existsSync (join base n) = false ∨
        (blocked = false ∧ ∀ es, join base n ≠ some (.dir es))) := by
  unfold unlinkWith
  cases blocked with
  | true => simp
  | false =>
    simp only [Bool.false_eq_true, if_false, true_and]
    rcases hj : join base n with _ | (b | es | _)
    · have : unlinkSync base n = base := by simp [unlinkSync, hj]
      simp [this, hj, existsSync]
    · have h0 : ∀ es, join base n ≠ some (.dir es) := by simp [hj]
      rw [join_unlinkSync_same n base h0]
      simp [existsSync]
    · have : unlinkSync base n = base := by simp [unlinkSync, hj]
      simp [this, hj, existsSync]
    · have h0 : ∀ es, join base n ≠ some (.dir es) := by simp [hj]
      rw [join_unlinkSync_same n base h0]
      simp [existsSync]

/-- C5 as stated fails.  In `fsFlagIsDir` the opt-out flag is a directory:
`unlinkSync` raises, the guard swallows the error, and the flag is still
there after the run.  In `fsSentinelIsDir` the sentinel file is a directory:
it survives the run, the project stays initialized, and the next run of the
guard, with `.pilot/` missing, exits with code 2. -/
theorem opt_out_single_use_counterexample :
    (existsSync (ONBOARDING fsFlagIsDir) = false ∧ existsSync (NO_GUARD fsFlagIsDir) = true ∧
      existsSync (NO_GUARD (postBashGuard noFaults fsFlagIsDir).fs) = true) ∧
    (existsSync (ONBOARDING fsSentinelIsDir) = false ∧
      existsSync (NO_GUARD fsSentinelIsDir) = true ∧
      existsSync (NO_GUARD (postBashGuard noFaults fsSentinelIsDir).fs) = false ∧
      existsSync (SENTINEL_LOCAL (postBashGuard noFaults fsSentinelIsDir).fs) = true ∧
      (postBashGuard noFaults (postBashGuard noFaults fsSentinelIsDir).fs).exitCode = 2) := by
  decide

/-- C5 (opt-out single use), amended.  With the opt-out flag present and no
onboarding flag, one run of the guard is silent whatever becomes of its three
removals (no output, no copy, exit 0, protected items untouched even if
missing).  Afterwards the flag is gone exactly when its removal succeeded: it
is not a directory and no error outside the tree stopped `unlinkSync`; the
same holds for the sentinel file, and the durable snapshot is gone when
`rmSync` raised nothing.  When all three removals succeed the project no
longer counts as initialized; and in every state that is not initialized the
guard (without a new flag) and `pre-bash.js` are silent and change nothing. -/
theorem opt_out_single_use (rm : Removals) (ft : Faults) (fs : FS)
    (hon : existsSync (ONBOARDING fs) = false)
    (hflag : existsSync (NO_GUARD fs) = true) :
    ((postBashGuardWith rm ft fs).exitCode = 0 ∧ (postBashGuardWith rm ft fs).stderr = none ∧
      (postBashGuardWith rm ft fs).attempts = [] ∧
      (postBashGuardWith rm ft fs).fs.pilot = fs.pilot ∧
      (postBashGuardWith rm ft fs).fs.claudeMd = fs.claudeMd) ∧
    (existsSync (NO_GUARD (postBashGuardWith rm ft fs).fs) = false ↔
      (rm.flag = false ∧ ∀ es, NO_GUARD fs ≠ some (.dir es))) ∧
    (existsSync (SENTINEL_LOCAL (postBashGuardWith rm ft fs).fs) = false ↔
      (existsSync (SENTINEL_LOCAL fs) = false ∨
        (rm.sentinel = false ∧ ∀ es, SENTINEL_LOCAL fs ≠ some (.dir es)))) ∧
    (rm.tmp = none → (postBashGuardWith rm ft fs).fs.snapshotTmp = none) ∧
    (rm.flag = false → (∀ es, NO_GUARD fs ≠ some (.dir es)) →
      rm.sentinel = false → (∀ es, SENTINEL_LOCAL fs ≠ some (.dir es)) → rm.tmp = none →
      existsSync (NO_GUARD (postBashGuardWith rm ft fs).fs) = false ∧
      existsSync (SENTINEL_LOCAL (postBashGuardWith rm ft fs).fs) = false ∧
      (postBashGuardWith rm ft fs).fs.snapshotTmp = none ∧
      initialized (postBashGuardWith rm ft fs).fs = false) ∧
    (∀ (rm2 : Removals) (ft2 : Faults) (s : FS), initialized s = false →
      existsSync (NO_GUARD s) = false → postBashGuardWith rm2 ft2 s = ⟨s, 0, none, []⟩) ∧
    (∀ (ft2 : Faults) (stamp : String) (s : FS), initialized s = false →
      preBash ft2 stamp s = ⟨s, 0, false, none, [], none, []⟩) := by
  have hrun : postBashGuardWith rm ft fs =
      ⟨{ fs with
          claudeDir := unlinkWith rm.sentinel (unlinkWith rm.flag fs.claudeDir ".pp-no-guard")
            "project-pilot-initialized"
          snapshotTmp := rmTmp rm.tmp fs.snapshotTmp }, 0, none, []⟩ := by
    unfold postBashGuardWith
    simp [hon, hflag]
  have hne : ("project-pilot-initialized" : String) ≠ ".pp-no-guard" := by decide
  have hg : existsSync (NO_GUARD (postBashGuardWith rm ft fs).fs) = false ↔
      (rm.flag = false ∧ ∀ es, NO_GUARD fs ≠ some (.dir es)) := by
    rw [hrun]
    simp only [NO_GUARD]
    rw [join_unlinkWith_ne hne, existsSync_join_unlinkWith]
    have hf : existsSync (join fs.claudeDir ".pp-no-guard") = true := hflag
    simp [hf]
  have hs : existsSync (SENTINEL_LOCAL (postBashGuardWith rm ft fs).fs) = false ↔
      (existsSync (SENTINEL_LOCAL fs) = false ∨
        (rm.sentinel = false ∧ ∀ es, SENTINEL_LOCAL fs ≠ some (.dir es))) := by
    rw [hrun]
    simp only [SENTINEL_LOCAL]
    rw [existsSync_join_unlinkWith, join_unlinkWith_ne hne.symm]
  have ht : rm.tmp = none → (postBashGuardWith rm ft fs).fs.snapshotTmp = none := by
    intro h
    rw [hrun]
    simp only [h, rmTmp]
    cases fs.snapshotTmp <;> rfl
  refine ⟨?_, hg, hs, ht, ?_, ?_, ?_⟩
  · rw [hrun]; simp
  · intro f1 f2 s1 s2 t1
    have e1 := hg.mpr ⟨f1, f2⟩
    have e2 := hs.mpr (Or.inr ⟨s1, s2⟩)
    have e3 := ht t1
    refine ⟨e1, e2, e3, ?_⟩
    simp only [initialized, e2, SENTINEL_TMP, e3, Bool.false_or]
    rfl
  · intro rm2 ft2 s hi hgs
    rw [(postBashGuardWith_observable rm2 ft2 s).2.2.2.2.2 hgs]
    exact postBashGuard_uninitialized ft2 s hi hgs
  · intro ft2 stamp s hi
    exact preBash_uninitialized ft2 stamp s hi

/-! ## Restore order -/

theorem tryRestore_snapshotDir (ft : Faults) (loc loc2 : Loc) (mp mc : Bool) (fs : FS) :
    snapshotDir (tryRestore ft loc mp mc fs).fs loc2 = snapshotDir fs loc2 := by
  rw [tryRestore_fs]
  cases loc2 <;> simp [snapshotDir, SNAPSHOT_LOCAL]

theorem mem_tryRestore_attempts (ft : Faults) (loc : Loc) (mp mc : Bool) (fs : FS) (a : Attempt) :
    a ∈ (tryRestore ft loc mp mc fs).attempts ↔
      (mp = true ∧ ∃ r, pilotCopy ft loc fs = some r ∧ a = ⟨loc, ".pilot/", r.err.isNone⟩) ∨
      (mc = true ∧ ∃ r, claudeCopy ft loc fs = some r ∧ a = ⟨loc, "CLAUDE.md", r.err.isNone⟩) := by
  rw [tryRestore_attempts]
  cases mp <;> cases mc <;>
    rcases pilotCopy ft loc fs with _ | r1 <;>
    rcases claudeCopy ft loc fs with _ | r2 <;>
    simp [attemptOf]

theorem pilotCopy_isSome (ft : Faults) (loc : Loc) (fs : FS) :
    (pilotCopy ft loc fs).isSome = (join (snapshotDir fs loc) "pilot").isSome := by
  unfold pilotCopy
  cases join (snapshotDir fs loc) "pilot" <;> rfl

theorem claudeCopy_isSome (ft : Faults) (loc : Loc) (fs : FS) :
    (claudeCopy ft loc fs).isSome = (join (snapshotDir fs loc) "CLAUDE.md").isSome := by
  unfold claudeCopy
  cases join (snapshotDir fs loc) "CLAUDE.md" <;> rfl

set_option maxHeartbeats 4000000 in
/-- C9 (restore priority).  In an armed state with item `X` missing: the
copies from the local snapshot all come before the copies from the durable
one; a copy of `X` from the local snapshot is run exactly when that snapshot
holds `X`; if it succeeded, `X` is never copied from the durable snapshot;
if `X` was not restored from the local snapshot (not held there, directory
missing, or the copy raised), a copy of `X` from the durable snapshot is run
exactly when the durable snapshot holds `X`. -/
theorem restore_priority (ft : Faults) (fs : FS) (X : Item)
    (ha : armed fs = true) (hX : existsSync (fs.item X) = false) :
    (∃ l t, (postBashGuard ft fs).attempts = l ++ t ∧
      (∀ a ∈ l, a.loc = Loc.localSnap) ∧ (∀ a ∈ t, a.loc = Loc.tmpSnap)) ∧
    ((∃ ok, (⟨Loc.localSnap, X.label, ok⟩ : Attempt) ∈ (postBashGuard ft fs).attempts) ↔
      existsSync (join (SNAPSHOT_LOCAL fs) X.entry) = true) ∧
    ((⟨Loc.localSnap, X.label, true⟩ : Attempt) ∈ (postBashGuard ft fs).attempts →
      ∀ a ∈ (postBashGuard ft fs).attempts, a.item = X.label → a.loc = Loc.localSnap) ∧
    ((⟨Loc.localSnap, X.label, true⟩ : Attempt) ∉ (postBashGuard ft fs).attempts →
      ((∃ ok, (⟨Loc.tmpSnap, X.label, ok⟩ : Attempt) ∈ (postBashGuard ft fs).attempts) ↔
        existsSync (join fs.snapshotTmp X.entry) = true)) := by
  have hcond : ¬ (existsSync fs.pilot && existsSync fs.claudeMd) = true := by
    cases X <;> simp [FS.item] at hX <;> simp [hX]
  have hatt : (postBashGuard ft fs).attempts =
      (recover ft (!existsSync fs.pilot) (!existsSync fs.claudeMd) fs).attempts := by
    rw [postBashGuard_armed ft fs ha, if_neg hcond]
    exact (report_exit _ _ _).2.2.1
  rw [hatt, recover_attempts]
  refine ⟨⟨_, _, rfl, ?_, ?_⟩, ?_⟩
  · intro a h
    rw [mem_tryRestore_attempts] at h
    rcases h with ⟨-, r, -, rfl⟩ | ⟨-, r, -, rfl⟩ <;> rfl
  · intro a h
    rw [mem_tryRestore_attempts] at h
    rcases h with ⟨-, r, -, rfl⟩ | ⟨-, r, -, rfl⟩ <;> rfl
  · have e1 : existsSync (join (SNAPSHOT_LOCAL fs) "pilot") =
        (pilotCopy ft .localSnap fs).isSome := by rw [pilotCopy_isSome]; rfl
    have e2 : existsSync (join (SNAPSHOT_LOCAL fs) "CLAUDE.md") =
        (claudeCopy ft .localSnap fs).isSome := by rw [claudeCopy_isSome]; rfl
    have e3 : ∀ mp mc, existsSync (join fs.snapshotTmp "pilot") =
        (pilotCopy ft .tmpSnap (tryRestore ft .localSnap mp mc fs).fs).isSome := by
      intro mp mc; rw [pilotCopy_isSome, tryRestore_snapshotDir]; rfl
    have e4 : ∀ mp mc, existsSync (join fs.snapshotTmp "CLAUDE.md") =
        (claudeCopy ft .tmpSnap (tryRestore ft .localSnap mp mc fs).fs).isSome := by
      intro mp mc; rw [claudeCopy_isSome, tryRestore_snapshotDir]; rfl
    simp only [tryRestore_attempts]
    cases X with
    | pilot =>
      have hp : existsSync fs.pilot = false := by simpa [FS.item] using hX
      simp only [Item.entry, Item.label, e1, e3 (!existsSync fs.pilot) (!existsSync fs.claudeMd), hp]
      generalize (tryRestore ft .localSnap (!false) (!existsSync fs.claudeMd) fs).fs = fs1
      cases existsSync fs.claudeMd <;>
        rcases pilotCopy ft .localSnap fs with _ | ⟨d1, _ | m1⟩ <;>
        rcases claudeCopy ft .localSnap fs with _ | ⟨d2, _ | m2⟩ <;>
        rcases pilotCopy ft .tmpSnap fs1 with _ | ⟨d3, _ | m3⟩ <;>
        rcases claudeCopy ft .tmpSnap fs1 with _ | ⟨d4, _ | m4⟩ <;>
        simp [attemptOf, copyOk]
    | claudeMd =>
      have hc : existsSync fs.claudeMd = false := by simpa [FS.item] using hX
      simp only [Item.entry, Item.label, e2, e4 (!existsSync fs.pilot) (!existsSync fs.claudeMd), hc]
      generalize (tryRestore ft .localSnap (!existsSync fs.pilot) (!false) fs).fs = fs1
      cases existsSync fs.pilot <;>
        rcases pilotCopy ft .localSnap fs with _ | ⟨d1, _ | m1⟩ <;>
        rcases claudeCopy ft .localSnap fs with _ | ⟨d2, _ | m2⟩ <;>
        rcases pilotCopy ft .tmpSnap fs1 with _ | ⟨d3, _ | m3⟩ <;>
        rcases claudeCopy ft .tmpSnap fs1 with _ | ⟨d4, _ | m4⟩ <;>
        simp [attemptOf, copyOk]

/-! ## Copies -/

theorem copyEntries_dest (es d : List (String × Node)) :
    ∃ d2, (copyEntries es d).dest = some (.dir d2) := by
  induction es generalizing d with
  | nil => exact ⟨d, by simp [copyEntries]⟩
  | cons e rest ih =>
    obtain ⟨name, n⟩ := e
    cases n with
    | file b =>
      unfold copyEntries
      dsimp only
      split
      · exact ⟨_, rfl⟩
      · exact ih _
    | dir sub =>
      unfold copyEntries
      dsimp only
      split
      · exact ⟨_, rfl⟩
      · exact ih _
    | other =>
      unfold copyEntries
      exact ih _

theorem copyDirSync_dest_isSome (src : Node) (dest : Option Node) :
    (copyDirSync src dest).dest.isSome = true := by
  unfold copyDirSync
  split
  · rfl
  · rfl
  · split
    · next es =>
      obtain ⟨d2, h⟩ := copyEntries_dest es _
      rw [h]; rfl
    · rfl
  · split
    · next es =>
      obtain ⟨d2, h⟩ := copyEntries_dest es _
      rw [h]; rfl
    · rfl

theorem copyFileSync_dest_isSome (src : Node) (dest : Option Node)
    (h : (copyFileSync src dest).err = none) : (copyFileSync src dest).dest.isSome = true := by
  unfold copyFileSync at h ⊢
  cases src <;> cases dest <;> simp_all
  next b n => cases n <;> simp_all

theorem faulty_ok (f : Option (String × Option Node)) (run : CopyRes)
    (h : (faulty f run).err = none) : faulty f run = run := by
  unfold faulty at h ⊢
  cases f with
  | none => rfl
  | some p => simp at h

/-! ## Capture -/

theorem pilotCapture_ok (f : Option (String × Option Node)) (p : Node) (dest : Option Node)
    (h : (faulty f (copyDirSync p dest)).err = none) :
    ∃ n, (faulty f (copyDirSync p dest)).dest = some n := by
  rw [faulty_ok f _ h]
  exact Option.isSome_iff_exists.mp (copyDirSync_dest_isSome p dest)

theorem claudeCapture_ok (f : Option (String × Option Node)) (c : Node) (dest : Option Node)
    (h : (faulty f (copyFileSync c dest)).err = none) :
    ∃ n, (faulty f (copyFileSync c dest)).dest = some n := by
  have h2 := h
  rw [faulty_ok f _ h] at h2 ⊢
  exact Option.isSome_iff_exists.mp (copyFileSync_dest_isSome c dest h2)

theorem takeSnapshot_ok (ft : Faults) (loc : Loc) (stamp : String) (fs : FS)
    (h : (takeSnapshot ft loc stamp fs).threw = none) :
    existsSync (join (takeSnapshot ft loc stamp fs).snap "pilot") = existsSync fs.pilot ∧
    existsSync (join (takeSnapshot ft loc stamp fs).snap "CLAUDE.md") = existsSync fs.claudeMd ∧
    join (takeSnapshot ft loc stamp fs).snap ".sentinel" = some (.file stamp) := by
  have j1 : join (some (.dir [])) "pilot" = none := rfl
  have j2 : join (some (.dir [])) "CLAUDE.md" = none := rfl
  have j3 : ∀ n, join (putAt (some (.dir [])) "pilot" (some n)) "CLAUDE.md" = none := fun _ => rfl
  unfold takeSnapshot at h ⊢
  rcases hp : fs.pilot with _ | p <;> rcases hc : fs.claudeMd with _ | c
  · simp [SnapOut.next, stagePilot, stageClaude, stampSentinel, hp, hc, putAt, join,
      lookupEntry, setEntry, existsSync]
  · simp only [SnapOut.next, stagePilot, stageClaude, stampSentinel, hp, hc, j2] at h ⊢
    cases he : (faulty (ft loc .claudeMd) (copyFileSync c none)).err with
    | some e => simp [he] at h
    | none =>
      obtain ⟨n, hn⟩ := claudeCapture_ok _ _ _ he
      simp [he, hn, existsSync, putAt, join, lookupEntry, setEntry]
  · simp only [SnapOut.next, stagePilot, stageClaude, stampSentinel, hp, hc, j1] at h ⊢
    cases he : (faulty (ft loc .pilot) (copyDirSync p none)).err with
    | some e => simp [he] at h
    | none =>
      obtain ⟨n, hn⟩ := pilotCapture_ok _ _ _ he
      simp [he, hn, existsSync, putAt, join, lookupEntry, setEntry]
  · simp only [SnapOut.next, stagePilot, stageClaude, stampSentinel, hp, hc, j1] at h ⊢
    cases he : (faulty (ft loc .pilot) (copyDirSync p none)).err with
    | some e => simp [he] at h
    | none =>
      obtain ⟨n, hn⟩ := pilotCapture_ok _ _ _ he
      simp only [he, hn, j3] at h ⊢
      cases he2 : (faulty (ft loc .claudeMd) (copyFileSync c none)).err with
      | some e => simp [he2] at h
      | none =>
        obtain ⟨n2, hn2⟩ := claudeCapture_ok _ _ _ he2
        simp [he2, hn2, existsSync, putAt, join, lookupEntry, setEntry]

theorem preBash_active (ft : Faults) (stamp : String) (fs : FS)
    (hon : existsSync (ONBOARDING fs) = false) (hinit : initialized fs = true) :
    (preBash ft stamp fs).fs.pilot = fs.pilot ∧ (preBash ft stamp fs).fs.claudeMd = fs.claudeMd ∧
    (preBash ft stamp fs).fs.snapshotTmp = (takeSnapshot ft .tmpSnap stamp fs).snap ∧
    (preBash ft stamp fs).tmpThrew = (takeSnapshot ft .tmpSnap stamp fs).threw ∧
    (preBash ft stamp fs).tmpEvents = (takeSnapshot ft .tmpSnap stamp fs).events ∧
    (preBash ft stamp fs).exitCode = 0 ∧ (preBash ft stamp fs).output = false := by
  unfold preBash
  simp [hon, hinit]

theorem preBash_local (ft : Faults) (stamp : String) (fs : FS)
    (hon : existsSync (ONBOARDING fs) = false) (hinit : initialized fs = true)
    (hl : (preBash ft stamp fs).localThrew = none) :
    (takeSnapshot ft .localSnap stamp fs).threw = none ∧
    SNAPSHOT_LOCAL (preBash ft stamp fs).fs = (takeSnapshot ft .localSnap stamp fs).snap ∧
    (preBash ft stamp fs).localEvents = (takeSnapshot ft .localSnap stamp fs).events ∧
    ∀ n, n ≠ ".pp-snapshot" → join (preBash ft stamp fs).fs.claudeDir n = join fs.claudeDir n := by
  unfold preBash at hl ⊢
  simp only [hon, hinit, Bool.false_eq_true, if_false, Bool.not_true] at hl ⊢
  rcases hc : fs.claudeDir with _ | (b | es | _)
  · simp only [hc] at hl ⊢
    refine ⟨hl, ?_, trivial, ?_⟩
    · simp only [SNAPSHOT_LOCAL]
      exact join_putAt_same _ _ _
    · intro n hn
      exact join_putAt_ne (Ne.symm hn) _ _
  · simp [hc] at hl
  · simp only [hc] at hl ⊢
    refine ⟨hl, ?_, trivial, ?_⟩
    · simp only [SNAPSHOT_LOCAL]
      exact join_putAt_same _ _ _
    · intro n hn
      exact join_putAt_ne (Ne.symm hn) _ _
  · simp [hc] at hl

/-! ## Recovery of one item from the local snapshot -/

theorem guard_attempts_armed (ft : Faults) (s : FS) (ha : armed s = true)
    (hm : ¬ (existsSync s.pilot && existsSync s.claudeMd) = true) :
    (postBashGuard ft s).attempts =
      (tryRestore ft .localSnap (!existsSync s.pilot) (!existsSync s.claudeMd) s).attempts ++
      (tryRestore ft .tmpSnap (!existsSync s.pilot && !copyOk (pilotCopy ft .localSnap s))
        (!existsSync s.claudeMd && !copyOk (claudeCopy ft .localSnap s))
        (tryRestore ft .localSnap (!existsSync s.pilot) (!existsSync s.claudeMd) s).fs).attempts := by
  rw [postBashGuard_armed ft s ha, if_neg hm, (report_exit _ _ _).2.2.1, recover_attempts]

theorem local_attempt_mem (ft : Faults) (s : FS) (A : Item) (src : Node)
    (ha : armed s = true) (hA : s.item A = none)
    (hsrc : join (SNAPSHOT_LOCAL s) A.entry = some src) :
    (⟨.localSnap, A.label, (faulty (ft .localSnap A) (copyItem A src none)).err.isNone⟩ : Attempt) ∈
      (postBashGuard ft s).attempts := by
  have hm : ¬ (existsSync s.pilot && existsSync s.claudeMd) = true := by
    cases A <;> simp [FS.item] at hA <;> simp [hA, existsSync]
  rw [guard_attempts_armed ft s ha hm]
  apply List.mem_append_left
  rw [mem_tryRestore_attempts]
  cases A with
  | pilot =>
    left
    simp only [FS.item] at hA
    simp only [Item.entry] at hsrc
    refine ⟨by simp [hA, existsSync], _, ?_, rfl⟩
    simp [pilotCopy, snapshotDir, hsrc, hA, copyItem]
  | claudeMd =>
    right
    simp only [FS.item] at hA
    simp only [Item.entry] at hsrc
    refine ⟨by simp [hA, existsSync], _, ?_, rfl⟩
    simp [claudeCopy, snapshotDir, hsrc, hA, copyItem]

theorem guard_restores_from_local (ft : Faults) (s : FS) (A : Item) (src : Node)
    (ha : armed s = true) (hA : s.item A = none) (hB : existsSync (s.item A.other) = true)
    (hsrc : join (SNAPSHOT_LOCAL s) A.entry = some src)
    (hok : (faulty (ft .localSnap A) (copyItem A src none)).err = none) :
    (postBashGuard ft s).attempts = [⟨.localSnap, A.label, true⟩] ∧
    (postBashGuard ft s).stderr = some ⟨.filesRestored, [], [A.label], []⟩ ∧
    (postBashGuard ft s).exitCode = 0 ∧
    (postBashGuard ft s).fs.item A = (copyItem A src none).dest ∧
    (postBashGuard ft s).fs.item A.other = s.item A.other ∧
    (postBashGuard ft s).fs.claudeDir = s.claudeDir ∧
    (postBashGuard ft s).fs.snapshotTmp = s.snapshotTmp := by
  have hf := faulty_ok _ _ hok
  rw [hf] at hok
  unfold armed at ha
  simp only [Bool.and_eq_true, Bool.not_eq_true'] at ha
  obtain ⟨⟨h1, h2⟩, h3⟩ := ha
  have hex : existsSync (join (SNAPSHOT_LOCAL s) A.entry) = true := by simp [hsrc, existsSync]
  have hsl : existsSync (SNAPSHOT_LOCAL s) = true := by
    revert hsrc
    cases SNAPSHOT_LOCAL s <;> simp [join, existsSync]
  cases A with
  | pilot =>
    simp only [FS.item, Item.other] at hA hB
    simp only [Item.entry] at hsrc hex
    simp only [copyItem] at hok hf
    simp only [existsSync] at h1 h2 hB hsl hex
    simp [postBashGuard, h1, h2, h3, hA, hB, recover, tryRestore, snapshotDir, hsl, restorePilot,
      hsrc, hf, hok, report, snapshotHadMissingContent, hex, existsSync, FS.item, Item.label,
      Item.other, copyItem]
  | claudeMd =>
    simp only [FS.item, Item.other] at hA hB
    simp only [Item.entry] at hsrc hex
    simp only [copyItem] at hok hf
    simp only [existsSync] at h1 h2 hB hsl hex
    simp [postBashGuard, h1, h2, h3, hA, hB, recover, tryRestore, snapshotDir, hsl, restoreClaude,
      hsrc, hf, hok, report, snapshotHadMissingContent, hex, existsSync, FS.item, Item.label,
      Item.other, copyItem]

theorem remove_item_same (s : FS) (A : Item) : (s.remove A).item A = none := by
  cases A <;> rfl

theorem remove_item_other (s : FS) (A : Item) : (s.remove A).item A.other = s.item A.other := by
  cases A <;> rfl

theorem remove_claudeDir (s : FS) (A : Item) :
    (s.remove A).claudeDir = s.claudeDir ∧ (s.remove A).snapshotTmp = s.snapshotTmp := by
  cases A <;> exact ⟨rfl, rfl⟩

theorem remove_onboarding (s : FS) (A : Item) (h : existsSync (ONBOARDING s) = false) :
    existsSync (ONBOARDING (s.remove A)) = false := by
  cases A with
  | pilot => rfl
  | claudeMd => exact h

/-- C1 (full recovery round trip).  In an initialized state without
onboarding or opt-out flag where `.pilot/` and `CLAUDE.md` both exist: if
`pre-bash.js` captures both snapshots without an error, then item `A` alone is
deleted, and the copies of the guard succeed, then the guard runs exactly one
copy, of `A` from the local snapshot (none from the durable one), reports `A`
and only `A` under `Files Restored Automatically`, exits 0, has put back `A`
as the copy of its staged version, and leaves the other item and the durable
snapshot unchanged. -/
theorem full_recovery_round_trip (f1 f2 : Faults) (stamp : String) (fs : FS) (A : Item)
    (hon : existsSync (ONBOARDING fs) = false) (hng : existsSync (NO_GUARD fs) = false)
    (hinit : initialized fs = true)
    (hp : existsSync fs.pilot = true) (hc : existsSync fs.claudeMd = true)
    (hcapL : (preBash f1 stamp fs).localThrew = none)
    (hcapT : (preBash f1 stamp fs).tmpThrew = none)
    (hcopy : ∀ a ∈ (postBashGuard f2 ((preBash f1 stamp fs).fs.remove A)).attempts, a.ok = true) :
    (postBashGuard f2 ((preBash f1 stamp fs).fs.remove A)).attempts =
      [⟨.localSnap, A.label, true⟩] ∧
    (postBashGuard f2 ((preBash f1 stamp fs).fs.remove A)).stderr =
      some ⟨.filesRestored, [], [A.label], []⟩ ∧
    (postBashGuard f2 ((preBash f1 stamp fs).fs.remove A)).exitCode = 0 ∧
    (∃ src, join (SNAPSHOT_LOCAL (preBash f1 stamp fs).fs) A.entry = some src ∧
      (postBashGuard f2 ((preBash f1 stamp fs).fs.remove A)).fs.item A = (copyItem A src none).dest) ∧
    existsSync ((postBashGuard f2 ((preBash f1 stamp fs).fs.remove A)).fs.item A) = true ∧
    (postBashGuard f2 ((preBash f1 stamp fs).fs.remove A)).fs.item A.other = fs.item A.other ∧
    (postBashGuard f2 ((preBash f1 stamp fs).fs.remove A)).fs.snapshotTmp =
      (preBash f1 stamp fs).fs.snapshotTmp := by
  obtain ⟨sp, sc, st, stt, -, -, -⟩ := preBash_active f1 stamp fs hon hinit
  obtain ⟨lt, ls, -, lj⟩ := preBash_local f1 stamp fs hon hinit hcapL
  obtain ⟨lp, lc, -⟩ := takeSnapshot_ok f1 .localSnap stamp fs lt
  rw [stt] at hcapT
  obtain ⟨-, -, tsent⟩ := takeSnapshot_ok f1 .tmpSnap stamp fs hcapT
  generalize hs : (preBash f1 stamp fs).fs = s at *
  obtain ⟨rc, rt⟩ := remove_claudeDir s A
  -- the guard is armed in the state after the deletion
  have hon2 : existsSync (ONBOARDING (s.remove A)) = false := by
    apply remove_onboarding
    simp only [ONBOARDING, sp]
    exact hon
  have hng2 : existsSync (NO_GUARD (s.remove A)) = false := by
    simp only [NO_GUARD, rc]
    rw [lj _ (by decide)]
    exact hng
  have hin2 : initialized (s.remove A) = true := by
    simp [initialized, SENTINEL_TMP, rt, st, tsent, existsSync]
  have ha : armed (s.remove A) = true := by simp [armed, hon2, hng2, hin2]
  -- the local snapshot holds the deleted item
  have hex : existsSync (join (SNAPSHOT_LOCAL (s.remove A)) A.entry) = true := by
    simp only [SNAPSHOT_LOCAL, rc]
    simp only [SNAPSHOT_LOCAL] at ls
    rw [ls]
    cases A
    · simpa [Item.entry, hp] using lp
    · simpa [Item.entry, hc] using lc
  obtain ⟨src, hsrc⟩ := Option.isSome_iff_exists.mp hex
  have hB : existsSync ((s.remove A).item A.other) = true := by
    rw [remove_item_other]
    cases A
    · simpa [FS.item, Item.other, sc] using hc
    · simpa [FS.item, Item.other, sp] using hp
  have hmem := local_attempt_mem f2 (s.remove A) A src ha (remove_item_same s A) hsrc
  have hok := hcopy _ hmem
  simp only [Option.isNone_iff_eq_none] at hok
  obtain ⟨g1, g2, g3, g4, g5, -, g7⟩ :=
    guard_restores_from_local f2 (s.remove A) A src ha (remove_item_same s A) hB hsrc hok
  refine ⟨g1, g2, g3, ⟨src, ?_, g4⟩, ?_, ?_, ?_⟩
  · simpa only [SNAPSHOT_LOCAL, rc] using hsrc
  · rw [g4]
    cases A
    · exact copyDirSync_dest_isSome src none
    · have hok2 := hok
      rw [faulty_ok _ _ hok] at hok2
      exact copyFileSync_dest_isSome src none hok2
  · rw [g5, remove_item_other]
    cases A
    · simp [FS.item, Item.other, sc]
    · simp [FS.item, Item.other, sp]
  · rw [g7, rt]

/-! ## Recovery from the durable snapshot -/

theorem tmp_attempt_mem (ft : Faults) (s : FS) (X : Item) (src : Node)
    (ha : armed s = true) (hX : s.item X = none)
    (hloc : join (SNAPSHOT_LOCAL s) X.entry = none)
    (hsrc : join s.snapshotTmp X.entry = some src) :
    (⟨.tmpSnap, X.label, (faulty (ft .tmpSnap X) (copyItem X src none)).err.isNone⟩ : Attempt) ∈
      (postBashGuard ft s).attempts := by
  have hm : ¬ (existsSync s.pilot && existsSync s.claudeMd) = true := by
    cases X <;> simp [FS.item] at hX <;> simp [hX, existsSync]
  rw [guard_attempts_armed ft s ha hm]
  apply List.mem_append_right
  rw [mem_tryRestore_attempts]
  cases X with
  | pilot =>
    left
    simp only [FS.item] at hX
    simp only [Item.entry] at hsrc hloc
    have hpl : pilotCopy ft .localSnap s = none := by simp [pilotCopy, snapshotDir, hloc]
    refine ⟨by simp [hX, existsSync, hpl, copyOk], _, ?_, rfl⟩
    simp [pilotCopy, snapshotDir, tryRestore_fs, hsrc, hX, copyItem, hloc, destAfter, existsSync]
  | claudeMd =>
    right
    simp only [FS.item] at hX
    simp only [Item.entry] at hsrc hloc
    have hcl : claudeCopy ft .localSnap s = none := by simp [claudeCopy, snapshotDir, hloc]
    refine ⟨by simp [hX, existsSync, hcl, copyOk], _, ?_, rfl⟩
    simp [claudeCopy, snapshotDir, tryRestore_fs, hsrc, hX, copyItem, hloc, destAfter, existsSync]

/-- C2 (durable fallback).  Without onboarding or opt-out flag, when the local
snapshot directory does not exist, the durable one exists with its
`.sentinel` and holds every protected item that is missing (at least one is),
and the copies succeed: the guard copies each missing item from the durable
snapshot, reports exactly the missing items under `Files Restored
Automatically`, exits 0, and afterwards both items exist.  Nothing is assumed
about `.claude/project-pilot-initialized`. -/
theorem durable_fallback (ft : Faults) (fs : FS)
    (hon : existsSync (ONBOARDING fs) = false) (hng : existsSync (NO_GUARD fs) = false)
    (hloc : existsSync (SNAPSHOT_LOCAL fs) = false)
    (hsent : existsSync (SENTINEL_TMP fs) = true)
    (hmiss : ∃ X : Item, existsSync (fs.item X) = false)
    (hhold : ∀ X : Item, existsSync (fs.item X) = false →
      existsSync (join fs.snapshotTmp X.entry) = true)
    (hcopy : ∀ a ∈ (postBashGuard ft fs).attempts, a.ok = true) :
    (postBashGuard ft fs).exitCode = 0 ∧
    (postBashGuard ft fs).stderr = some ⟨.filesRestored, [],
      (if existsSync fs.pilot then [] else [".pilot/"]) ++
        (if existsSync fs.claudeMd then [] else ["CLAUDE.md"]), []⟩ ∧
    (postBashGuard ft fs).attempts =
      (if existsSync fs.pilot then [] else [⟨.tmpSnap, ".pilot/", true⟩]) ++
        (if existsSync fs.claudeMd then [] else [⟨.tmpSnap, "CLAUDE.md", true⟩]) ∧
    (∀ X : Item, existsSync ((postBashGuard ft fs).fs.item X) = true) ∧
    (∀ X : Item, existsSync (fs.item X) = true → (postBashGuard ft fs).fs.item X = fs.item X) ∧
    (∀ X : Item, existsSync (fs.item X) = false →
      ∃ src, join fs.snapshotTmp X.entry = some src ∧
        (postBashGuard ft fs).fs.item X = (copyItem X src none).dest) := by
  have hin : initialized fs = true := by simp [initialized, hsent]
  have ha : armed fs = true := by simp [armed, hon, hng, hin]
  have hl : ∀ n, join (SNAPSHOT_LOCAL fs) n = none := by
    intro n
    revert hloc
    cases SNAPSHOT_LOCAL fs <;> simp [existsSync, join]
  have hst : existsSync fs.snapshotTmp = true := by
    revert hsent
    unfold SENTINEL_TMP
    cases fs.snapshotTmp <;> simp [existsSync, join]
  have key : ∀ X : Item, existsSync (fs.item X) = false →
      ∃ src, join fs.snapshotTmp X.entry = some src ∧
        faulty (ft .tmpSnap X) (copyItem X src none) = copyItem X src none ∧
        (copyItem X src none).err = none := by
    intro X hX
    obtain ⟨src, hsrc⟩ := Option.isSome_iff_exists.mp (hhold X hX)
    have hXn : fs.item X = none := by simpa [existsSync] using hX
    have hmem := tmp_attempt_mem ft fs X src ha hXn (hl _) hsrc
    have hok := hcopy _ hmem
    simp only [Option.isNone_iff_eq_none] at hok
    have hf := faulty_ok _ _ hok
    exact ⟨src, hsrc, hf, by rw [hf] at hok; exact hok⟩
  unfold armed at ha
  simp only [Bool.and_eq_true, Bool.not_eq_true'] at ha
  obtain ⟨⟨h1, h2⟩, h3⟩ := ha
  simp only [existsSync] at h1 h2 hloc hst
  obtain ⟨X0, hX0⟩ := hmiss
  rcases hp : fs.pilot with _ | p <;> rcases hc : fs.claudeMd with _ | c
  · obtain ⟨sp, hsp, hfp, hep⟩ := key .pilot (by simp [FS.item, hp, existsSync])
    obtain ⟨sc, hsc, hfc, hec⟩ := key .claudeMd (by simp [FS.item, hc, existsSync])
    simp only [Item.entry, copyItem] at hsp hfp hep hsc hfc hec
    have d1 := copyDirSync_dest_isSome sp none
    have d2 := copyFileSync_dest_isSome sc none hec
    simp [postBashGuard, h1, h2, h3, hp, hc, recover, tryRestore, snapshotDir, hloc, hst,
      restorePilot, restoreClaude, hsp, hsc, hfp, hfc, hep, hec, report,
      snapshotHadMissingContent, existsSync, FS.item, Item.entry, copyItem, d1, d2]
    refine ⟨?_, ?_, ?_⟩ <;> intro X <;> cases X <;> simp [d1, d2, hsp, hsc]
  · obtain ⟨sp, hsp, hfp, hep⟩ := key .pilot (by simp [FS.item, hp, existsSync])
    simp only [Item.entry, copyItem] at hsp hfp hep
    have d1 := copyDirSync_dest_isSome sp none
    simp [postBashGuard, h1, h2, h3, hp, hc, recover, tryRestore, snapshotDir, hloc, hst,
      restorePilot, restoreClaude, hsp, hfp, hep, report,
      snapshotHadMissingContent, existsSync, FS.item, Item.entry, copyItem, d1]
    refine ⟨?_, ?_, ?_⟩ <;> intro X <;> cases X <;> simp [d1, hsp]
  · obtain ⟨sc, hsc, hfc, hec⟩ := key .claudeMd (by simp [FS.item, hc, existsSync])
    simp only [Item.entry, copyItem] at hsc hfc hec
    have d2 := copyFileSync_dest_isSome sc none hec
    simp [postBashGuard, h1, h2, h3, hp, hc, recover, tryRestore, snapshotDir, hloc, hst,
      restorePilot, restoreClaude, hsc, hfc, hec, report,
      snapshotHadMissingContent, existsSync, FS.item, Item.entry, copyItem, d2]
    refine ⟨?_, ?_, ?_⟩ <;> intro X <;> cases X <;> simp [d2, hsc]
  · cases X0 <;> simp [FS.item, hp, hc, existsSync] at hX0

/-! ## Classification of a loss -/

theorem snapshotHadMissingContent_eq (snap : Option Node) (cp cc : Bool) :
    snapshotHadMissingContent snap cp cc =
      ((cp && existsSync (join snap "pilot")) || (cc && existsSync (join snap "CLAUDE.md"))) := by
  unfold snapshotHadMissingContent
  cases snap with
  | none => simp [existsSync, join]
  | some n =>
    cases cp <;> cases cc <;> cases existsSync (join (some n) "pilot") <;>
      cases existsSync (join (some n) "CLAUDE.md") <;> simp [existsSync]

theorem recover_snapshotDir (ft : Faults) (mp mc : Bool) (fs : FS) (loc : Loc) :
    snapshotDir (recover ft mp mc fs).fs loc = snapshotDir fs loc := by
  rw [recover_fs, tryRestore_snapshotDir, tryRestore_snapshotDir]

theorem isSome_false_eq_none {α : Type} (o : Option α) (h : o.isSome = false) : o = none := by
  cases o with
  | none => rfl
  | some _ => simp at h

theorem guard_unstaged_item (ft : Faults) (fs : FS) (B : Item)
    (ha : armed fs = true) (hB : existsSync (fs.item B) = false)
    (hL : existsSync (join (SNAPSHOT_LOCAL fs) B.entry) = false)
    (hT : existsSync (join fs.snapshotTmp B.entry) = false) :
    (postBashGuard ft fs).exitCode = 2 ∧
    ((existsSync (fs.item B.other) = true ∨
        (existsSync (join (SNAPSHOT_LOCAL fs) B.other.entry) = false ∧
          existsSync (join fs.snapshotTmp B.other.entry) = false)) →
      (postBashGuard ft fs).stderr = some ⟨.filesMissing,
        (if existsSync fs.pilot then [] else [".pilot/"]) ++
          (if existsSync fs.claudeMd then [] else ["CLAUDE.md"]), [], []⟩ ∧
      (postBashGuard ft fs).attempts = []) ∧
    ((existsSync (fs.item B.other) = false ∧
        (existsSync (join (SNAPSHOT_LOCAL fs) B.other.entry) = true ∨
          existsSync (join fs.snapshotTmp B.other.entry) = true)) →
      (postBashGuard ft fs).stderr.map (fun rep => rep.banner) = some Banner.integrityAlert ∧
      ∀ rep, (postBashGuard ft fs).stderr = some rep →
        B.label ∈ rep.failed ∧ B.label ∉ rep.restored) := by
  have hm : ¬ (existsSync fs.pilot && existsSync fs.claudeMd) = true := by
    cases B <;> simp [FS.item] at hB <;> simp [hB]
  have e1 : existsSync (join (SNAPSHOT_LOCAL fs) "pilot") =
      (pilotCopy ft .localSnap fs).isSome := by rw [pilotCopy_isSome]; rfl
  have e2 : existsSync (join (SNAPSHOT_LOCAL fs) "CLAUDE.md") =
      (claudeCopy ft .localSnap fs).isSome := by rw [claudeCopy_isSome]; rfl
  have e3 : ∀ mp mc, existsSync (join fs.snapshotTmp "pilot") =
      (pilotCopy ft .tmpSnap (tryRestore ft .localSnap mp mc fs).fs).isSome := by
    intro mp mc; rw [pilotCopy_isSome, tryRestore_snapshotDir]; rfl
  have e4 : ∀ mp mc, existsSync (join fs.snapshotTmp "CLAUDE.md") =
      (claudeCopy ft .tmpSnap (tryRestore ft .localSnap mp mc fs).fs).isSome := by
    intro mp mc; rw [claudeCopy_isSome, tryRestore_snapshotDir]; rfl
  have s1 := recover_snapshotDir ft (!existsSync fs.pilot) (!existsSync fs.claudeMd) fs .localSnap
  have s2 := recover_snapshotDir ft (!existsSync fs.pilot) (!existsSync fs.claudeMd) fs .tmpSnap
  simp only [snapshotDir] at s1 s2
  rw [postBashGuard_armed ft fs ha, if_neg hm]
  unfold report
  simp only [snapshotHadMissingContent_eq, s1, s2, recover_restored, recover_failed,
    recover_attempts, tryRestore_attempts]
  cases B with
  | pilot =>
    have hp : existsSync fs.pilot = false := by simpa [FS.item] using hB
    simp only [Item.entry] at hL hT
    rw [e1] at hL
    rw [e3 (!existsSync fs.pilot) (!existsSync fs.claudeMd)] at hT
    have hL2 := isSome_false_eq_none _ hL
    have hT2 := isSome_false_eq_none _ hT
    simp only [Item.entry, Item.label, Item.other, FS.item, e1, e2,
      e3 (!existsSync fs.pilot) (!existsSync fs.claudeMd),
      e4 (!existsSync fs.pilot) (!existsSync fs.claudeMd), hL2, hT2]
    simp only [hp] at hT2 ⊢
    generalize (tryRestore ft .localSnap (!false) (!existsSync fs.claudeMd) fs).fs = fs1 at *
    cases existsSync fs.claudeMd <;>
      rcases claudeCopy ft .localSnap fs with _ | ⟨d2, _ | m2⟩ <;>
      rcases claudeCopy ft .tmpSnap fs1 with _ | ⟨d4, _ | m4⟩ <;>
      simp [attemptOf, copyOk]
  | claudeMd =>
    have hc : existsSync fs.claudeMd = false := by simpa [FS.item] using hB
    simp only [Item.entry] at hL hT
    rw [e2] at hL
    rw [e4 (!existsSync fs.pilot) (!existsSync fs.claudeMd)] at hT
    have hL2 := isSome_false_eq_none _ hL
    have hT2 := isSome_false_eq_none _ hT
    simp only [Item.entry, Item.label, Item.other, FS.item, e1, e2,
      e3 (!existsSync fs.pilot) (!existsSync fs.claudeMd),
      e4 (!existsSync fs.pilot) (!existsSync fs.claudeMd), hL2, hT2]
    simp only [hc] at hT2 ⊢
    generalize (tryRestore ft .localSnap (!existsSync fs.pilot) (!false) fs).fs = fs1 at *
    cases existsSync fs.pilot <;>
      rcases pilotCopy ft .localSnap fs with _ | ⟨d2, _ | m2⟩ <;>
      rcases pilotCopy ft .tmpSnap fs1 with _ | ⟨d4, _ | m4⟩ <;>
      simp [attemptOf, copyOk]

/-- C3 (true loss detection, amended).  In an armed state where item `B` is
missing and neither snapshot holds it, the guard exits 2.  If the other item
is present, or is held by neither snapshot either, the report is `Files
Missing (Cannot Restore)` listing the missing items, and no copy is run.  If
the other item is missing too and a snapshot holds it, the report is
`Integrity Alert` instead, with `B` among the items not restored. -/
theorem true_loss_detection (ft : Faults) (fs : FS) (B : Item)
    (ha : armed fs = true) (hB : existsSync (fs.item B) = false)
    (hL : existsSync (join (SNAPSHOT_LOCAL fs) B.entry) = false)
    (hT : existsSync (join fs.snapshotTmp B.entry) = false) :
    (postBashGuard ft fs).exitCode = 2 ∧
    ((existsSync (fs.item B.other) = true ∨
        (existsSync (join (SNAPSHOT_LOCAL fs) B.other.entry) = false ∧
          existsSync (join fs.snapshotTmp B.other.entry) = false)) →
      (postBashGuard ft fs).stderr = some ⟨.filesMissing,
        (if existsSync fs.pilot then [] else [".pilot/"]) ++
          (if existsSync fs.claudeMd then [] else ["CLAUDE.md"]), [], []⟩ ∧
      (postBashGuard ft fs).attempts = []) ∧
    ((existsSync (fs.item B.other) = false ∧
        (existsSync (join (SNAPSHOT_LOCAL fs) B.other.entry) = true ∨
          existsSync (join fs.snapshotTmp B.other.entry) = true)) →
      (postBashGuard ft fs).stderr.map (fun rep => rep.banner) = some Banner.integrityAlert ∧
      ∀ rep, (postBashGuard ft fs).stderr = some rep →
        B.label ∈ rep.failed ∧ B.label ∉ rep.restored) :=
  guard_unstaged_item ft fs B ha hB hL hT

/-! ## Capture isolation -/

theorem takeSnapshot_congr (ft1 ft2 : Faults) (loc : Loc) (stamp : String) (fs : FS)
    (h : ∀ X, ft1 loc X = ft2 loc X) :
    takeSnapshot ft1 loc stamp fs = takeSnapshot ft2 loc stamp fs := by
  unfold takeSnapshot stagePilot stageClaude
  simp only [h]

theorem takeSnapshot_events_ok (ft : Faults) (loc : Loc) (stamp : String) (fs : FS)
    (h : (takeSnapshot ft loc stamp fs).threw = none) :
    (takeSnapshot ft loc stamp fs).events =
      (if existsSync fs.pilot then [SnapEvent.copyPilot true] else []) ++
      (if existsSync fs.claudeMd then [SnapEvent.copyClaudeMd true] else []) ++
      [SnapEvent.writeSentinel] := by
  unfold takeSnapshot at h ⊢
  rcases hp : fs.pilot with _ | p <;> rcases hc : fs.claudeMd with _ | c <;>
    simp only [SnapOut.next, stagePilot, stageClaude, stampSentinel, hp, hc] at h ⊢
  · simp [existsSync]
  · generalize faulty (ft loc .claudeMd) (copyFileSync c (join (some (.dir [])) "CLAUDE.md")) = r
      at h ⊢
    rcases r with ⟨d, _ | e⟩ <;> simp_all [existsSync]
  · generalize faulty (ft loc .pilot) (copyDirSync p (join (some (.dir [])) "pilot")) = r at h ⊢
    rcases r with ⟨d, _ | e⟩ <;> simp_all [existsSync]
  · generalize faulty (ft loc .pilot) (copyDirSync p (join (some (.dir [])) "pilot")) = r at h ⊢
    rcases r with ⟨d, _ | e⟩
    · simp only at h ⊢
      generalize faulty (ft loc .claudeMd) (copyFileSync c (join (putAt (some (.dir [])) "pilot" d)
        "CLAUDE.md")) = r2 at h ⊢
      rcases r2 with ⟨d2, _ | e2⟩ <;> simp_all [existsSync]
    · simp at h

theorem takeSnapshot_raised (ft : Faults) (loc : Loc) (stamp : String) (fs : FS) (e : String)
    (h : (takeSnapshot ft loc stamp fs).threw = some e) :
    SnapEvent.writeSentinel ∉ (takeSnapshot ft loc stamp fs).events ∧
    join (takeSnapshot ft loc stamp fs).snap ".sentinel" = none := by
  have n1 : ("pilot" : String) ≠ ".sentinel" := by decide
  have n2 : ("CLAUDE.md" : String) ≠ ".sentinel" := by decide
  have j0 : join (some (.dir [])) ".sentinel" = none := rfl
  unfold takeSnapshot at h ⊢
  rcases hp : fs.pilot with _ | p <;> rcases hc : fs.claudeMd with _ | c <;>
    simp only [SnapOut.next, stagePilot, stageClaude, stampSentinel, hp, hc] at h ⊢
  · simp at h
  · generalize faulty (ft loc .claudeMd) (copyFileSync c (join (some (.dir [])) "CLAUDE.md")) = r
      at h ⊢
    rcases r with ⟨d, _ | e⟩
    · simp at h
    · simp [join_putAt_ne n2, j0]
  · generalize faulty (ft loc .pilot) (copyDirSync p (join (some (.dir [])) "pilot")) = r at h ⊢
    rcases r with ⟨d, _ | e⟩
    · simp at h
    · simp [join_putAt_ne n1, j0]
  · generalize faulty (ft loc .pilot) (copyDirSync p (join (some (.dir [])) "pilot")) = r at h ⊢
    rcases r with ⟨d, _ | e⟩
    · simp only at h ⊢
      generalize faulty (ft loc .claudeMd) (copyFileSync c (join (putAt (some (.dir [])) "pilot" d)
        "CLAUDE.md")) = r2 at h ⊢
      rcases r2 with ⟨d2, _ | e2⟩
      · simp at h
      · simp [join_putAt_ne n1, join_putAt_ne n2, j0]
    · simp [join_putAt_ne n1, j0]

theorem takeSnapshot_pilot_raised (ft : Faults) (loc : Loc) (stamp : String) (fs : FS)
    (h : SnapEvent.copyPilot false ∈ (takeSnapshot ft loc stamp fs).events) :
    (takeSnapshot ft loc stamp fs).events = [SnapEvent.copyPilot false] ∧
    join (takeSnapshot ft loc stamp fs).snap "CLAUDE.md" = none := by
  have n1 : ("pilot" : String) ≠ "CLAUDE.md" := by decide
  have j0 : join (some (.dir [])) "CLAUDE.md" = none := rfl
  unfold takeSnapshot at h ⊢
  rcases hp : fs.pilot with _ | p <;> rcases hc : fs.claudeMd with _ | c <;>
    simp only [SnapOut.next, stagePilot, stageClaude, stampSentinel, hp, hc] at h ⊢
  · simp at h
  · generalize faulty (ft loc .claudeMd) (copyFileSync c (join (some (.dir [])) "CLAUDE.md")) = r
      at h ⊢
    rcases r with ⟨d, _ | e⟩ <;> simp at h
  · generalize faulty (ft loc .pilot) (copyDirSync p (join (some (.dir [])) "pilot")) = r at h ⊢
    rcases r with ⟨d, _ | e⟩
    · simp at h
    · simp [join_putAt_ne n1, j0]
  · generalize faulty (ft loc .pilot) (copyDirSync p (join (some (.dir [])) "pilot")) = r at h ⊢
    rcases r with ⟨d, _ | e⟩
    · simp only at h
      generalize faulty (ft loc .claudeMd) (copyFileSync c (join (putAt (some (.dir [])) "pilot" d)
        "CLAUDE.md")) = r2 at h ⊢
      rcases r2 with ⟨d2, _ | e2⟩ <;> simp at h
    · simp [join_putAt_ne n1, j0]

theorem preBash_local_gen (ft : Faults) (stamp : String) (fs : FS)
    (hon : existsSync (ONBOARDING fs) = false) (hinit : initialized fs = true)
    (hdir : fs.claudeDir = none ∨ ∃ es, fs.claudeDir = some (.dir es)) :
    (preBash ft stamp fs).localThrew = (takeSnapshot ft .localSnap stamp fs).threw ∧
    (preBash ft stamp fs).localEvents = (takeSnapshot ft .localSnap stamp fs).events ∧
    SNAPSHOT_LOCAL (preBash ft stamp fs).fs = (takeSnapshot ft .localSnap stamp fs).snap := by
  unfold preBash
  simp only [hon, hinit, Bool.false_eq_true, if_false, Bool.not_true]
  rcases hdir with h | ⟨es, h⟩
  · simp only [h, SNAPSHOT_LOCAL]
    exact ⟨trivial, trivial, join_putAt_same _ _ _⟩
  · simp only [h, SNAPSHOT_LOCAL]
    exact ⟨trivial, trivial, join_putAt_same _ _ _⟩

/-- C10 (capture isolation, amended).  `pre-bash.js` always exits 0 without
output.  The capture of each location depends only on the state and on the
errors of that location: an error in one location does not change the capture
of the other.  Within one location the statements of `takeSnapshot` run until
one raises: when none raises, the item copies are followed by the write of
`.sentinel`, which is last; when one raises, `.sentinel` is not written
there; when the copy of `.pilot/` raises, `CLAUDE.md` is not copied there. -/
theorem capture_isolation (ft : Faults) (stamp : String) (fs : FS)
    (hon : existsSync (ONBOARDING fs) = false) (hinit : initialized fs = true) :
    ((preBash ft stamp fs).exitCode = 0 ∧ (preBash ft stamp fs).output = false) ∧
    (∀ ft2 : Faults, (∀ X, ft2 .tmpSnap X = ft .tmpSnap X) →
      (preBash ft stamp fs).fs.snapshotTmp = (takeSnapshot ft2 .tmpSnap stamp fs).snap ∧
      (preBash ft stamp fs).tmpThrew = (takeSnapshot ft2 .tmpSnap stamp fs).threw ∧
      (preBash ft stamp fs).tmpEvents = (takeSnapshot ft2 .tmpSnap stamp fs).events) ∧
    (∀ ft2 : Faults, (∀ X, ft2 .localSnap X = ft .localSnap X) →
      (fs.claudeDir = none ∨ ∃ es, fs.claudeDir = some (.dir es)) →
      SNAPSHOT_LOCAL (preBash ft stamp fs).fs = (takeSnapshot ft2 .localSnap stamp fs).snap ∧
      (preBash ft stamp fs).localThrew = (takeSnapshot ft2 .localSnap stamp fs).threw ∧
      (preBash ft stamp fs).localEvents = (takeSnapshot ft2 .localSnap stamp fs).events) ∧
    (∀ loc : Loc,
      ((takeSnapshot ft loc stamp fs).threw = none →
        (takeSnapshot ft loc stamp fs).events =
          (if existsSync fs.pilot then [SnapEvent.copyPilot true] else []) ++
          (if existsSync fs.claudeMd then [SnapEvent.copyClaudeMd true] else []) ++
          [SnapEvent.writeSentinel] ∧
        join (takeSnapshot ft loc stamp fs).snap ".sentinel" = some (.file stamp)) ∧
      (∀ e, (takeSnapshot ft loc stamp fs).threw = some e →
        SnapEvent.writeSentinel ∉ (takeSnapshot ft loc stamp fs).events ∧
        join (takeSnapshot ft loc stamp fs).snap ".sentinel" = none) ∧
      (SnapEvent.copyPilot false ∈ (takeSnapshot ft loc stamp fs).events →
        (takeSnapshot ft loc stamp fs).events = [SnapEvent.copyPilot false] ∧
        join (takeSnapshot ft loc stamp fs).snap "CLAUDE.md" = none)) := by
  obtain ⟨-, -, a3, a4, a5, a6, a7⟩ := preBash_active ft stamp fs hon hinit
  refine ⟨⟨a6, a7⟩, ?_, ?_, ?_⟩
  · intro ft2 h
    rw [takeSnapshot_congr ft2 ft .tmpSnap stamp fs h]
    exact ⟨a3, a4, a5⟩
  · intro ft2 h hdir
    rw [takeSnapshot_congr ft2 ft .localSnap stamp fs h]
    obtain ⟨b1, b2, b3⟩ := preBash_local_gen ft stamp fs hon hinit hdir
    exact ⟨b3, b1, b2⟩
  · intro loc
    refine ⟨fun h => ⟨takeSnapshot_events_ok ft loc stamp fs h,
      (takeSnapshot_ok ft loc stamp fs h).2.2⟩, ?_, ?_⟩
    · intro e h
      exact takeSnapshot_raised ft loc stamp fs e h
    · intro h
      exact takeSnapshot_pilot_raised ft loc stamp fs h

/-- C10, instance: on `fsDemo`, when the copy of `.pilot/` into the local
snapshot raises, the local capture stops there and the durable capture is
complete. -/
theorem capture_isolation_witness :
    existsSync (ONBOARDING fsDemo) = false ∧ initialized fsDemo = true ∧
    (preBash localPilotDenied "/work\n2025-01-15T10:31:00.000Z\n" fsDemo).exitCode = 0 ∧
    (preBash localPilotDenied "/work\n2025-01-15T10:31:00.000Z\n" fsDemo).localEvents =
      [SnapEvent.copyPilot false] ∧
    (preBash localPilotDenied "/work\n2025-01-15T10:31:00.000Z\n" fsDemo).tmpEvents =
      [SnapEvent.copyPilot true, SnapEvent.copyClaudeMd true, SnapEvent.writeSentinel] :=
  ⟨by decide, by decide,
    (capture_isolation localPilotDenied "/work\n2025-01-15T10:31:00.000Z\n" fsDemo
      (by decide) (by decide)).1.1, by decide, by decide⟩

/-- C10 as stated fails: with both protected items present, a copy of
`.pilot/` that raises (an unreadable file; or `.pilot` being a regular file)
ends the capture of that location: `CLAUDE.md` is not copied there and
`.sentinel` is not written there. -/
theorem capture_isolation_counterexample :
    (existsSync fsDemo.pilot = true ∧ existsSync fsDemo.claudeMd = true ∧
      (preBash localPilotDenied "stamp" fsDemo).localEvents = [SnapEvent.copyPilot false] ∧
      existsSync (join (SNAPSHOT_LOCAL (preBash localPilotDenied "stamp" fsDemo).fs) "CLAUDE.md")
        = false ∧
      existsSync (join (SNAPSHOT_LOCAL (preBash localPilotDenied "stamp" fsDemo).fs) ".sentinel")
        = false) ∧
    (existsSync fsPilotIsFile.pilot = true ∧ existsSync fsPilotIsFile.claudeMd = true ∧
      (preBash noFaults "stamp" fsPilotIsFile).tmpEvents = [SnapEvent.copyPilot false] ∧
      existsSync (join (preBash noFaults "stamp" fsPilotIsFile).fs.snapshotTmp "CLAUDE.md")
        = false ∧
      existsSync (join (preBash noFaults "stamp" fsPilotIsFile).fs.snapshotTmp ".sentinel")
        = false) := by
  decide

/-! ## Session weight -/

/-- C8 (weight thresholds).  For every change count `c` and synthesis number
`n`, the weight is heavy if `c ≥ 16` or `5 ∣ n`, otherwise medium if
`6 ≤ c ≤ 15`, otherwise light; in particular 5 changes are light, 6 and 15
medium, 16 heavy, and 6 changes on the 5th synthesis heavy.  The synthesis
number is 1 without a count file or with an empty one, and 5 when the file
holds 4 (with or without a final newline). -/
theorem weight_thresholds :
    (∀ (c : Nat) (n : Int), sessionWeight c n =
      if 16 ≤ c ∨ (5 : Int) ∣ n then Weight.heavy
      else if 6 ≤ c ∧ c ≤ 15 then Weight.medium else Weight.light) ∧
    (sessionWeight 5 1 = Weight.light ∧ sessionWeight 6 1 = Weight.medium ∧
      sessionWeight 15 1 = Weight.medium ∧ sessionWeight 16 1 = Weight.heavy ∧
      sessionWeight 6 5 = Weight.heavy) ∧
    (synthesisCount none = 1 ∧ synthesisCount (some "4".toList) = 5 ∧
      synthesisCount (some "4\n".toList) = 5 ∧ synthesisCount (some "".toList) = 1) := by
  refine ⟨sessionWeight_thresholds, by decide, by decide⟩

/-! ## The ledger -/

theorem startsWithSep_iff (l : List Char) : startsWithSep l = true ↔ ∃ r, l = fieldSep ++ r := by
  unfold startsWithSep fieldSep
  split
  · next r => simp
  · next h =>
    simp only [Bool.false_eq_true, false_iff]
    rintro ⟨r, rfl⟩
    exact h r rfl

theorem unitsLt_iff (a b : List Nat) :
    unitsLt a b = true ↔ List.Lex (fun x y : Nat => x < y) a b := by
  induction a generalizing b with
  | nil =>
    cases b with
    | nil => simp [unitsLt]
    | cons y ys => simp [unitsLt, List.Lex.nil]
  | cons x xs ih =>
    cases b with
    | nil => simp [unitsLt]
    | cons y ys =>
      simp only [unitsLt, Bool.or_eq_true, Bool.and_eq_true, decide_eq_true_eq, ih]
      constructor
      · rintro (h | ⟨rfl, h⟩)
        · exact List.Lex.rel h
        · exact List.Lex.cons h
      · intro h
        cases h with
        | cons h => exact Or.inr ⟨rfl, h⟩
        | rel h => exact Or.inl h

theorem unitsLt_irrefl (a : List Nat) : unitsLt a a = false := by
  induction a with
  | nil => rfl
  | cons x xs ih => simp [unitsLt, ih]

theorem unitsLt_trans (a b c : List Nat) (h1 : unitsLt a b = true) (h2 : unitsLt b c = true) :
    unitsLt a c = true := by
  induction a generalizing b c with
  | nil =>
    cases b with
    | nil => simp [unitsLt] at h1
    | cons y ys =>
      cases c with
      | nil => simp [unitsLt] at h2
      | cons z zs => simp [unitsLt]
  | cons x xs ih =>
    cases b with
    | nil => simp [unitsLt] at h1
    | cons y ys =>
      cases c with
      | nil => simp [unitsLt] at h2
      | cons z zs =>
        simp only [unitsLt, Bool.or_eq_true, Bool.and_eq_true, decide_eq_true_eq] at h1 h2 ⊢
        rcases h1 with h1 | ⟨rfl, h1⟩ <;> rcases h2 with h2 | ⟨rfl, h2⟩
        · exact Or.inl (by omega)
        · exact Or.inl h1
        · exact Or.inl h2
        · exact Or.inr ⟨rfl, ih _ _ h1 h2⟩

theorem unitsLt_asymm (a b : List Nat) (h : unitsLt a b = true) : unitsLt b a = false := by
  cases hba : unitsLt b a with
  | false => rfl
  | true =>
    have := unitsLt_trans a b a h hba
    rw [unitsLt_irrefl] at this
    exact absurd this (by simp)

theorem dropWhile_all_iff (p : Char → Bool) (l : List Char) :
    (∀ x ∈ l.dropWhile p, p x = true) ↔ ∀ x ∈ l, p x = true := by
  induction l with
  | nil => simp
  | cons a l ih =>
    by_cases h : p a = true
    · simp [List.dropWhile_cons, h, ih]
    · simp [List.dropWhile_cons, h]

theorem jsTrim_isEmpty_iff (l : List Char) : (jsTrim l).isEmpty = true ↔ IsBlank l := by
  unfold jsTrim IsBlank
  rw [List.isEmpty_iff, List.reverse_eq_nil_iff, List.dropWhile_eq_nil_iff]
  simp only [List.mem_reverse]
  exact dropWhile_all_iff isWhiteSpace l

theorem startsWithHash_iff (l : List Char) : startsWithHash l = true ↔ IsComment l := by
  unfold startsWithHash IsComment
  split
  · next r => simp
  · next h =>
    simp only [Bool.false_eq_true, false_iff]
    rintro ⟨r, rfl⟩
    exact h r rfl

theorem ledgerLines_mem_iff (ledger l : List Char) :
    l ∈ ledgerLines ledger ↔ l ∈ splitLines ledger ∧ IsEntry l := by
  unfold ledgerLines IsEntry
  rw [List.mem_filter, ← jsTrim_isEmpty_iff, ← startsWithHash_iff]
  simp

theorem firstField_spec (l : List Char) : IsTimestampOf (firstField l) l := by
  induction l with
  | nil =>
    left
    refine ⟨rfl, ?_⟩
    intro a b h
    have := congrArg List.length h
    simp [fieldSep] at this
    omega
  | cons c cs ih =>
    unfold firstField
    by_cases hs : startsWithSep (c :: cs) = true
    · rw [if_pos hs]
      right
      obtain ⟨r, hr⟩ := (startsWithSep_iff _).mp hs
      exact ⟨⟨r, by simpa using hr⟩, fun _ _ _ => Nat.zero_le _⟩
    · rw [if_neg hs]
      have hno : ∀ b, c :: cs ≠ fieldSep ++ b := by
        intro b hb
        exact hs ((startsWithSep_iff _).mpr ⟨b, hb⟩)
      rcases ih with ⟨heq, hnone⟩ | ⟨⟨r, hr⟩, hmin⟩
      · left
        refine ⟨by rw [← heq], ?_⟩
        intro a b h
        cases a with
        | nil => exact hno b (by simpa using h)
        | cons x a =>
          simp only [List.cons_append, List.cons.injEq] at h
          exact hnone a b h.2
      · right
        refine ⟨⟨r, congrArg (List.cons c) hr⟩, ?_⟩
        intro a b h
        cases a with
        | nil => exact absurd (by simpa using h) (hno b)
        | cons x a =>
          simp only [List.cons_append, List.cons.injEq] at h
          have := hmin a b h.2
          simp only [List.length_cons]
          omega

theorem isTimestampOf_unique (f g l : List Char)
    (hf : IsTimestampOf f l) (hg : IsTimestampOf g l) : f = g := by
  rcases hf with ⟨hf1, hf2⟩ | ⟨⟨r, hr⟩, hmin⟩ <;> rcases hg with ⟨hg1, hg2⟩ | ⟨⟨s, hs⟩, hmin2⟩
  · rw [← hf1, ← hg1]
  · exact absurd hs (hf2 g s)
  · exact absurd hr (hg2 f r)
  · have h1 := hmin g s hs
    have h2 := hmin2 f r hr
    have hlen : f.length = g.length := by omega
    have : f ++ (fieldSep ++ r) = g ++ (fieldSep ++ s) := by
      rw [← List.append_assoc, ← List.append_assoc, ← hr, ← hs]
    exact (List.append_inj this hlen).1

theorem splitLines_ne_nil (s : List Char) : splitLines s ≠ [] := by
  cases s with
  | nil => simp [splitLines]
  | cons c cs =>
    unfold splitLines
    by_cases h : c = '\n'
    · simp [h]
    · rw [if_neg h]
      split <;> simp

theorem intercalate_cons_cons (sep a b : List Char) (rest : List (List Char)) :
    sep.intercalate (a :: b :: rest) = a ++ sep ++ sep.intercalate (b :: rest) := by
  simp [List.intercalate, List.intersperse]

theorem intercalate_consHead (sep l : List Char) (c : Char) (ls : List (List Char)) :
    sep.intercalate ((c :: l) :: ls) = c :: sep.intercalate (l :: ls) := by
  cases ls with
  | nil => simp [List.intercalate, List.intersperse]
  | cons b rest => simp [intercalate_cons_cons]

theorem splitLines_spec (s : List Char) : IsLinesOf s (splitLines s) := by
  refine ⟨splitLines_ne_nil s, ?_, ?_⟩
  · induction s with
    | nil => simp [splitLines, List.intercalate, List.intersperse]
    | cons c cs ih =>
      unfold splitLines
      by_cases h : c = '\n'
      · rw [if_pos h]
        rcases hl : splitLines cs with _ | ⟨l, ls⟩
        · exact absurd hl (splitLines_ne_nil cs)
        · rw [intercalate_cons_cons, ← hl, ← ih, h]
          rfl
      · rw [if_neg h]
        rcases hl : splitLines cs with _ | ⟨l, ls⟩
        · exact absurd hl (splitLines_ne_nil cs)
        · simp only
          rw [intercalate_consHead, ← hl, ← ih]
  · induction s with
    | nil => simp [splitLines]
    | cons c cs ih =>
      unfold splitLines
      by_cases h : c = '\n'
      · rw [if_pos h]
        intro l hl
        rcases List.mem_cons.mp hl with rfl | hl
        · simp
        · exact ih l hl
      · rw [if_neg h]
        rcases hsp : splitLines cs with _ | ⟨l0, ls⟩
        · exact absurd hsp (splitLines_ne_nil cs)
        · simp only
          rw [hsp] at ih
          intro l hl
          rcases List.mem_cons.mp hl with rfl | hl
          · have := ih l0 (List.mem_cons_self _ _)
            simp only [List.mem_cons, not_or]
            exact ⟨fun hc => h hc.symm, this⟩
          · exact ih l (List.mem_cons_of_mem _ hl)

theorem splitLines_noNewline (a : List Char) (h : '\n' ∉ a) : splitLines a = [a] := by
  induction a with
  | nil => rfl
  | cons c cs ih =>
    simp only [List.mem_cons, not_or] at h
    unfold splitLines
    rw [if_neg (fun hc => h.1 hc.symm), ih h.2]

theorem splitLines_append (a rest : List Char) (h : '\n' ∉ a) :
    splitLines (a ++ '\n' :: rest) = a :: splitLines rest := by
  induction a with
  | nil => simp [splitLines]
  | cons c cs ih =>
    simp only [List.mem_cons, not_or] at h
    simp only [List.cons_append]
    have ih2 := ih h.2
    generalize splitLines rest = x at ih2 ⊢
    unfold splitLines
    rw [if_neg (fun hc => h.1 hc.symm), ih2]

theorem firstField_append (T r : List Char) (h : '|' ∉ T) :
    firstField (T ++ fieldSep ++ r) = T := by
  induction T with
  | nil =>
    simp [firstField, fieldSep, startsWithSep]
  | cons c cs ih =>
    simp only [List.mem_cons, not_or] at h
    simp only [List.cons_append]
    unfold firstField
    have hs : startsWithSep (c :: (cs ++ fieldSep ++ r)) = false := by
      cases hb : startsWithSep (c :: (cs ++ fieldSep ++ r)) with
      | false => rfl
      | true =>
        obtain ⟨q, hq⟩ := (startsWithSep_iff _).mp hb
        exfalso
        cases cs with
        | nil => simp [fieldSep] at hq
        | cons d ds =>
          simp only [List.mem_cons, not_or] at h
          simp [fieldSep] at hq
          exact h.2.1 hq.2.1.symm
    rw [hs]
    simp only [Bool.false_eq_true, if_false]
    rw [ih h.2]

theorem jsGt_iff (a b : List Char) : jsGt a b = true ↔ LexLt b a := by
  unfold jsGt LexLt
  exact unitsLt_iff _ _

theorem isUnsynthesized_iff (W l : List Char) :
    IsUnsynthesized W l ↔ IsEntry l ∧ jsGt (firstField l) W = true := by
  unfold IsUnsynthesized IsEntry
  rw [jsGt_iff]
  constructor
  · rintro ⟨h1, h2, f, hf, hlt⟩
    rw [isTimestampOf_unique _ _ _ (firstField_spec l) hf]
    exact ⟨⟨h1, h2⟩, hlt⟩
  · rintro ⟨⟨h1, h2⟩, hlt⟩
    exact ⟨h1, h2, firstField l, firstField_spec l, hlt⟩

theorem isEntry_iff (l : List Char) :
    IsEntry l ↔ (!(jsTrim l).isEmpty && !startsWithHash l) = true := by
  unfold IsEntry
  rw [← jsTrim_isEmpty_iff, ← startsWithHash_iff]
  simp

theorem newChanges_some_eq (ledger w : List Char) (p : List Char → Bool)
    (hp : ∀ l, p l = true ↔ IsUnsynthesized (jsTrim w) l) :
    newChanges ledger (some w) = (splitLines ledger).filter p := by
  unfold newChanges ledgerLines
  simp only [List.filter_filter]
  apply List.filter_congr
  intro l _
  rw [Bool.eq_iff_iff, hp, isUnsynthesized_iff, isEntry_iff]
  simp only [Bool.and_eq_true]
  tauto

theorem newChanges_none_eq (ledger : List Char) (p : List Char → Bool)
    (hp : ∀ l, p l = true ↔ IsEntry l) :
    newChanges ledger none = (splitLines ledger).filter p := by
  unfold newChanges ledgerLines
  apply List.filter_congr
  intro l _
  rw [Bool.eq_iff_iff, hp, isEntry_iff]

theorem entry_line (T r : List Char) (hh : T.head? ≠ some '#') :
    (!(jsTrim (T ++ fieldSep ++ r)).isEmpty && !startsWithHash (T ++ fieldSep ++ r)) = true := by
  rw [← isEntry_iff]
  constructor
  · intro hb
    have := hb '|' (by simp [fieldSep])
    revert this
    decide
  · rintro ⟨q, hq⟩
    cases T with
    | nil => simp [fieldSep] at hq
    | cons c cs =>
      simp only [List.cons_append, List.cons.injEq] at hq
      exact hh (by simp [hq.1])

theorem newChanges_three (w T1 T2 T3 r1 r2 r3 : List Char)
    (b1 : '|' ∉ T1) (b2 : '|' ∉ T2) (b3 : '|' ∉ T3)
    (n1 : '\n' ∉ T1 ++ fieldSep ++ r1) (n2 : '\n' ∉ T2 ++ fieldSep ++ r2)
    (n3 : '\n' ∉ T3 ++ fieldSep ++ r3)
    (c1 : T1.head? ≠ some '#') (c2 : T2.head? ≠ some '#') (c3 : T3.head? ≠ some '#')
    (h1 : LexLt T1 (jsTrim w)) (h2 : LexLt (jsTrim w) T2) (h3 : LexLt T2 T3) :
    newChanges
        ((T1 ++ fieldSep ++ r1) ++ '\n' :: ((T2 ++ fieldSep ++ r2) ++ '\n' ::
          ((T3 ++ fieldSep ++ r3) ++ '\n' :: [])))
        (some w) =
      [T2 ++ fieldSep ++ r2, T3 ++ fieldSep ++ r3] := by
  have g1 : jsGt T1 (jsTrim w) = false := by
    rw [← jsGt_iff] at h1
    exact unitsLt_asymm _ _ h1
  have g2 : jsGt T2 (jsTrim w) = true := (jsGt_iff _ _).mpr h2
  have g3 : jsGt T3 (jsTrim w) = true := by
    rw [← jsGt_iff] at h2 h3
    exact unitsLt_trans _ _ _ h2 h3
  have e0 : (!(jsTrim []).isEmpty && !startsWithHash []) = false := by decide
  unfold newChanges ledgerLines
  rw [splitLines_append _ _ n1, splitLines_append _ _ n2, splitLines_append _ _ n3]
  simp only [splitLines, List.filter_cons, entry_line T1 r1 c1, entry_line T2 r2 c2,
    entry_line T3 r3 c3, e0, if_true, firstField_append _ _ b1, firstField_append _ _ b2,
    firstField_append _ _ b3, g1, g2, g3, List.filter_nil, Bool.false_eq_true, if_false]

/-- C7 (ledger watermark partition).  `split('\n')` yields the lines of the
ledger; with a watermark file `w`, `newChanges` is the list of those lines
that are not blank, not comments, and whose timestamp field (the text before
the first `" | "`) is strictly greater, in the order of UTF-16 code units,
than the trimmed watermark; a line whose timestamp field equals the trimmed
watermark is not in it; without a watermark file it is every entry.  For
three entries with timestamps `T1`, `T2`, `T3` (free of `|`) such that
`T1 < W < T2 < T3`, where `W` is the trimmed watermark, it is the second and
third entry, so the count is 2. -/
theorem ledger_watermark_partition (ledger w : List Char) :
    IsLinesOf ledger (splitLines ledger) ∧
    (∀ p : List Char → Bool, (∀ l, p l = true ↔ IsUnsynthesized (jsTrim w) l) →
      newChanges ledger (some w) = (splitLines ledger).filter p) ∧
    (∀ l, l ∈ newChanges ledger (some w) ↔
      l ∈ splitLines ledger ∧ IsUnsynthesized (jsTrim w) l) ∧
    (∀ l, IsTimestampOf (jsTrim w) l → l ∉ newChanges ledger (some w)) ∧
    (∀ p : List Char → Bool, (∀ l, p l = true ↔ IsEntry l) →
      newChanges ledger none = (splitLines ledger).filter p) ∧
    (∀ T1 T2 T3 r1 r2 r3 : List Char,
      '|' ∉ T1 → '|' ∉ T2 → '|' ∉ T3 →
      '\n' ∉ T1 ++ fieldSep ++ r1 → '\n' ∉ T2 ++ fieldSep ++ r2 → '\n' ∉ T3 ++ fieldSep ++ r3 →
      T1.head? ≠ some '#' → T2.head? ≠ some '#' → T3.head? ≠ some '#' →
      LexLt T1 (jsTrim w) → LexLt (jsTrim w) T2 → LexLt T2 T3 →
      newChanges
          ((T1 ++ fieldSep ++ r1) ++ '\n' :: ((T2 ++ fieldSep ++ r2) ++ '\n' ::
            ((T3 ++ fieldSep ++ r3) ++ '\n' :: [])))
          (some w) =
        [T2 ++ fieldSep ++ r2, T3 ++ fieldSep ++ r3] ∧
      (newChanges
          ((T1 ++ fieldSep ++ r1) ++ '\n' :: ((T2 ++ fieldSep ++ r2) ++ '\n' ::
            ((T3 ++ fieldSep ++ r3) ++ '\n' :: [])))
          (some w)).length = 2) := by
  have hmem : ∀ l, l ∈ newChanges ledger (some w) ↔
      l ∈ splitLines ledger ∧ IsUnsynthesized (jsTrim w) l := by
    intro l
    rw [newChanges_some_eq ledger w
      (fun l => (!(jsTrim l).isEmpty && !startsWithHash l) && jsGt (firstField l) (jsTrim w))
      (fun l => by rw [isUnsynthesized_iff, isEntry_iff]; simp only [Bool.and_eq_true])]
    rw [List.mem_filter, isUnsynthesized_iff, isEntry_iff]
    simp only [Bool.and_eq_true]
  refine ⟨splitLines_spec ledger, newChanges_some_eq ledger w, hmem, ?_,
    newChanges_none_eq ledger, ?_⟩
  · intro l hts hl
    obtain ⟨-, -, -, f, hf, hlt⟩ := (hmem l).mp hl
    rw [isTimestampOf_unique _ _ _ hf hts] at hlt
    unfold LexLt at hlt
    rw [← unitsLt_iff, unitsLt_irrefl] at hlt
    exact absurd hlt (by simp)
  · intro T1 T2 T3 r1 r2 r3 b1 b2 b3 n1 n2 n3 c1 c2 c3 h1 h2 h3
    have h3l := newChanges_three w T1 T2 T3 r1 r2 r3 b1 b2 b3 n1 n2 n3 c1 c2 c3 h1 h2 h3
    exact ⟨h3l, by rw [h3l]; rfl⟩

/-- C7, instance: three entries of 1, 2 and 3 January 2025, watermark at noon
of 1 January. -/
theorem ledger_watermark_partition_witness :
    (newChanges
        (("2025-01-01T00:00:00Z".toList ++ fieldSep ++ "EDITED | src/a.js".toList) ++ '\n' ::
          (("2025-01-02T00:00:00Z".toList ++ fieldSep ++ "CREATED | src/b.js".toList) ++ '\n' ::
            (("2025-01-03T00:00:00Z".toList ++ fieldSep ++ "COMMAND | npm test".toList) ++
              '\n' :: [])))
        (some "2025-01-01T12:00:00Z\n".toList)).length = 2 :=
  ((ledger_watermark_partition [] "2025-01-01T12:00:00Z\n".toList).2.2.2.2.2
    "2025-01-01T00:00:00Z".toList "2025-01-02T00:00:00Z".toList "2025-01-03T00:00:00Z".toList
    "EDITED | src/a.js".toList "CREATED | src/b.js".toList "COMMAND | npm test".toList
    (by decide) (by decide) (by decide) (by decide) (by decide) (by decide)
    (by decide) (by decide) (by decide)
    ((jsGt_iff _ _).mp (by decide)) ((jsGt_iff _ _).mp (by decide))
    ((jsGt_iff _ _).mp (by decide))).2

/-! ## Instances on example states -/

/-- C1, instance: `fsDemo`, no outside errors, `.pilot/` deleted. -/
theorem full_recovery_round_trip_witness :
    (postBashGuard noFaults ((preBash noFaults "/work\n2025-01-15T10:31:00.000Z\n" fsDemo).fs.remove
      Item.pilot)).attempts = [⟨.localSnap, ".pilot/", true⟩] ∧
    (postBashGuard noFaults ((preBash noFaults "/work\n2025-01-15T10:31:00.000Z\n" fsDemo).fs.remove
      Item.pilot)).exitCode = 0 :=
  have h := full_recovery_round_trip noFaults noFaults "/work\n2025-01-15T10:31:00.000Z\n" fsDemo
    Item.pilot (by decide) (by decide) (by decide) (by decide) (by decide) (by decide) (by decide)
    (by decide)
  ⟨h.1, h.2.2.1⟩

/-- C2, instance: `fsWiped`, the project after `rm -rf .`. -/
theorem durable_fallback_witness :
    (postBashGuard noFaults fsWiped).exitCode = 0 ∧
    (postBashGuard noFaults fsWiped).stderr =
      some ⟨.filesRestored, [], [".pilot/", "CLAUDE.md"], []⟩ :=
  have h := durable_fallback noFaults fsWiped (by decide) (by decide) (by decide) (by decide)
    ⟨Item.pilot, by decide⟩ (fun X _ => by cases X <;> decide) (by decide)
  ⟨h.1, h.2.1⟩

/-- C3 as stated fails: in `fsBothGone` the guard is armed, `CLAUDE.md` is
missing and held by neither snapshot, yet the report is `Integrity Alert`
(`.pilot/` restored, `CLAUDE.md` not), not `Files Missing (Cannot Restore)`. -/
theorem true_loss_counterexample :
    armed fsBothGone = true ∧ existsSync (fsBothGone.item Item.claudeMd) = false ∧
    existsSync (join (SNAPSHOT_LOCAL fsBothGone) "CLAUDE.md") = false ∧
    existsSync (join fsBothGone.snapshotTmp "CLAUDE.md") = false ∧
    (postBashGuard noFaults fsBothGone).stderr =
      some ⟨.integrityAlert, [], [".pilot/"], ["CLAUDE.md"]⟩ ∧
    (postBashGuard noFaults fsBothGone).stderr ≠
      some ⟨.filesMissing, [".pilot/", "CLAUDE.md"], [], []⟩ := by
  decide

/-- C3 (amended), instance: `fsLostClaude`, where only `CLAUDE.md` is
missing. -/
theorem true_loss_detection_witness :
    (postBashGuard noFaults fsLostClaude).exitCode = 2 ∧
    (postBashGuard noFaults fsLostClaude).stderr = some ⟨.filesMissing, ["CLAUDE.md"], [], []⟩ :=
  have h := true_loss_detection noFaults fsLostClaude Item.claudeMd (by decide) (by decide)
    (by decide) (by decide)
  ⟨h.1, (h.2.1 (Or.inl (by decide))).1⟩

/-- C4, instance: `fsFresh`, with both items missing and a leftover local
snapshot. -/
theorem no_false_positive_witness :
    (postBashGuard noFaults fsFresh).stderr = none ∧ (postBashGuard noFaults fsFresh).exitCode = 0 :=
  have h := no_false_positive_on_fresh_state noFaults fsFresh (by decide) (by decide)
  ⟨h.1, h.2.2.2.2⟩

/-- C5 (amended), instance: `fsOptOut`, where `.pilot/` was deleted on purpose
and the three removals succeed. -/
theorem opt_out_single_use_witness :
    existsSync (ONBOARDING fsOptOut) = false ∧ existsSync (NO_GUARD fsOptOut) = true ∧
    (postBashGuardWith noRemovalFaults noFaults fsOptOut).exitCode = 0 ∧
    initialized (postBashGuardWith noRemovalFaults noFaults fsOptOut).fs = false :=
  have h := opt_out_single_use noRemovalFaults noFaults fsOptOut (by decide) (by decide)
  ⟨by decide, by decide, h.1.1,
    (h.2.2.2.2.1 rfl (fun es h => by cases h) rfl (fun es h => by cases h) rfl).2.2.2⟩

/-- C9, instance: in `fsBothGone`, `.pilot/` is restored from the local
snapshot and never copied from the durable one. -/
theorem restore_priority_witness :
    (⟨Loc.localSnap, ".pilot/", true⟩ : Attempt) ∈ (postBashGuard noFaults fsBothGone).attempts ∧
    ∀ a ∈ (postBashGuard noFaults fsBothGone).attempts,
      a.item = ".pilot/" → a.loc = Loc.localSnap :=
  have h := restore_priority noFaults fsBothGone Item.pilot (by decide) (by decide)
  ⟨by decide, h.2.2.1 (by decide)⟩

/-! ## Snapshot overwrite -/

theorem takeSnapshot_snap_ok (ft : Faults) (loc : Loc) (stamp : String) (fs : FS)
    (h : (takeSnapshot ft loc stamp fs).threw = none) :
    (takeSnapshot ft loc stamp fs).snap =
      some (.dir (capturedEntries
        (fs.pilot.bind fun p => (copyDirSync p none).dest)
        (fs.claudeMd.bind fun c => (copyFileSync c none).dest) stamp)) := by
  have j1 : join (some (.dir [])) "pilot" = none := rfl
  have j2 : join (some (.dir [])) "CLAUDE.md" = none := rfl
  have j3 : ∀ n, join (putAt (some (.dir [])) "pilot" (some n)) "CLAUDE.md" = none := fun _ => rfl
  unfold takeSnapshot at h ⊢
  rcases hp : fs.pilot with _ | p <;> rcases hc : fs.claudeMd with _ | c
  · simp [SnapOut.next, stagePilot, stageClaude, stampSentinel, hp, hc, putAt, setEntry,
      capturedEntries]
  · simp only [SnapOut.next, stagePilot, stageClaude, stampSentinel, hp, hc, j2] at h ⊢
    cases he : (faulty (ft loc .claudeMd) (copyFileSync c none)).err with
    | some e => simp [he] at h
    | none =>
      have hf := faulty_ok _ _ he
      rw [hf] at he
      obtain ⟨n, hn⟩ := Option.isSome_iff_exists.mp (copyFileSync_dest_isSome c none he)
      simp [he, hf, hn, putAt, setEntry, capturedEntries]
  · simp only [SnapOut.next, stagePilot, stageClaude, stampSentinel, hp, hc, j1] at h ⊢
    cases he : (faulty (ft loc .pilot) (copyDirSync p none)).err with
    | some e => simp [he] at h
    | none =>
      have hf := faulty_ok _ _ he
      rw [hf] at he
      obtain ⟨n, hn⟩ := Option.isSome_iff_exists.mp (copyDirSync_dest_isSome p none)
      simp [he, hf, hn, putAt, setEntry, capturedEntries]
  · simp only [SnapOut.next, stagePilot, stageClaude, stampSentinel, hp, hc, j1] at h ⊢
    cases he : (faulty (ft loc .pilot) (copyDirSync p none)).err with
    | some e => simp [he] at h
    | none =>
      have hf := faulty_ok _ _ he
      rw [hf] at he
      obtain ⟨n, hn⟩ := Option.isSome_iff_exists.mp (copyDirSync_dest_isSome p none)
      simp only [he, hf, hn, j3] at h ⊢
      cases he2 : (faulty (ft loc .claudeMd) (copyFileSync c none)).err with
      | some e => simp [he2] at h
      | none =>
        have hf2 := faulty_ok _ _ he2
        rw [hf2] at he2
        obtain ⟨n2, hn2⟩ := Option.isSome_iff_exists.mp (copyFileSync_dest_isSome c none he2)
        simp [he2, hf2, hn, hn2, putAt, setEntry, capturedEntries]

theorem takeSnapshot_fresh (ft : Faults) (loc : Loc) (stamp : String) (fs : FS)
    (h : (takeSnapshot ft loc stamp fs).threw = none) :
    IsFreshSnapshot fs stamp (takeSnapshot ft loc stamp fs).snap := by
  obtain ⟨h1, h2, h3⟩ := takeSnapshot_ok ft loc stamp fs h
  have hs := takeSnapshot_snap_ok ft loc stamp fs h
  refine ⟨⟨_, hs⟩, h1, h2, ?_, ?_, h3, ?_⟩
  · intro p hp
    rw [hs, hp]
    obtain ⟨n, hn⟩ := Option.isSome_iff_exists.mp (copyDirSync_dest_isSome p none)
    simp [capturedEntries, hn, join, lookupEntry]
  · intro c hc
    have h2' := h2
    rw [hs, hc] at h2'
    rw [hs, hc]
    rcases hp : fs.pilot with _ | p
    · rcases hd : (copyFileSync c none).dest with _ | n
      · simp [capturedEntries, hd, hp, join, lookupEntry, existsSync] at h2'
      · simp [capturedEntries, hd, join, lookupEntry]
    · obtain ⟨m, hm⟩ := Option.isSome_iff_exists.mp (copyDirSync_dest_isSome p none)
      rcases hd : (copyFileSync c none).dest with _ | n
      · simp [capturedEntries, hd, hp, hm, join, lookupEntry, existsSync] at h2'
      · simp [capturedEntries, hd, hm, join, lookupEntry]
  · intro n n1 n2 n3
    rw [hs]
    rcases fs.pilot.bind (fun p => (copyDirSync p none).dest) with _ | a <;>
      rcases fs.claudeMd.bind (fun c => (copyFileSync c none).dest) with _ | b <;>
      simp [capturedEntries, join, lookupEntry, Ne.symm n1, Ne.symm n2, Ne.symm n3]

theorem preBash_fresh (ft : Faults) (stamp : String) (fs : FS)
    (hon : existsSync (ONBOARDING fs) = false) (hinit : initialized fs = true) :
    ((preBash ft stamp fs).localThrew = none →
      IsFreshSnapshot fs stamp (SNAPSHOT_LOCAL (preBash ft stamp fs).fs)) ∧
    ((preBash ft stamp fs).tmpThrew = none →
      IsFreshSnapshot fs stamp (preBash ft stamp fs).fs.snapshotTmp) := by
  obtain ⟨-, -, a3, a4, -, -, -⟩ := preBash_active ft stamp fs hon hinit
  constructor
  · intro h
    obtain ⟨b1, b2, -, -⟩ := preBash_local ft stamp fs hon hinit h
    rw [b2]
    exact takeSnapshot_fresh ft .localSnap stamp fs b1
  · intro h
    rw [a4] at h
    rw [a3]
    exact takeSnapshot_fresh ft .tmpSnap stamp fs h

/-- C11 (snapshot overwrite invariant).  Whatever a snapshot location held
before, after a capture by `pre-bash.js` that raised nothing the location is a
directory holding a staged copy of a protected item exactly when that item
existed at capture time (the copy of the item onto nothing, not merged with
an older copy), the marker `.sentinel` just written, and no other entry. -/
theorem snapshot_overwrite (ft : Faults) (stamp : String) (fs : FS)
    (hon : existsSync (ONBOARDING fs) = false) (hinit : initialized fs = true) :
    ((preBash ft stamp fs).localThrew = none →
      IsFreshSnapshot fs stamp (SNAPSHOT_LOCAL (preBash ft stamp fs).fs)) ∧
    ((preBash ft stamp fs).tmpThrew = none →
      IsFreshSnapshot fs stamp (preBash ft stamp fs).fs.snapshotTmp) :=
  preBash_fresh ft stamp fs hon hinit

/-- C11, instance: on `fsStale` the capture drops the staged `CLAUDE.md`, the
stray entry and the older notes from both snapshots. -/
theorem snapshot_overwrite_witness :
    existsSync (join (preBash noFaults "/work\n2025-02-01T08:00:00.000Z\n" fsStale).fs.snapshotTmp
      "CLAUDE.md") = false ∧
    existsSync (join (preBash noFaults "/work\n2025-02-01T08:00:00.000Z\n" fsStale).fs.snapshotTmp
      "stray") = false ∧
    existsSync (join (preBash noFaults "/work\n2025-02-01T08:00:00.000Z\n" fsStale).fs.snapshotTmp
      "pilot") = true :=
  have h := (snapshot_overwrite noFaults "/work\n2025-02-01T08:00:00.000Z\n" fsStale
    (by decide) (by decide)).2 (by decide)
  ⟨by rw [h.2.2.1]; decide, by rw [h.2.2.2.2.2.2 "stray" (by decide) (by decide) (by decide)]; rfl,
    by rw [h.2.1]; decide⟩

/-! ## Idempotent capture -/

theorem putAt_isDir (es : List (String × Node)) (n : String) (v : Option Node) :
    ∃ es2, putAt (some (.dir es)) n v = some (.dir es2) := by
  cases v <;> exact ⟨_, rfl⟩

theorem takeSnapshot_items (ft : Faults) (loc : Loc) (stamp : String) (fs fs2 : FS)
    (hp : fs2.pilot = fs.pilot) (hc : fs2.claudeMd = fs.claudeMd) :
    takeSnapshot ft loc stamp fs2 = takeSnapshot ft loc stamp fs := by
  unfold takeSnapshot stagePilot stageClaude
  simp only [hp, hc]

theorem staged_isDir (ft : Faults) (loc : Loc) (fs : FS) :
    ∃ es, ((SnapOut.next ⟨some (.dir []), none, []⟩ (stagePilot ft loc fs)).next
      (stageClaude ft loc fs)).snap = some (.dir es) := by
  rcases hp : fs.pilot with _ | p <;> rcases hc : fs.claudeMd with _ | c
  · exact ⟨[], by simp [SnapOut.next, stagePilot, stageClaude, hp, hc]⟩
  · simp only [SnapOut.next, stagePilot, stageClaude, hp, hc]
    exact putAt_isDir _ _ _
  · simp only [SnapOut.next, stagePilot, stageClaude, hp, hc]
    split <;> exact putAt_isDir _ _ _
  · simp only [SnapOut.next, stagePilot, stageClaude, hp, hc]
    obtain ⟨es1, h1⟩ := putAt_isDir [] "pilot"
      (faulty (ft loc .pilot) (copyDirSync p (join (some (.dir [])) "pilot"))).dest
    split
    · exact ⟨es1, h1⟩
    · simp only [h1]
      exact putAt_isDir _ _ _

theorem takeSnapshot_stamp (ft : Faults) (loc : Loc) (s1 s2 : String) (fs : FS) :
    (takeSnapshot ft loc s1 fs).threw = (takeSnapshot ft loc s2 fs).threw ∧
    (∀ n, n ≠ ".sentinel" →
      join (takeSnapshot ft loc s1 fs).snap n = join (takeSnapshot ft loc s2 fs).snap n) ∧
    existsSync (join (takeSnapshot ft loc s1 fs).snap ".sentinel") =
      existsSync (join (takeSnapshot ft loc s2 fs).snap ".sentinel") := by
  obtain ⟨es, hes⟩ := staged_isDir ft loc fs
  unfold takeSnapshot
  simp only
  generalize (SnapOut.next ⟨some (.dir []), none, []⟩ (stagePilot ft loc fs)).next
    (stageClaude ft loc fs) = X at hes
  rcases X with ⟨snap, _ | e, ev⟩
  · simp only at hes
    subst hes
    refine ⟨rfl, ?_, ?_⟩
    · intro n hn
      simp only [SnapOut.next, stampSentinel]
      rw [join_putAt_ne (Ne.symm hn), join_putAt_ne (Ne.symm hn)]
    · simp only [SnapOut.next, stampSentinel]
      rw [join_putAt_same, join_putAt_same]
      rfl
  · exact ⟨rfl, fun _ _ => rfl, rfl⟩

theorem preBash_noop (ft : Faults) (stamp : String) (fs : FS)
    (h : existsSync (ONBOARDING fs) = true ∨ initialized fs = false) :
    preBash ft stamp fs = ⟨fs, 0, false, none, [], none, []⟩ := by
  unfold preBash
  rcases h with h | h
  · simp [h]
  · simp [h]

theorem preBash_claudeDir (ft : Faults) (stamp : String) (fs : FS)
    (hon : existsSync (ONBOARDING fs) = false) (hinit : initialized fs = true) :
    ((fs.claudeDir = none ∨ ∃ es, fs.claudeDir = some (.dir es)) →
      ∃ es2, (preBash ft stamp fs).fs.claudeDir = some (.dir es2)) ∧
    ((∃ b, fs.claudeDir = some (.file b)) ∨ fs.claudeDir = some .other →
      (preBash ft stamp fs).fs.claudeDir = fs.claudeDir) := by
  unfold preBash
  simp only [hon, hinit, Bool.false_eq_true, if_false, Bool.not_true]
  constructor
  · rintro (h | ⟨es, h⟩)
    · simp only [h]
      exact putAt_isDir _ _ _
    · simp only [h]
      exact putAt_isDir _ _ _
  · rintro (⟨b, h⟩ | h)
    · simp only [h]
    · simp only [h]

theorem claudeDir_cases (fs : FS) :
    (fs.claudeDir = none ∨ ∃ es, fs.claudeDir = some (.dir es)) ∨
    ((∃ b, fs.claudeDir = some (.file b)) ∨ fs.claudeDir = some .other) := by
  rcases fs.claudeDir with _ | (b | es | _)
  · exact Or.inl (Or.inl rfl)
  · exact Or.inr (Or.inl ⟨b, rfl⟩)
  · exact Or.inl (Or.inr ⟨es, rfl⟩)
  · exact Or.inr (Or.inr rfl)

theorem snapshotLocal_of_notDir (fs : FS)
    (h : (∃ b, fs.claudeDir = some (.file b)) ∨ fs.claudeDir = some .other) :
    SNAPSHOT_LOCAL fs = none := by
  unfold SNAPSHOT_LOCAL
  rcases h with ⟨b, h⟩ | h <;> rw [h] <;> rfl

theorem idempotent_core (ft : Faults) (s1 s2 : String) (fs : FS) (loc : Loc) :
    (∀ n, n ≠ ".sentinel" →
      join (snapshotDir (preBash ft s2 (preBash ft s1 fs).fs).fs loc) n =
        join (snapshotDir (preBash ft s1 fs).fs loc) n) ∧
    existsSync (join (snapshotDir (preBash ft s2 (preBash ft s1 fs).fs).fs loc) ".sentinel") =
      existsSync (join (snapshotDir (preBash ft s1 fs).fs loc) ".sentinel") := by
  by_cases hact : existsSync (ONBOARDING fs) = false ∧ initialized fs = true
  · obtain ⟨hon, hinit⟩ := hact
    obtain ⟨p1, c1, t1, -⟩ := preBash_active ft s1 fs hon hinit
    have hon2 : existsSync (ONBOARDING (preBash ft s1 fs).fs) = false := by
      simp only [ONBOARDING, p1]; exact hon
    cases hin2 : initialized (preBash ft s1 fs).fs with
    | false =>
      rw [preBash_noop ft s2 _ (Or.inr hin2)]
      exact ⟨fun _ _ => rfl, rfl⟩
    | true =>
      have ht := takeSnapshot_items ft loc s2 fs (preBash ft s1 fs).fs p1 c1
      obtain ⟨-, hj, hs⟩ := takeSnapshot_stamp ft loc s2 s1 fs
      cases loc with
      | tmpSnap =>
        have t2 := (preBash_active ft s2 _ hon2 hin2).2.2.1
        simp only [snapshotDir]
        rw [t1, t2, ht]
        exact ⟨hj, hs⟩
      | localSnap =>
        simp only [snapshotDir]
        rcases claudeDir_cases fs with hc | hc
        · obtain ⟨es2, he⟩ := (preBash_claudeDir ft s1 fs hon hinit).1 hc
          rw [(preBash_local_gen ft s1 fs hon hinit hc).2.2,
            (preBash_local_gen ft s2 _ hon2 hin2 (Or.inr ⟨es2, he⟩)).2.2, ht]
          exact ⟨hj, hs⟩
        · have e1 := (preBash_claudeDir ft s1 fs hon hinit).2 hc
          have hc2 : (∃ b, (preBash ft s1 fs).fs.claudeDir = some (.file b)) ∨
              (preBash ft s1 fs).fs.claudeDir = some .other := by rw [e1]; exact hc
          have e2 := (preBash_claudeDir ft s2 _ hon2 hin2).2 hc2
          rw [snapshotLocal_of_notDir _ hc2, snapshotLocal_of_notDir _ (by rw [e2]; exact hc2)]
          exact ⟨fun _ _ => rfl, rfl⟩
  · have hno : existsSync (ONBOARDING fs) = true ∨ initialized fs = false := by
      by_cases h1 : existsSync (ONBOARDING fs) = true
      · exact Or.inl h1
      · right
        cases hi : initialized fs with
        | false => rfl
        | true => exact absurd ⟨by simpa using h1, hi⟩ hact
    rw [preBash_noop ft s1 fs hno, preBash_noop ft s2 fs hno]
    exact ⟨fun _ _ => rfl, rfl⟩

theorem preBash_items (ft : Faults) (stamp : String) (fs : FS) :
    (preBash ft stamp fs).fs.pilot = fs.pilot ∧ (preBash ft stamp fs).fs.claudeMd = fs.claudeMd := by
  unfold preBash
  split
  · exact ⟨rfl, rfl⟩
  · split <;> exact ⟨rfl, rfl⟩

theorem isFreshSnapshot_items (fs fs2 : FS) (stamp : String) (S : Option Node)
    (hp : fs2.pilot = fs.pilot) (hc : fs2.claudeMd = fs.claudeMd)
    (h : IsFreshSnapshot fs2 stamp S) : IsFreshSnapshot fs stamp S := by
  unfold IsFreshSnapshot at h ⊢
  rw [hp, hc] at h
  exact h

theorem fresh_same_items (fs : FS) (s1 s2 : String) (S1 S2 : Option Node)
    (h1 : IsFreshSnapshot fs s1 S1) (h2 : IsFreshSnapshot fs s2 S2)
    (n : String) (hn : n ≠ ".sentinel") : join S1 n = join S2 n := by
  obtain ⟨-, a1, a2, a3, a4, -, a6⟩ := h1
  obtain ⟨-, b1, b2, b3, b4, -, b6⟩ := h2
  by_cases hp : n = "pilot"
  · subst hp
    rcases hq : fs.pilot with _ | p
    · rw [hq] at a1 b1
      rw [isSome_false_eq_none _ a1, isSome_false_eq_none _ b1]
    · rw [a3 p hq, b3 p hq]
  · by_cases hc : n = "CLAUDE.md"
    · subst hc
      rcases hq : fs.claudeMd with _ | c
      · rw [hq] at a2 b2
        rw [isSome_false_eq_none _ a2, isSome_false_eq_none _ b2]
      · rw [a4 c hq, b4 c hq]
    · rw [a6 n hp hc hn, b6 n hp hc hn]

/-- C12 (idempotent capture).  `pre-bash.js` never changes the protected
items.  Run twice in succession in the same environment, it leaves in each
snapshot location the same entries after the second run as after the first,
the text of `.sentinel` apart (which is present after the second run exactly
when it is after the first).  The same holds across different environments
when both runs capture both locations without an error. -/
theorem idempotent_capture (ft : Faults) (s1 s2 : String) (fs : FS) :
    ((preBash ft s2 (preBash ft s1 fs).fs).fs.pilot = fs.pilot ∧
      (preBash ft s2 (preBash ft s1 fs).fs).fs.claudeMd = fs.claudeMd) ∧
    (∀ loc : Loc,
      (∀ n, n ≠ ".sentinel" →
        join (snapshotDir (preBash ft s2 (preBash ft s1 fs).fs).fs loc) n =
          join (snapshotDir (preBash ft s1 fs).fs loc) n) ∧
      existsSync (join (snapshotDir (preBash ft s2 (preBash ft s1 fs).fs).fs loc) ".sentinel") =
        existsSync (join (snapshotDir (preBash ft s1 fs).fs loc) ".sentinel")) ∧
    (∀ ft2 : Faults, existsSync (ONBOARDING fs) = false → initialized fs = true →
      (preBash ft s1 fs).localThrew = none → (preBash ft s1 fs).tmpThrew = none →
      (preBash ft2 s2 (preBash ft s1 fs).fs).localThrew = none →
      (preBash ft2 s2 (preBash ft s1 fs).fs).tmpThrew = none →
      ∀ (loc : Loc) (n : String), n ≠ ".sentinel" →
        join (snapshotDir (preBash ft2 s2 (preBash ft s1 fs).fs).fs loc) n =
          join (snapshotDir (preBash ft s1 fs).fs loc) n) := by
  obtain ⟨p1, c1⟩ := preBash_items ft s1 fs
  refine ⟨?_, idempotent_core ft s1 s2 fs, ?_⟩
  · obtain ⟨p2, c2⟩ := preBash_items ft s2 (preBash ft s1 fs).fs
    exact ⟨p2.trans p1, c2.trans c1⟩
  · intro ft2 hon hinit l1 t1 l2 t2 loc n hn
    obtain ⟨fl1, ft1⟩ := preBash_fresh ft s1 fs hon hinit
    have hon2 : existsSync (ONBOARDING (preBash ft s1 fs).fs) = false := by
      simp only [ONBOARDING, p1]; exact hon
    have hin2 : initialized (preBash ft s1 fs).fs = true := by
      have := (ft1 t1).2.2.2.2.2.1
      simp [initialized, SENTINEL_TMP, this, existsSync]
    obtain ⟨fl2, ft2'⟩ := preBash_fresh ft2 s2 _ hon2 hin2
    cases loc with
    | localSnap =>
      exact fresh_same_items fs s2 s1 _ _
        (isFreshSnapshot_items fs _ s2 _ p1 c1 (fl2 l2)) (fl1 l1) n hn
    | tmpSnap =>
      exact fresh_same_items fs s2 s1 _ _
        (isFreshSnapshot_items fs _ s2 _ p1 c1 (ft2' t2)) (ft1 t1) n hn

/-- C12, instance: two captures of `fsDemo` one minute apart stage the same
`pilot` in the durable snapshot. -/
theorem idempotent_capture_witness :
    join (preBash noFaults "/work\n2025-01-15T10:32:00.000Z\n"
        (preBash noFaults "/work\n2025-01-15T10:31:00.000Z\n" fsDemo).fs).fs.snapshotTmp "pilot" =
      join (preBash noFaults "/work\n2025-01-15T10:31:00.000Z\n" fsDemo).fs.snapshotTmp "pilot" :=
  (idempotent_capture noFaults "/work\n2025-01-15T10:31:00.000Z\n"
    "/work\n2025-01-15T10:32:00.000Z\n" fsDemo).2.2 noFaults (by decide) (by decide) (by decide)
    (by decide) (by decide) (by decide) Loc.tmpSnap "pilot" (by decide)

/-! ## Sentinel locations -/

theorem report_stderr (mp mc : Bool) (rc : Recovery) : (report mp mc rc).stderr.isSome = true := by
  unfold report
  dsimp only
  split
  · rfl
  · split <;> rfl

theorem initialized_putAt_snapshot (fs : FS) (v : Option Node) :
    initialized { fs with claudeDir := putAt fs.claudeDir ".pp-snapshot" v } = initialized fs := by
  unfold initialized SENTINEL_LOCAL SENTINEL_TMP
  simp only
  rw [join_putAt_ne (by decide)]

/-- C13 (sentinel sufficiency, amended).  Without onboarding or opt-out flag:
the project counts as initialized exactly when the sentinel file
`.claude/project-pilot-initialized` or the marker `.sentinel` of the durable
snapshot exists; then the guard is armed (it reports whenever a protected item
is missing) and `pre-bash.js` captures; when both are absent both scripts do
nothing.  The marker of the local snapshot is written by every capture that
raises nothing, like the durable one, but it is never read: what is found at
`.claude/.pp-snapshot` does not change whether the project counts as
initialized. -/
theorem sentinel_sufficiency (ft : Faults) (stamp : String) (fs : FS)
    (hon : existsSync (ONBOARDING fs) = false) (hng : existsSync (NO_GUARD fs) = false) :
    (initialized fs = true ↔
      (existsSync (SENTINEL_LOCAL fs) = true ∨ existsSync (SENTINEL_TMP fs) = true)) ∧
    (initialized fs = true →
      armed fs = true ∧
      (¬ (existsSync fs.pilot && existsSync fs.claudeMd) = true →
        (postBashGuard ft fs).stderr.isSome = true) ∧
      (preBash ft stamp fs).fs.snapshotTmp = (takeSnapshot ft .tmpSnap stamp fs).snap ∧
      (preBash ft stamp fs).tmpEvents = (takeSnapshot ft .tmpSnap stamp fs).events) ∧
    (initialized fs = false →
      postBashGuard ft fs = ⟨fs, 0, none, []⟩ ∧
      preBash ft stamp fs = ⟨fs, 0, false, none, [], none, []⟩) ∧
    (∀ v : Option Node,
      initialized { fs with claudeDir := putAt fs.claudeDir ".pp-snapshot" v } = initialized fs) ∧
    (∀ loc : Loc, (takeSnapshot ft loc stamp fs).threw = none →
      join (takeSnapshot ft loc stamp fs).snap ".sentinel" = some (.file stamp)) := by
  refine ⟨by simp [initialized], ?_, ?_, initialized_putAt_snapshot fs, ?_⟩
  · intro hi
    have ha : armed fs = true := by simp [armed, hon, hng, hi]
    obtain ⟨-, -, a3, -, a5, -, -⟩ := preBash_active ft stamp fs hon hi
    refine ⟨ha, ?_, a3, a5⟩
    intro hm
    rw [postBashGuard_armed ft fs ha, if_neg hm]
    exact report_stderr _ _ _
  · intro hi
    exact ⟨postBashGuard_uninitialized ft fs hi hng, preBash_uninitialized ft stamp fs hi⟩
  · intro loc h
    exact (takeSnapshot_ok ft loc stamp fs h).2.2

/-- C13 (amended), instance: `fsWiped`, where only the marker of the durable
snapshot is left, counts as initialized. -/
theorem sentinel_sufficiency_witness :
    initialized fsWiped = true ∧ armed fsWiped = true :=
  have h := sentinel_sufficiency noFaults "/work\n2025-01-15T10:32:00.000Z\n" fsWiped
    (by decide) (by decide)
  ⟨by decide, (h.2.1 (by decide)).1⟩

/-- C13 as stated fails: in `fsLocalMarkerOnly` there is no onboarding or
opt-out flag and the marker of the local snapshot is present, yet the project
does not count as initialized: with `.pilot/` missing the guard writes nothing
and restores nothing, and `pre-bash.js` captures nothing. -/
theorem sentinel_sufficiency_counterexample :
    existsSync (ONBOARDING fsLocalMarkerOnly) = false ∧
    existsSync (NO_GUARD fsLocalMarkerOnly) = false ∧
    existsSync (join (SNAPSHOT_LOCAL fsLocalMarkerOnly) ".sentinel") = true ∧
    existsSync fsLocalMarkerOnly.pilot = false ∧
    initialized fsLocalMarkerOnly = false ∧
    (postBashGuard noFaults fsLocalMarkerOnly).stderr = none ∧
    (postBashGuard noFaults fsLocalMarkerOnly).attempts = [] ∧
    (preBash noFaults "/work\n2025-01-15T10:32:00.000Z\n" fsLocalMarkerOnly).localEvents = [] ∧
    (preBash noFaults "/work\n2025-01-15T10:32:00.000Z\n" fsLocalMarkerOnly).tmpEvents = [] := by
  decide

/-! ## Copies of plain trees -/

theorem setEntry_of_absent (name : String) (v : Node) (d : List (String × Node))
    (h : lookupEntry name d = none) : setEntry name v d = d ++ [(name, v)] := by
  induction d with
  | nil => rfl
  | cons e rest ih =>
    obtain ⟨k, w⟩ := e
    by_cases hk : k = name
    · simp [lookupEntry, hk] at h
    · simp only [lookupEntry, hk, if_false] at h
      simp [setEntry, hk, ih h]

theorem lookupEntry_append (name : String) (d e : List (String × Node)) :
    lookupEntry name (d ++ e) = (lookupEntry name d).orElse fun _ => lookupEntry name e := by
  induction d with
  | nil => simp [lookupEntry]
  | cons x rest ih =>
    obtain ⟨k, w⟩ := x
    by_cases hk : k = name
    · simp [lookupEntry, hk]
    · simp [lookupEntry, hk, ih]

mutual
theorem copyDirSync_plain (es : List (String × Node)) (h : entriesPlain es = true) :
    copyDirSync (.dir es) none = ⟨some (.dir es), none⟩ := by
  have := copyEntries_plain es [] h (fun _ _ => rfl)
  simpa [copyDirSync] using this
theorem copyEntries_plain (es d : List (String × Node)) (h : entriesPlain es = true)
    (hd : ∀ k, (lookupEntry k es).isSome = true → lookupEntry k d = none) :
    copyEntries es d = ⟨some (.dir (d ++ es)), none⟩ := by
  match es with
  | [] => simp [copyEntries]
  | (name, .file b) :: rest =>
    simp only [entriesPlain, Bool.and_eq_true] at h
    have hn : lookupEntry name d = none := hd name (by simp [lookupEntry])
    have hd2 : ∀ k, (lookupEntry k rest).isSome = true →
        lookupEntry k (setEntry name (.file b) d) = none := by
      intro k hk
      have hkn : name ≠ k := by
        rintro rfl
        rw [Option.isNone_iff_eq_none.mp h.1.2] at hk
        simp at hk
      rw [lookupEntry_setEntry_ne hkn]
      exact hd k (by simp [lookupEntry, hkn, hk])
    have ih := copyEntries_plain rest (setEntry name (.file b) d) h.2 hd2
    rw [setEntry_of_absent name _ d hn] at ih
    simp only [copyEntries, copyFileSync, hn, ih, setEntry_of_absent name _ d hn,
      List.append_assoc, List.singleton_append]
  | (name, .dir sub) :: rest =>
    simp only [entriesPlain, Node.plain, Bool.and_eq_true] at h
    have hn : lookupEntry name d = none := hd name (by simp [lookupEntry])
    have hsub := copyDirSync_plain sub h.1.1
    have hd2 : ∀ k, (lookupEntry k rest).isSome = true →
        lookupEntry k (setEntry name (.dir sub) d) = none := by
      intro k hk
      have hkn : name ≠ k := by
        rintro rfl
        rw [Option.isNone_iff_eq_none.mp h.1.2] at hk
        simp at hk
      rw [lookupEntry_setEntry_ne hkn]
      exact hd k (by simp [lookupEntry, hkn, hk])
    have ih := copyEntries_plain rest (setEntry name (.dir sub) d) h.2 hd2
    rw [setEntry_of_absent name _ d hn] at ih
    simp only [copyEntries, hn, hsub, ih, setEntry_of_absent name _ d hn,
      List.append_assoc, List.singleton_append]
  | (name, .other) :: rest =>
    simp [entriesPlain, Node.plain] at h
end

/-! ## Capture and restore round trip -/

theorem guard_restores_from_tmp (ft : Faults) (s : FS) (A : Item) (src : Node)
    (ha : armed s = true) (hA : s.item A = none) (hB : existsSync (s.item A.other) = true)
    (hloc : existsSync (SNAPSHOT_LOCAL s) = false)
    (hsrc : join s.snapshotTmp A.entry = some src)
    (hok : (faulty (ft .tmpSnap A) (copyItem A src none)).err = none) :
    (postBashGuard ft s).attempts = [⟨.tmpSnap, A.label, true⟩] ∧
    (postBashGuard ft s).stderr = some ⟨.filesRestored, [], [A.label], []⟩ ∧
    (postBashGuard ft s).exitCode = 0 ∧
    (postBashGuard ft s).fs.item A = (copyItem A src none).dest ∧
    (postBashGuard ft s).fs.item A.other = s.item A.other := by
  have hf := faulty_ok _ _ hok
  rw [hf] at hok
  unfold armed at ha
  simp only [Bool.and_eq_true, Bool.not_eq_true'] at ha
  obtain ⟨⟨h1, h2⟩, h3⟩ := ha
  have hex : existsSync (join s.snapshotTmp A.entry) = true := by simp [hsrc, existsSync]
  have hst : existsSync s.snapshotTmp = true := by
    revert hsrc
    cases s.snapshotTmp <;> simp [join, existsSync]
  cases A with
  | pilot =>
    simp only [FS.item, Item.other] at hA hB
    simp only [Item.entry] at hsrc hex
    simp only [copyItem] at hok hf
    simp only [existsSync] at h1 h2 hB hst hex hloc
    simp [postBashGuard, h1, h2, h3, hA, hB, recover, tryRestore, snapshotDir, hst, hloc,
      restorePilot, hsrc, hf, hok, report, snapshotHadMissingContent, hex, existsSync, FS.item,
      Item.label, Item.other, copyItem]
  | claudeMd =>
    simp only [FS.item, Item.other] at hA hB
    simp only [Item.entry] at hsrc hex
    simp only [copyItem] at hok hf
    simp only [existsSync] at h1 h2 hB hst hex hloc
    simp [postBashGuard, h1, h2, h3, hA, hB, recover, tryRestore, snapshotDir, hst, hloc,
      restoreClaude, hsrc, hf, hok, report, snapshotHadMissingContent, hex, existsSync, FS.item,
      Item.label, Item.other, copyItem]

theorem takeSnapshot_plain (loc : Loc) (stamp : String) (fs : FS)
    (es : List (String × Node)) (b : String)
    (hp : fs.pilot = some (.dir es)) (hes : entriesPlain es = true)
    (hc : fs.claudeMd = some (.file b)) :
    takeSnapshot noFaults loc stamp fs =
      ⟨some (.dir [("pilot", .dir es), ("CLAUDE.md", .file b), (".sentinel", .file stamp)]), none,
        [.copyPilot true, .copyClaudeMd true, .writeSentinel]⟩ := by
  have h1 := copyDirSync_plain es hes
  simp [takeSnapshot, SnapOut.next, stagePilot, stageClaude, stampSentinel, hp, hc, noFaults,
    faulty, join, lookupEntry, h1, copyFileSync, putAt, setEntry]

theorem copyItem_plain (stamp : String) (A : Item) (fs : FS) (es : List (String × Node)) (b : String)
    (hp : fs.pilot = some (.dir es)) (hes : entriesPlain es = true)
    (hc : fs.claudeMd = some (.file b)) :
    ∃ src, fs.item A = some src ∧ copyItem A src none = ⟨some src, none⟩ ∧
      join (some (.dir [("pilot", .dir es), ("CLAUDE.md", .file b), (".sentinel", .file stamp)]))
        A.entry = some src := by
  cases A with
  | pilot => exact ⟨.dir es, hp, copyDirSync_plain es hes, rfl⟩
  | claudeMd => exact ⟨.file b, hc, rfl, rfl⟩

/-- C20 (capture and restore round trip).  In an initialized state without
onboarding or opt-out flag, where `.pilot/` is a tree of directories and
regular files, `CLAUDE.md` is a regular file and no copy raises an outside
error: after the capture by `pre-bash.js` both snapshots stage each item as it
is; when item `A` is then deleted, the guard puts it back exactly as it was at
capture time, from the local snapshot (when `.claude` can hold one) and, when
`.claude` was destroyed as well, from the durable snapshot. -/
theorem capture_restore_round_trip (stamp : String) (fs : FS) (A : Item)
    (es : List (String × Node)) (b : String)
    (hon : existsSync (ONBOARDING fs) = false) (hng : existsSync (NO_GUARD fs) = false)
    (hinit : initialized fs = true)
    (hp : fs.pilot = some (.dir es)) (hes : entriesPlain es = true)
    (hc : fs.claudeMd = some (.file b)) :
    join (preBash noFaults stamp fs).fs.snapshotTmp A.entry = fs.item A ∧
    ((postBashGuard noFaults
        ((preBash noFaults stamp fs).fs.remove A).dropClaudeDir).attempts =
        [⟨.tmpSnap, A.label, true⟩] ∧
      (postBashGuard noFaults
        ((preBash noFaults stamp fs).fs.remove A).dropClaudeDir).fs.item A =
        fs.item A) ∧
    ((fs.claudeDir = none ∨ ∃ ds, fs.claudeDir = some (.dir ds)) →
      join (SNAPSHOT_LOCAL (preBash noFaults stamp fs).fs) A.entry = fs.item A ∧
      (postBashGuard noFaults ((preBash noFaults stamp fs).fs.remove A)).attempts =
        [⟨.localSnap, A.label, true⟩] ∧
      (postBashGuard noFaults ((preBash noFaults stamp fs).fs.remove A)).fs.item A =
        fs.item A) := by
  obtain ⟨sp, sc, st, -⟩ := preBash_active noFaults stamp fs hon hinit
  obtain ⟨src, hsrc, hcopy, hj⟩ := copyItem_plain stamp A fs es b hp hes hc
  have hok : ∀ loc, (faulty (noFaults loc A) (copyItem A src none)).err = none := by
    intro loc; simp [noFaults, faulty, hcopy]
  have hstT := takeSnapshot_plain .tmpSnap stamp fs es b hp hes hc
  have hstL := takeSnapshot_plain .localSnap stamp fs es b hp hes hc
  have hBfs : existsSync (fs.item A.other) = true := by
    cases A <;> simp [FS.item, Item.other, hp, hc, existsSync]
  generalize hs : (preBash noFaults stamp fs).fs = s at *
  obtain ⟨rc, rt⟩ := remove_claudeDir s A
  have hB : existsSync ((s.remove A).item A.other) = true := by
    rw [remove_item_other]
    cases A
    · simpa [FS.item, Item.other, sc] using hBfs
    · simpa [FS.item, Item.other, sp] using hBfs
  have hon2 : existsSync (ONBOARDING (s.remove A)) = false := by
    apply remove_onboarding
    simp only [ONBOARDING, sp]
    exact hon
  have htmp : s.snapshotTmp =
      some (.dir [("pilot", .dir es), ("CLAUDE.md", .file b), (".sentinel", .file stamp)]) := by
    rw [st, hstT]
  have hjT : join s.snapshotTmp A.entry = some src := by rw [htmp]; exact hj
  have hinT : ∀ t : FS, t.snapshotTmp = s.snapshotTmp → initialized t = true := by
    intro t ht
    simp [initialized, SENTINEL_TMP, ht, htmp, existsSync, join, lookupEntry]
  refine ⟨by rw [hjT, hsrc], ?_, ?_⟩
  · -- restore from the durable snapshot
    have ha : armed (s.remove A).dropClaudeDir = true := by
      have h1 : existsSync (ONBOARDING (s.remove A).dropClaudeDir) = false := hon2
      have h2 : existsSync (NO_GUARD (s.remove A).dropClaudeDir) = false := rfl
      have h3 : initialized (s.remove A).dropClaudeDir = true := hinT _ rt
      simp [armed, h1, h2, h3]
    have hA : FS.item (s.remove A).dropClaudeDir A = none := by
      cases A <;> rfl
    have hB2 : existsSync (FS.item (s.remove A).dropClaudeDir A.other) = true := by
      cases A <;> exact hB
    obtain ⟨g1, -, -, g4, -⟩ := guard_restores_from_tmp noFaults
      (s.remove A).dropClaudeDir A src ha hA hB2 rfl
      (by show join (s.remove A).snapshotTmp A.entry = some src; rw [rt]; exact hjT)
      (hok _)
    exact ⟨g1, by rw [g4, hcopy, hsrc]⟩
  · intro hdir
    obtain ⟨-, -, hl⟩ := preBash_local_gen noFaults stamp fs hon hinit hdir
    rw [hs, hstL] at hl
    have hjL : join (SNAPSHOT_LOCAL s) A.entry = some src := by rw [hl]; exact hj
    have hng2 : existsSync (NO_GUARD (s.remove A)) = false := by
      simp only [NO_GUARD, rc]
      have hl0 : (preBash noFaults stamp fs).localThrew = none := by
        rw [(preBash_local_gen noFaults stamp fs hon hinit hdir).1, hstL]
      have := (preBash_local noFaults stamp fs hon hinit hl0).2.2.2 ".pp-no-guard" (by decide)
      rw [hs] at this
      rw [this]
      exact hng
    have ha : armed (s.remove A) = true := by simp [armed, hon2, hng2, hinT _ rt]
    obtain ⟨g1, -, -, g4, -⟩ := guard_restores_from_local noFaults (s.remove A) A src ha
      (remove_item_same s A) hB (by simpa only [SNAPSHOT_LOCAL, rc] using hjL) (hok _)
    exact ⟨by rw [hjL, hsrc], g1, by rw [g4, hcopy, hsrc]⟩

/-- C20, instance: on `fsDemo`, a deleted `.pilot/` comes back as it was, from
the local snapshot and, when `.claude` is gone too, from the durable one. -/
theorem capture_restore_round_trip_witness :
    (postBashGuard noFaults
      ((preBash noFaults "/work\n2025-01-15T10:31:00.000Z\n" fsDemo).fs.remove Item.pilot)).fs.pilot =
      fsDemo.pilot ∧
    (postBashGuard noFaults
      ((preBash noFaults "/work\n2025-01-15T10:31:00.000Z\n" fsDemo).fs.remove
        Item.pilot).dropClaudeDir).fs.pilot = fsDemo.pilot :=
  have h := capture_restore_round_trip "/work\n2025-01-15T10:31:00.000Z\n" fsDemo Item.pilot
    _ _ (by decide) (by decide) (by decide) rfl (by decide) rfl
  ⟨(h.2.2 (Or.inr ⟨_, rfl⟩)).2.2, h.2.1.2⟩


/-! ## The onboarding flag -/

/-- C14 (onboarding no-op): in every state in which `.pilot/internal/.onboarding`
exists, for every input, clock and copy fault, each of `pre-bash`,
`post-bash-guard`, `log-change`, `log-bash`, `session-start`,
`session-synthesis` and `pre-compact` exits with code 0, writes nothing, raises
nothing, and leaves the state as it found it: no snapshot step runs, no restore
is attempted, the opt-out flag stays, the ledger and the synthesis count are
unchanged. -/
theorem onboarding_no_op (ft : Faults) (stamp : String) (now : Instant) (el : Elapsed)
    (input : HookInput) (fs : FS) (hon : existsSync (ONBOARDING fs) = true) :
    preBash ft stamp fs = ⟨fs, 0, false, none, [], none, []⟩ ∧
    postBashGuard ft fs = ⟨fs, 0, none, []⟩ ∧
    logChange now input fs = ⟨fs, 0, [], none⟩ ∧
    logBash now input fs = ⟨fs, 0, [], none⟩ ∧
    sessionStart el input fs = ⟨fs, 0, [], none⟩ ∧
    sessionSynthesisHook input fs = ⟨fs, 0, [], none⟩ ∧
    preCompact fs = ⟨fs, 0, [], none⟩ := by
  refine ⟨?_, ?_, ?_, ?_, ?_, ?_, ?_⟩
  · simp [preBash, hon]
  · simp [postBashGuard, hon]
  · simp [logChange, hon, HookResult.exit]
  · simp [logBash, hon, HookResult.exit]
  · simp [sessionStart, hon, HookResult.exit]
  · unfold sessionSynthesisHook
    simp only [hon, HookResult.exit]
    repeat' split
    all_goals first | rfl | simp_all
  · unfold preCompact
    simp only [hon, HookResult.exit]
    repeat' split
    all_goals first | rfl | simp_all

theorem onboarding_no_op_witness :
    existsSync (ONBOARDING fsOnboarding) = true ∧
    preBash noFaults "stamp" fsOnboarding = ⟨fsOnboarding, 0, false, none, [], none, []⟩ ∧
    postBashGuard noFaults fsOnboarding = ⟨fsOnboarding, 0, none, []⟩ ∧
    logChange t0 editInput fsOnboarding = ⟨fsOnboarding, 0, [], none⟩ ∧
    logBash t0 editInput fsOnboarding = ⟨fsOnboarding, 0, [], none⟩ ∧
    sessionStart ⟨1300000000, 1300000000⟩ editInput fsOnboarding = ⟨fsOnboarding, 0, [], none⟩ ∧
    sessionSynthesisHook editInput fsOnboarding = ⟨fsOnboarding, 0, [], none⟩ ∧
    preCompact fsOnboarding = ⟨fsOnboarding, 0, [], none⟩ :=
  ⟨by decide,
    onboarding_no_op noFaults "stamp" t0 ⟨1300000000, 1300000000⟩ editInput fsOnboarding
      (by decide)⟩

/-! ## `session-start.js` -/

theorem sessionStart_onboarding (el : Elapsed) (input : HookInput) (fs : FS)
    (hon : existsSync (ONBOARDING fs) = true) :
    sessionStart el input fs = ⟨fs, 0, [], none⟩ := by
  simp [sessionStart, hon, HookResult.exit]

theorem sessionStart_fresh (el : Elapsed) (input : HookInput) (fs : FS)
    (hon : existsSync (ONBOARDING fs) = false) (hp : existsSync fs.pilot = false) :
    sessionStart el input fs =
      ⟨fs, 0, if sourceOf input = "startup".toList then [.nudge] else [], none⟩ := by
  unfold sessionStart
  simp only [hon, hp, HookResult.exit, Bool.not_false, if_true, Bool.false_eq_true, if_false]
  by_cases hs : sourceOf input = "startup".toList
  · rw [if_pos hs, if_pos hs]
  · rw [if_neg hs, if_neg hs]

theorem sessionStart_run (el : Elapsed) (input : HookInput) (fs : FS)
    (hon : existsSync (ONBOARDING fs) = false) (hp : existsSync fs.pilot = true)
    (hrun : (sessionStart el input fs).uncaught = none) :
    ∃ r m v, recoveryCheck (sourceOf input) fs = .ok r ∧ modulesCheck fs = .ok m ∧
      revisitCheck fs = .ok v ∧
      sessionStart el input fs =
        ⟨fs, if r ++ absenceCheck el fs ++ m ++ depMapCheck el fs ++ v = [] then 0 else 2,
          r ++ absenceCheck el fs ++ m ++ depMapCheck el fs ++ v, none⟩ := by
  unfold sessionStart at hrun ⊢
  simp only [hon, hp, HookResult.exit, HookResult.crash, sessionChecks] at hrun ⊢
  cases hr : recoveryCheck (sourceOf input) fs with
  | error e => simp [hr] at hrun
  | ok r =>
    cases hm : modulesCheck fs with
    | error e => simp [hr, hm] at hrun
    | ok m =>
      cases hv : revisitCheck fs with
      | error e => simp [hr, hm, hv] at hrun
      | ok v =>
        refine ⟨r, m, v, rfl, rfl, rfl, ?_⟩
        simp only [Bool.not_true, Bool.false_eq_true, if_false]
        generalize r ++ absenceCheck el fs ++ m ++ depMapCheck el fs ++ v = out
        cases out <;> simp

theorem recoveryCheck_cases (source : List Char) (fs : FS) (r : List Msg)
    (h : recoveryCheck source fs = .ok r) :
    r = [] ∨ ∃ n, r = [.recovery n source] := by
  unfold recoveryCheck at h
  split at h
  · split at h
    · split at h
      · cases h
      · split at h
        · cases h; exact Or.inr ⟨_, rfl⟩
        · cases h; exact Or.inl rfl
    · cases h; exact Or.inl rfl
  · cases h; exact Or.inl rfl

theorem modulesCheck_cases (fs : FS) (m : List Msg) (h : modulesCheck fs = .ok m) :
    m = [] ∨ ∃ names, m = [.modules names] := by
  unfold modulesCheck at h
  split at h
  · cases h; exact Or.inl rfl
  · simp only at h
    split at h
    · cases h; exact Or.inr ⟨_, rfl⟩
    · cases h; exact Or.inl rfl
  · cases h

theorem revisitCheck_cases (fs : FS) (v : List Msg) (h : revisitCheck fs = .ok v) :
    v = [] ∨ ∃ c k, v = [.revisit c k] := by
  unfold revisitCheck at h
  dsimp only at h
  split at h
  · split at h
    · cases h
    · split at h
      · cases h; exact Or.inl rfl
      · split at h
        · split at h
          · split at h
            · cases h
            · split at h
              · cases h; exact Or.inr ⟨_, _, rfl⟩
              · cases h; exact Or.inl rfl
          · cases h; exact Or.inl rfl
        · cases h; exact Or.inl rfl
  · cases h; exact Or.inl rfl

theorem absenceCheck_eq (el : Elapsed) (fs : FS)
    (hctx : existsSync (join fs.pilot "active-context.md") = true) :
    absenceCheck el fs =
      if wholeHours el.activeCtx > 336 then [.extendedAbsence (wholeHours el.activeCtx / 24)]
      else if wholeHours el.activeCtx > 48 then [.staleContext (wholeHours el.activeCtx)]
      else [] := by
  simp [absenceCheck, hctx]

theorem depMapCheck_mem (el : Elapsed) (fs : FS) (d : Int) :
    Msg.staleDepMap d ∈ depMapCheck el fs ↔
      existsSync (join (INTERNAL fs) "dependency-map.md") = true ∧
        wholeHours el.depMap > 72 ∧ d = wholeHours el.depMap := by
  unfold depMapCheck
  by_cases he : existsSync (join (INTERNAL fs) "dependency-map.md") = true
  · by_cases ha : wholeHours el.depMap > 72
    · simp [he, ha]
    · simp [he, ha]
  · simp [he]

theorem existsSync_pilot_of_join (fs : FS) (name : String)
    (h : existsSync (join fs.pilot name) = true) : existsSync fs.pilot = true := by
  unfold join at h
  split at h
  · simp_all [existsSync]
  · simp [existsSync] at h

theorem existsSync_pilot_of_internal (fs : FS) (name : String)
    (h : existsSync (join (INTERNAL fs) name) = true) : existsSync fs.pilot = true := by
  apply existsSync_pilot_of_join fs "internal"
  unfold join at h
  split at h
  · rename_i es heq
    simp [INTERNAL] at heq
    simp [existsSync, heq]
  · simp [existsSync] at h

theorem staleness_by_whole_hours (el : Elapsed) (input : HookInput) (fs : FS)
    (hon : existsSync (ONBOARDING fs) = false)
    (hrun : (sessionStart el input fs).uncaught = none) :
    (existsSync (join fs.pilot "active-context.md") = true →
      (wholeHours el.activeCtx > 336 →
        Msg.extendedAbsence (wholeHours el.activeCtx / 24) ∈ (sessionStart el input fs).stderr ∧
        ∀ h, Msg.staleContext h ∉ (sessionStart el input fs).stderr) ∧
      (¬ wholeHours el.activeCtx > 336 → wholeHours el.activeCtx > 48 →
        Msg.staleContext (wholeHours el.activeCtx) ∈ (sessionStart el input fs).stderr ∧
        ∀ d, Msg.extendedAbsence d ∉ (sessionStart el input fs).stderr) ∧
      (¬ wholeHours el.activeCtx > 48 →
        ∀ x, Msg.extendedAbsence x ∉ (sessionStart el input fs).stderr ∧
          Msg.staleContext x ∉ (sessionStart el input fs).stderr)) ∧
    (∀ d, Msg.staleDepMap d ∈ (sessionStart el input fs).stderr ↔
      existsSync (join (INTERNAL fs) "dependency-map.md") = true ∧
        wholeHours el.depMap > 72 ∧ d = wholeHours el.depMap) := by
  by_cases hp : existsSync fs.pilot = true
  · obtain ⟨r, m, v, hr, hm, hv, hs⟩ := sessionStart_run el input fs hon hp hrun
    rw [hs]
    have hr1 := recoveryCheck_cases _ _ _ hr
    have hm1 := modulesCheck_cases _ _ hm
    have hv1 := revisitCheck_cases _ _ hv
    refine ⟨fun hctx => ?_, fun d => ?_⟩
    · have ha := absenceCheck_eq el fs hctx
      have hd : ∀ x, Msg.extendedAbsence x ∉ depMapCheck el fs ∧
          Msg.staleContext x ∉ depMapCheck el fs := by
        intro x
        unfold depMapCheck
        dsimp only
        constructor <;> split_ifs <;> simp
      refine ⟨fun h1 => ?_, fun h1 h2 => ?_, fun h2 => ?_⟩
      · rw [ha, if_pos h1]
        refine ⟨by simp, fun h => ?_⟩
        have := (hd h).2
        rcases hr1 with rfl | ⟨n, rfl⟩ <;> rcases hm1 with rfl | ⟨nm, rfl⟩ <;>
          rcases hv1 with rfl | ⟨c, k, rfl⟩ <;> simp [this]
      · rw [ha, if_neg h1, if_pos h2]
        refine ⟨by simp, fun h => ?_⟩
        have := (hd h).1
        rcases hr1 with rfl | ⟨n, rfl⟩ <;> rcases hm1 with rfl | ⟨nm, rfl⟩ <;>
          rcases hv1 with rfl | ⟨c, k, rfl⟩ <;> simp [this]
      · have h1 : ¬ wholeHours el.activeCtx > 336 := by omega
        rw [ha, if_neg h1, if_neg h2]
        intro x
        have := hd x
        rcases hr1 with rfl | ⟨n, rfl⟩ <;> rcases hm1 with rfl | ⟨nm, rfl⟩ <;>
          rcases hv1 with rfl | ⟨c, k, rfl⟩ <;> simp [this]
    · rw [← depMapCheck_mem]
      have hab : Msg.staleDepMap d ∉ absenceCheck el fs := by
        unfold absenceCheck
        dsimp only
        split_ifs <;> simp
      rcases hr1 with rfl | ⟨n, rfl⟩ <;> rcases hm1 with rfl | ⟨nm, rfl⟩ <;>
        rcases hv1 with rfl | ⟨c, k, rfl⟩ <;> simp [hab]
  · have hp0 : existsSync fs.pilot = false := by simpa using hp
    refine ⟨fun hctx => absurd (existsSync_pilot_of_join fs _ hctx) hp, fun d => ?_⟩
    rw [sessionStart_fresh el input fs hon hp0]
    constructor
    · intro h
      simp only at h
      split at h <;> simp at h
    · rintro ⟨h, -⟩
      exact absurd (existsSync_pilot_of_internal fs _ h) hp

theorem wholeHours_gt_iff (ms h : Int) : wholeHours ms > h ↔ (h + 1) * 3600000 ≤ ms := by
  unfold wholeHours
  omega

/-- C17 as stated fails, the age being the time since the last change.  With
`active-context.md` changed 336 h 30 min ago the hook gives the
verify-before-relying warning (`336h old`), not the extended-absence message;
changed 48 h 36 min ago, with `dependency-map.md` changed 72 h 54 min ago, it
gives no staleness message and no dependency-map warning. -/
theorem staleness_thresholds_counterexample :
    (336 * 3600000 < (1211400000 : Int) ∧
      (sessionStart ⟨1211400000, 0⟩ noReasonInput fsBusy).stderr =
        [.staleContext 336, .modules "api, web".toList, .revisit 10 1]) ∧
    (48 * 3600000 < (174960000 : Int) ∧ 72 * 3600000 < (262440000 : Int) ∧
      (sessionStart ⟨174960000, 262440000⟩ noReasonInput fsBusy).stderr =
        [.modules "api, web".toList, .revisit 10 1]) := by
  decide

/-- C17 (context staleness thresholds), amended: the thresholds are on whole
elapsed hours.  When `session-start` runs its checks (no onboarding flag, no
read raises) and `active-context.md` exists, with `age` the number of whole
hours since its last modification (the elapsed time rounded down, as the hook
computes it): for `age > 336` it emits the extended-absence message (with
`age / 24` days) and no verify-before-relying warning; otherwise for
`age > 48` it emits the verify-before-relying warning with that age and no
extended-absence message; otherwise neither.  It emits the dependency-map
warning exactly when `dependency-map.md` exists and its age in whole hours is
greater than 72; the warning carries that age.  An age in whole hours is
greater than `h` exactly when at least `h + 1` hours have elapsed. -/
theorem staleness_thresholds (el : Elapsed) (input : HookInput) (fs : FS)
    (hon : existsSync (ONBOARDING fs) = false)
    (hrun : (sessionStart el input fs).uncaught = none) :
    (existsSync (join fs.pilot "active-context.md") = true →
      (wholeHours el.activeCtx > 336 →
        Msg.extendedAbsence (wholeHours el.activeCtx / 24) ∈ (sessionStart el input fs).stderr ∧
        ∀ h, Msg.staleContext h ∉ (sessionStart el input fs).stderr) ∧
      (¬ wholeHours el.activeCtx > 336 → wholeHours el.activeCtx > 48 →
        Msg.staleContext (wholeHours el.activeCtx) ∈ (sessionStart el input fs).stderr ∧
        ∀ d, Msg.extendedAbsence d ∉ (sessionStart el input fs).stderr) ∧
      (¬ wholeHours el.activeCtx > 48 →
        ∀ x, Msg.extendedAbsence x ∉ (sessionStart el input fs).stderr ∧
          Msg.staleContext x ∉ (sessionStart el input fs).stderr)) ∧
    (∀ d, Msg.staleDepMap d ∈ (sessionStart el input fs).stderr ↔
      existsSync (join (INTERNAL fs) "dependency-map.md") = true ∧
        wholeHours el.depMap > 72 ∧ d = wholeHours el.depMap) ∧
    (∀ ms h : Int, wholeHours ms > h ↔ (h + 1) * 3600000 ≤ ms) := by
  obtain ⟨h1, h2⟩ := staleness_by_whole_hours el input fs hon hrun
  exact ⟨h1, h2, wholeHours_gt_iff⟩

theorem revisitCheck_mem (fs : FS) (v : List Msg) (h : revisitCheck fs = .ok v) (c : Int)
    (k : Nat) :
    Msg.revisit c k ∈ v ↔
      (∃ t, readFileSync (countFile fs) = .ok t ∧ parseInt10 (jsTrim t) = some c) ∧ 10 ≤ c ∧
      (∃ content, readFileSync (join fs.pilot "decisions.md") = .ok content ∧
        revisitMarkers content = k) ∧ 0 < k := by
  unfold revisitCheck at h
  dsimp only at h
  split at h
  · split at h
    · cases h
    · rename_i t ht
      split at h
      · rename_i hn
        cases h
        simp [ht, hn]
      · rename_i count hc
        split at h
        · rename_i h10
          split at h
          · split at h
            · cases h
            · rename_i content hd
              split at h
              · rename_i hk
                cases h
                simp only [List.mem_singleton, Msg.revisit.injEq, ht, hc, hd, Except.ok.injEq,
                  Option.some.injEq, exists_eq_left']
                constructor
                · rintro ⟨rfl, rfl⟩
                  exact ⟨rfl, h10, rfl, hk⟩
                · rintro ⟨rfl, -, rfl, -⟩
                  exact ⟨rfl, rfl⟩
              · rename_i hk
                cases h
                simp only [List.not_mem_nil, ht, hc, hd, Except.ok.injEq, Option.some.injEq,
                  exists_eq_left', false_iff, not_and]
                rintro rfl - rfl
                exact hk
          · rename_i hex
            cases h
            have : join fs.pilot "decisions.md" = none := by
              cases hj : join fs.pilot "decisions.md" <;> simp_all [existsSync]
            simp [this, readFileSync]
        · rename_i h10
          cases h
          simp only [List.not_mem_nil, ht, hc, Except.ok.injEq, Option.some.injEq,
            exists_eq_left', false_iff, not_and]
          rintro rfl h
          exact absurd h h10
  · rename_i hex
    cases h
    have : countFile fs = none := by
      cases hj : countFile fs <;> simp_all [existsSync]
    simp [this, readFileSync]

/-- C18 (revisitation reminder condition), contrary to the claim: with a
recorded synthesis count of 11, which is not a multiple of 5, and two
`Revisit When` markers in `decisions.md`, `session-start` emits the reminder
`11 sessions completed. Check 2 decision revisitation condition(s) ...`. -/
theorem revisitation_reminder_counterexample :
    Msg.revisit 11 2 ∈ (sessionStart ⟨0, 0⟩ noReasonInput fsEleven).stderr ∧ ¬ (5 : Int) ∣ 11 := by
  decide

/-- C18 (revisitation reminder condition), amended: when `session-start` runs
its checks (no onboarding flag, no read raises), it emits the reminder with the
numbers `c` and `k` exactly when `.synthesis-count` reads as the integer `c`,
`c` is at least 10 (whatever its remainder by 5), and `decisions.md` exists
and holds `k > 0` markers `Revisit When`.  So the number it surfaces is the
number of markers, and no reminder is emitted for a recorded count below 10. -/
theorem revisitation_reminder (el : Elapsed) (input : HookInput) (fs : FS)
    (hon : existsSync (ONBOARDING fs) = false)
    (hrun : (sessionStart el input fs).uncaught = none) (c : Int) (k : Nat) :
    Msg.revisit c k ∈ (sessionStart el input fs).stderr ↔
      (∃ t, readFileSync (countFile fs) = .ok t ∧ parseInt10 (jsTrim t) = some c) ∧ 10 ≤ c ∧
      (∃ content, readFileSync (join fs.pilot "decisions.md") = .ok content ∧
        revisitMarkers content = k) ∧ 0 < k := by
  by_cases hp : existsSync fs.pilot = true
  · obtain ⟨r, m, v, hr, hm, hv, hs⟩ := sessionStart_run el input fs hon hp hrun
    rw [hs, ← revisitCheck_mem fs v hv c k]
    have hr1 := recoveryCheck_cases _ _ _ hr
    have hm1 := modulesCheck_cases _ _ hm
    have hab : Msg.revisit c k ∉ absenceCheck el fs := by
      unfold absenceCheck
      dsimp only
      split_ifs <;> simp
    have hdp : Msg.revisit c k ∉ depMapCheck el fs := by
      unfold depMapCheck
      dsimp only
      split_ifs <;> simp
    rcases hr1 with rfl | ⟨n, rfl⟩ <;> rcases hm1 with rfl | ⟨nm, rfl⟩ <;> simp [hab, hdp]
  · have hp0 : existsSync fs.pilot = false := by simpa using hp
    rw [sessionStart_fresh el input fs hon hp0]
    have hcf : countFile fs = none := by
      cases hj : countFile fs with
      | none => rfl
      | some n =>
        exact absurd (existsSync_pilot_of_internal fs ".synthesis-count"
          (by simp [countFile] at hj; simp [existsSync, hj])) hp
    constructor
    · intro h
      simp only at h
      split at h <;> simp at h
    · rintro ⟨⟨t, ht, -⟩, -⟩
      simp [hcf, readFileSync] at ht

theorem revisitation_reminder_witness :
    existsSync (ONBOARDING fsBusy) = false ∧
    (sessionStart ⟨0, 0⟩ clearInput fsBusy).uncaught = none ∧
    (Msg.revisit 10 1 ∈ (sessionStart ⟨0, 0⟩ clearInput fsBusy).stderr ↔
      (∃ t, readFileSync (countFile fsBusy) = .ok t ∧ parseInt10 (jsTrim t) = some 10) ∧
      (10 : Int) ≤ 10 ∧
      (∃ content, readFileSync (join fsBusy.pilot "decisions.md") = .ok content ∧
        revisitMarkers content = 1) ∧ 0 < 1) :=
  ⟨by decide, by decide,
    revisitation_reminder ⟨0, 0⟩ clearInput fsBusy (by decide) (by decide) 10 1⟩

theorem staleness_thresholds_witness :
    existsSync (ONBOARDING fsBusy) = false ∧
    (sessionStart ⟨1440000000, 288000000⟩ clearInput fsBusy).uncaught = none ∧
    Msg.extendedAbsence 16 ∈ (sessionStart ⟨1440000000, 288000000⟩ clearInput fsBusy).stderr ∧
    Msg.staleDepMap 80 ∈ (sessionStart ⟨1440000000, 288000000⟩ clearInput fsBusy).stderr :=
  have h := staleness_thresholds ⟨1440000000, 288000000⟩ clearInput fsBusy (by decide) (by decide)
  ⟨by decide, by decide, ((h.1 (by decide)).1 (by decide)).1,
    (h.2.1 80).2 ⟨by decide, by decide, by decide⟩⟩

theorem unsynthesized_of_missing (fs : FS) (h : existsSync (LEDGER fs) = false) :
    unsynthesized fs = .error "ENOENT" := by
  have : LEDGER fs = none := by
    cases hj : LEDGER fs <;> simp_all [existsSync]
  simp [unsynthesized, this, readFileSync]

theorem recoveryCheck_mem (source : List Char) (fs : FS) (r : List Msg)
    (h : recoveryCheck source fs = .ok r) (n : Nat) (s : List Char) :
    Msg.recovery n s ∈ r ↔
      s = source ∧
      (source = "clear".toList ∨ source = "compact".toList ∨ source = "resume".toList) ∧
      ∃ lines, unsynthesized fs = .ok lines ∧ lines.length = n ∧ 0 < n := by
  unfold recoveryCheck at h
  split at h
  · rename_i hsrc
    split at h
    · split at h
      · cases h
      · rename_i lines hl
        split at h
        · rename_i hpos
          cases h
          simp only [List.mem_singleton, Msg.recovery.injEq, hl, Except.ok.injEq,
            exists_eq_left']
          constructor
          · rintro ⟨rfl, rfl⟩
            exact ⟨rfl, hsrc, rfl, hpos⟩
          · rintro ⟨rfl, -, rfl, -⟩
            exact ⟨rfl, rfl⟩
        · rename_i hpos
          cases h
          simp only [List.not_mem_nil, hl, Except.ok.injEq, exists_eq_left', false_iff, not_and]
          rintro - - rfl
          exact hpos
    · rename_i hex
      cases h
      have hex0 : existsSync (LEDGER fs) = false := by simpa using hex
      simp [unsynthesized_of_missing fs hex0]
  · rename_i hsrc
    cases h
    simp only [List.not_mem_nil, false_iff, not_and]
    intro _ h
    exact absurd h hsrc

/-- C19 (session boundary signal), contrary to the claim: in a project without
`.pilot/`, at a boundary that names no reason (so `startup`), `session-start`
writes a message, the install note, and exits with code 0, not 2. -/
theorem session_boundary_signal_counterexample :
    sourceOf noReasonInput = "startup".toList ∧
    (sessionStart ⟨0, 0⟩ noReasonInput fsNoPilot).stderr = [Msg.nudge] ∧
    (sessionStart ⟨0, 0⟩ noReasonInput fsNoPilot).exitCode = 0 := by
  decide

/-- C19 (session boundary signal), amended: without the onboarding flag and
when no read raises, for every input (a reason that is not given is `startup`):
if `.pilot/` exists, `session-start` evaluates its five checks (recovery,
extended absence, modules, dependency map, revisitation), writes the messages
of all of them in that order, exits with code 2 exactly when there is at least
one message and with code 0 exactly when there is none, and the recovery
message (with count `n` and reason `s`) is among them exactly when `s` is the
reason, the reason is `clear`, `compact` or `resume`, and the ledger has
`n > 0` unsynthesized entries; if `.pilot/` does not exist, it writes the
install note when the reason is `startup` and nothing otherwise, and exits
with code 0 in both cases. -/
theorem session_boundary_signal (el : Elapsed) (input : HookInput) (fs : FS)
    (hon : existsSync (ONBOARDING fs) = false)
    (hrun : (sessionStart el input fs).uncaught = none) :
    (matchField "source".toList input.text = none → sourceOf input = "startup".toList) ∧
    (existsSync fs.pilot = true →
      (∃ r m v, recoveryCheck (sourceOf input) fs = .ok r ∧ modulesCheck fs = .ok m ∧
        revisitCheck fs = .ok v ∧
        (sessionStart el input fs).stderr =
          r ++ absenceCheck el fs ++ m ++ depMapCheck el fs ++ v) ∧
      ((sessionStart el input fs).exitCode = 2 ↔ (sessionStart el input fs).stderr ≠ []) ∧
      ((sessionStart el input fs).exitCode = 0 ↔ (sessionStart el input fs).stderr = []) ∧
      ∀ n s, Msg.recovery n s ∈ (sessionStart el input fs).stderr ↔
        s = sourceOf input ∧
        (sourceOf input = "clear".toList ∨ sourceOf input = "compact".toList ∨
          sourceOf input = "resume".toList) ∧
        ∃ lines, unsynthesized fs = .ok lines ∧ lines.length = n ∧ 0 < n) ∧
    (existsSync fs.pilot = false →
      (sessionStart el input fs).stderr =
        (if sourceOf input = "startup".toList then [Msg.nudge] else []) ∧
      (sessionStart el input fs).exitCode = 0) := by
  refine ⟨fun h => by unfold sourceOf; rw [h], fun hp => ?_, fun hp => ?_⟩
  · obtain ⟨r, m, v, hr, hm, hv, hs⟩ := sessionStart_run el input fs hon hp hrun
    rw [hs]
    refine ⟨⟨r, m, v, hr, hm, hv, rfl⟩, ?_, ?_, fun n s => ?_⟩
    · dsimp only
      generalize r ++ absenceCheck el fs ++ m ++ depMapCheck el fs ++ v = out
      cases out <;> simp
    · dsimp only
      generalize r ++ absenceCheck el fs ++ m ++ depMapCheck el fs ++ v = out
      cases out <;> simp
    · rw [← recoveryCheck_mem _ fs r hr n s]
      have hm1 := modulesCheck_cases _ _ hm
      have hv1 := revisitCheck_cases _ _ hv
      have hab : Msg.recovery n s ∉ absenceCheck el fs := by
        unfold absenceCheck
        dsimp only
        split_ifs <;> simp
      have hdp : Msg.recovery n s ∉ depMapCheck el fs := by
        unfold depMapCheck
        dsimp only
        split_ifs <;> simp
      rcases hm1 with rfl | ⟨nm, rfl⟩ <;> rcases hv1 with rfl | ⟨c, k, rfl⟩ <;> simp [hab, hdp]
  · rw [sessionStart_fresh el input fs hon hp]
    exact ⟨rfl, rfl⟩

theorem session_boundary_signal_witness :
    existsSync (ONBOARDING fsBusy) = false ∧
    (sessionStart ⟨1440000000, 288000000⟩ clearInput fsBusy).uncaught = none ∧
    (sessionStart ⟨1440000000, 288000000⟩ clearInput fsBusy).exitCode = 2 ∧
    (sessionStart ⟨1440000000, 288000000⟩ clearInput fsBusy).stderr =
      [.recovery 2 "clear".toList, .extendedAbsence 16, .modules "api, web".toList,
        .staleDepMap 80, .revisit 10 1] :=
  have h := session_boundary_signal ⟨1440000000, 288000000⟩ clearInput fsBusy
    (by decide) (by decide)
  ⟨by decide, by decide, (h.2.1 (by decide)).2.1.2 (by decide), by decide⟩

/-! ## The ledger writers -/

/-- C15 (append writes one line) fails in `log-bash.js` for a command text
with a newline: logging the command `echo a`, newline, `echo b` at
2025-01-15T10:30:00Z appends two lines to the ledger, and the second, `echo b`,
does not start with a timestamp.  The readers then take `echo b` for the
timestamp of an entry: it compares greater than every watermark, so after a
synthesis that stamps 10:31:00 the ledger still counts one unsynthesized
change and the Stop hook asks for another synthesis (exit code 2). -/
theorem log_bash_multiline_command :
    (logBash t0 twoLineCommand fsLedger).uncaught = none ∧
    readFileSync (LEDGER (logBash t0 twoLineCommand fsLedger).fs) =
      .ok ("# Format: TIMESTAMP | ACTION | FILE_PATH_OR_COMMAND\n" ++
        "2025-01-15T10:30:00Z | BASH | echo a\necho b\n").toList ∧
    ledgerLines ("# Format: TIMESTAMP | ACTION | FILE_PATH_OR_COMMAND\n" ++
        "2025-01-15T10:30:00Z | BASH | echo a\necho b\n").toList =
      ["2025-01-15T10:30:00Z | BASH | echo a".toList, "echo b".toList] ∧
    unsynthesized fsAfterSynthesis = .ok ["echo b".toList] ∧
    (sessionSynthesisHook ⟨[], none⟩ fsAfterSynthesis).exitCode = 2 :=
  ⟨rfl, rfl, by decide, rfl, by decide⟩

/-! ## Timestamps and their order -/

theorem digitChar_mem (d : Nat) :
    digitChar d ∈ ['0', '1', '2', '3', '4', '5', '6', '7', '8', '9'] := by
  unfold digitChar
  have h : d % 10 < 10 := Nat.mod_lt _ (by decide)
  generalize d % 10 = k at h
  interval_cases k <;> decide

theorem utf16_digitChar (d : Nat) : utf16 (digitChar d) = [48 + d % 10] := by
  unfold digitChar
  have h : d % 10 < 10 := Nat.mod_lt _ (by decide)
  generalize d % 10 = k at h
  interval_cases k <;> decide

theorem digitChar_isDigit (d : Nat) : (digitChar d).isDigit = true := by
  have h := digitChar_mem d
  generalize digitChar d = c at h
  simp only [List.mem_cons, List.mem_singleton, List.not_mem_nil, or_false] at h
  rcases h with rfl | rfl | rfl | rfl | rfl | rfl | rfl | rfl | rfl | rfl <;> decide

theorem digitChar_ne (d : Nat) (c : Char) (hc : c.isDigit = false) : digitChar d ≠ c := by
  intro h
  rw [← h, digitChar_isDigit] at hc
  cases hc

theorem codeUnits_cons (c : Char) (s : List Char) : codeUnits (c :: s) = utf16 c ++ codeUnits s := by
  simp [codeUnits]

theorem isoTimestamp_eq (t : Instant) (hy : t.year ≤ 9999) :
    isoTimestamp t =
      pad4 t.year ++ '-' :: pad2 t.month ++ '-' :: pad2 t.day ++ 'T' :: pad2 t.hour ++
        ':' :: pad2 t.minute ++ ':' :: pad2 t.second ++ ['Z'] := by
  have hd : ∀ d, ¬ digitChar d = '.' := fun d => digitChar_ne d '.' (by decide)
  simp [isoTimestamp, toISOString, hy, pad4, pad2, pad3, stripMillis, millisTail, hd,
    digitChar_isDigit]

theorem codeUnits_isoTimestamp (t : Instant) (hy : t.year ≤ 9999) :
    codeUnits (isoTimestamp t) =
      [48 + t.year / 1000 % 10, 48 + t.year / 100 % 10, 48 + t.year / 10 % 10,
        48 + t.year % 10, 45, 48 + t.month / 10 % 10, 48 + t.month % 10, 45,
        48 + t.day / 10 % 10, 48 + t.day % 10, 84,
        48 + t.hour / 10 % 10, 48 + t.hour % 10, 58,
        48 + t.minute / 10 % 10, 48 + t.minute % 10, 58,
        48 + t.second / 10 % 10, 48 + t.second % 10, 90] := by
  rw [isoTimestamp_eq t hy]
  simp only [pad4, pad2, List.cons_append, List.nil_append, codeUnits_cons, utf16_digitChar]
  rfl

theorem unitsLt_cons (x y : Nat) (xs ys : List Nat) :
    unitsLt (x :: xs) (y :: ys) = true ↔ x < y ∨ (x = y ∧ unitsLt xs ys = true) := by
  simp [unitsLt]

theorem lexFields_iff (ya ma da ha ia sa yb mb db hb ib sb : Nat)
    (hya : ya ≤ 9999) (hyb : yb ≤ 9999) (hma : ma < 100) (hmb : mb < 100)
    (hda : da < 100) (hdb : db < 100) (hha : ha < 100) (hhb : hb < 100)
    (hia : ia < 100) (hib : ib < 100) (hsa : sa < 100) (hsb : sb < 100) :
    unitsLt
      [48 + ya / 1000 % 10, 48 + ya / 100 % 10, 48 + ya / 10 % 10, 48 + ya % 10, 45,
        48 + ma / 10 % 10, 48 + ma % 10, 45, 48 + da / 10 % 10, 48 + da % 10, 84,
        48 + ha / 10 % 10, 48 + ha % 10, 58, 48 + ia / 10 % 10, 48 + ia % 10, 58,
        48 + sa / 10 % 10, 48 + sa % 10, 90]
      [48 + yb / 1000 % 10, 48 + yb / 100 % 10, 48 + yb / 10 % 10, 48 + yb % 10, 45,
        48 + mb / 10 % 10, 48 + mb % 10, 45, 48 + db / 10 % 10, 48 + db % 10, 84,
        48 + hb / 10 % 10, 48 + hb % 10, 58, 48 + ib / 10 % 10, 48 + ib % 10, 58,
        48 + sb / 10 % 10, 48 + sb % 10, 90] = true ↔
      ya < yb ∨ (ya = yb ∧ (ma < mb ∨ (ma = mb ∧ (da < db ∨ (da = db ∧
        (ha < hb ∨ (ha = hb ∧ (ia < ib ∨ (ia = ib ∧ sa < sb))))))))) := by
  have two : ∀ (m n : Nat) (r s : List Nat), m < 100 → n < 100 →
      (unitsLt ((48 + m / 10 % 10) :: (48 + m % 10) :: r)
          ((48 + n / 10 % 10) :: (48 + n % 10) :: s) = true ↔
        m < n ∨ (m = n ∧ unitsLt r s = true)) := by
    intro m n r s hm hn
    rw [unitsLt_cons, unitsLt_cons]
    constructor
    · rintro (h | ⟨h1, h | ⟨h2, h3⟩⟩)
      · left; omega
      · left; omega
      · right; exact ⟨by omega, h3⟩
    · rintro (h | ⟨rfl, h⟩)
      · by_cases h1 : m / 10 % 10 < n / 10 % 10
        · left; omega
        · right; exact ⟨by omega, Or.inl (by omega)⟩
      · right; exact ⟨rfl, Or.inr ⟨rfl, h⟩⟩
  have sep : ∀ (c : Nat) (r s : List Nat),
      (unitsLt (c :: r) (c :: s) = true ↔ unitsLt r s = true) := by
    intro c r s
    rw [unitsLt_cons]
    simp
  have four : ∀ (m n : Nat) (r s : List Nat), m ≤ 9999 → n ≤ 9999 →
      (unitsLt ((48 + m / 1000 % 10) :: (48 + m / 100 % 10) :: (48 + m / 10 % 10) ::
            (48 + m % 10) :: r)
          ((48 + n / 1000 % 10) :: (48 + n / 100 % 10) :: (48 + n / 10 % 10) ::
            (48 + n % 10) :: s) = true ↔
        m < n ∨ (m = n ∧ unitsLt r s = true)) := by
    intro m n r s hm hn
    rw [unitsLt_cons, unitsLt_cons, unitsLt_cons, unitsLt_cons]
    have e1 : m / 1000 % 10 = m / 1000 := Nat.mod_eq_of_lt (by omega)
    have e2 : n / 1000 % 10 = n / 1000 := Nat.mod_eq_of_lt (by omega)
    have e3 : m / 100 = 10 * (m / 1000) + m / 100 % 10 := by omega
    have e4 : n / 100 = 10 * (n / 1000) + n / 100 % 10 := by omega
    have e5 : m / 10 = 10 * (m / 100) + m / 10 % 10 := by omega
    have e6 : n / 10 = 10 * (n / 100) + n / 10 % 10 := by omega
    have e7 : m = 10 * (m / 10) + m % 10 := by omega
    have e8 : n = 10 * (n / 10) + n % 10 := by omega
    generalize m / 1000 % 10 = a3 at *
    generalize n / 1000 % 10 = b3 at *
    generalize m / 100 % 10 = a2 at *
    generalize n / 100 % 10 = b2 at *
    generalize m / 10 % 10 = a1 at *
    generalize n / 10 % 10 = b1 at *
    have ha0 : m % 10 < 10 := Nat.mod_lt _ (by decide)
    have hb0 : n % 10 < 10 := Nat.mod_lt _ (by decide)
    generalize m % 10 = a0 at *
    generalize n % 10 = b0 at *
    constructor
    · rintro (h | ⟨h1, h | ⟨h2, h | ⟨h3, h | ⟨h4, h5⟩⟩⟩⟩)
      · left; omega
      · left; omega
      · left; omega
      · left; omega
      · right; exact ⟨by omega, h5⟩
    · rintro (h | ⟨hmn, h⟩)
      · by_cases h1 : a3 < b3
        · left; omega
        · right
          refine ⟨by omega, ?_⟩
          by_cases h2 : a2 < b2
          · left; omega
          · right
            refine ⟨by omega, ?_⟩
            by_cases h3 : a1 < b1
            · left; omega
            · right; exact ⟨by omega, Or.inl (by omega)⟩
      · right
        exact ⟨by omega, Or.inr ⟨by omega, Or.inr ⟨by omega, Or.inr ⟨by omega, h⟩⟩⟩⟩
  rw [four _ _ _ _ hya hyb, sep, two _ _ _ _ hma hmb, sep, two _ _ _ _ hda hdb, sep,
    two _ _ _ _ hha hhb, sep, two _ _ _ _ hia hib, sep, two _ _ _ _ hsa hsb]
  simp [unitsLt]

theorem daysBeforeMonth_succ (y m : Nat) (h1 : 1 ≤ m) :
    daysBeforeMonth y (m + 1) = daysBeforeMonth y m + daysInMonth y m := by
  obtain ⟨k, rfl⟩ : ∃ k, m = k + 1 := ⟨m - 1, by omega⟩
  simp [daysBeforeMonth, List.range_succ]

theorem daysBeforeMonth_mono (y m n : Nat) (h1 : 1 ≤ m) (h : m ≤ n) :
    daysBeforeMonth y m ≤ daysBeforeMonth y n := by
  induction n, h using Nat.le_induction with
  | base => exact le_rfl
  | succ k hk ih =>
    rw [daysBeforeMonth_succ y k (le_trans h1 hk)]
    omega

theorem daysBeforeMonth_thirteen (y : Nat) :
    daysBeforeMonth y 13 = 365 + (if isLeapYear y then 1 else 0) := by
  cases hl : isLeapYear y <;> simp [daysBeforeMonth, daysInMonth, List.range_succ, hl]

theorem daysInMonth_le (y m : Nat) : daysInMonth y m ≤ 31 := by
  unfold daysInMonth
  split_ifs <;> omega

theorem dayOfYear_lt (y ma da mb db : Nat) (ha1 : 1 ≤ ma) (hda : da ≤ daysInMonth y ma)
    (hdb1 : 1 ≤ db) (h : ma < mb ∨ (ma = mb ∧ da < db)) :
    daysBeforeMonth y ma + da < daysBeforeMonth y mb + db := by
  rcases h with h | ⟨rfl, h⟩
  · have h2 := daysBeforeMonth_succ y ma ha1
    have h3 := daysBeforeMonth_mono y (ma + 1) mb (by omega) h
    omega
  · omega

theorem dayOfYear_le (y m d : Nat) (h1 : 1 ≤ m) (h12 : m ≤ 12) (hd : d ≤ daysInMonth y m) :
    daysBeforeMonth y m + d ≤ 365 + (if isLeapYear y then 1 else 0) := by
  have h2 := daysBeforeMonth_succ y m h1
  have h3 := daysBeforeMonth_mono y (m + 1) 13 (by omega) (by omega)
  rw [daysBeforeMonth_thirteen] at h3
  omega

theorem daysBeforeYear_succ (y : Nat) :
    daysBeforeYear (y + 1) = daysBeforeYear y + 365 + (if isLeapYear y then 1 else 0) := by
  have e4 : (y + 1 + 3) / 4 = (y + 3) / 4 + (if y % 4 = 0 then 1 else 0) := by
    split_ifs <;> omega
  have e100 : (y + 1 + 99) / 100 = (y + 99) / 100 + (if y % 100 = 0 then 1 else 0) := by
    split_ifs <;> omega
  have e400 : (y + 1 + 399) / 400 = (y + 399) / 400 + (if y % 400 = 0 then 1 else 0) := by
    split_ifs <;> omega
  have hle : (y + 99) / 100 ≤ (y + 3) / 4 := by omega
  have m1 : y % 400 = 0 → y % 100 = 0 := fun h => by omega
  have m2 : y % 100 = 0 → y % 4 = 0 := fun h => by omega
  unfold daysBeforeYear isLeapYear
  rw [e4, e100, e400]
  generalize (y + 3) / 4 = q4 at *
  generalize (y + 99) / 100 = q100 at *
  generalize (y + 399) / 400 = q400 at *
  by_cases h4 : y % 4 = 0 <;> by_cases h100 : y % 100 = 0 <;> by_cases h400 : y % 400 = 0 <;>
    simp only [h4, h100, h400, if_true, if_false, decide_True, decide_False, Bool.and_true,
      Bool.and_false, Bool.or_true, Bool.or_false, Bool.true_and, Bool.false_and, bne_self_eq_false,
      Bool.false_eq_true, not_true_eq_false, not_false_eq_true, bne_iff_ne, ne_eq] <;>
    omega

theorem daysBeforeYear_mono (y z : Nat) (h : y ≤ z) : daysBeforeYear y ≤ daysBeforeYear z := by
  induction z, h using Nat.le_induction with
  | base => exact le_rfl
  | succ k _ ih =>
    rw [daysBeforeYear_succ k]
    omega

theorem dayNumber_lt (a b : Instant) (ha : a.Valid) (hb : b.Valid)
    (h : a.year < b.year ∨ (a.year = b.year ∧
      (a.month < b.month ∨ (a.month = b.month ∧ a.day < b.day)))) :
    daysBeforeYear a.year + daysBeforeMonth a.year a.month + (a.day - 1) <
      daysBeforeYear b.year + daysBeforeMonth b.year b.month + (b.day - 1) := by
  obtain ⟨a1, a12, ad1, ad, -⟩ := ha
  obtain ⟨b1, b12, bd1, bd, -⟩ := hb
  rcases h with h | ⟨hy, h⟩
  · have h1 := dayOfYear_le a.year a.month a.day a1 a12 ad
    have h2 := daysBeforeYear_succ a.year
    have h3 := daysBeforeYear_mono (a.year + 1) b.year h
    omega
  · have h1 := dayOfYear_lt a.year a.month a.day b.month b.day a1 ad bd1 h
    rw [← hy]
    omega

theorem epochSeconds_eq (t : Instant) (h : t.Valid) :
    epochSeconds t = ((epochDay t * 24 + t.hour) * 60 + t.minute) * 60 + t.second := by
  obtain ⟨-, -, -, -, -, -, -, hms⟩ := h
  unfold epochSeconds epochMillis
  omega

theorem epochDay_lt (a b : Instant) (ha : a.Valid) (hb : b.Valid)
    (h : a.year < b.year ∨ (a.year = b.year ∧
      (a.month < b.month ∨ (a.month = b.month ∧ a.day < b.day)))) :
    epochDay a < epochDay b := by
  have := dayNumber_lt a b ha hb h
  unfold epochDay
  omega

theorem epochDay_eq (a b : Instant) (hy : a.year = b.year) (hm : a.month = b.month)
    (hd : a.day = b.day) : epochDay a = epochDay b := by
  unfold epochDay
  rw [hy, hm, hd]

theorem epochSeconds_lt_iff (a b : Instant) (ha : a.Valid) (hb : b.Valid) :
    epochSeconds a < epochSeconds b ↔
      a.year < b.year ∨ (a.year = b.year ∧ (a.month < b.month ∨ (a.month = b.month ∧
        (a.day < b.day ∨ (a.day = b.day ∧ (a.hour < b.hour ∨ (a.hour = b.hour ∧
          (a.minute < b.minute ∨ (a.minute = b.minute ∧ a.second < b.second))))))))) := by
  rw [epochSeconds_eq a ha, epochSeconds_eq b hb]
  have hab := epochDay_lt a b ha hb
  have hba := epochDay_lt b a hb ha
  have heq := epochDay_eq a b
  obtain ⟨-, -, -, -, ah, am, as, -⟩ := ha
  obtain ⟨-, -, -, -, bh, bm, bs, -⟩ := hb
  generalize epochDay a = Da at *
  generalize epochDay b = Db at *
  rcases Nat.lt_trichotomy a.year b.year with hy | hy | hy
  · have := hab (Or.inl hy)
    constructor
    · intro _; exact Or.inl hy
    · intro _; omega
  · rcases Nat.lt_trichotomy a.month b.month with hm | hm | hm
    · have := hab (Or.inr ⟨hy, Or.inl hm⟩)
      constructor
      · intro _; exact Or.inr ⟨hy, Or.inl hm⟩
      · intro _; omega
    · rcases Nat.lt_trichotomy a.day b.day with hd | hd | hd
      · have := hab (Or.inr ⟨hy, Or.inr ⟨hm, hd⟩⟩)
        constructor
        · intro _; exact Or.inr ⟨hy, Or.inr ⟨hm, Or.inl hd⟩⟩
        · intro _; omega
      · have := heq hy hm hd
        constructor
        · intro h
          refine Or.inr ⟨hy, Or.inr ⟨hm, Or.inr ⟨hd, ?_⟩⟩⟩
          omega
        · intro h
          omega
      · have := hba (Or.inr ⟨hy.symm, Or.inr ⟨hm.symm, hd⟩⟩)
        constructor
        · intro _; omega
        · intro h; omega
    · have := hba (Or.inr ⟨hy.symm, Or.inl hm⟩)
      constructor
      · intro _; omega
      · intro h; omega
  · have := hba (Or.inl hy)
    constructor
    · intro _; omega
    · intro h; omega

theorem lexLt_isoTimestamp_iff (a b : Instant) (ha : a.Valid) (hb : b.Valid)
    (hya : a.year ≤ 9999) (hyb : b.year ≤ 9999) :
    LexLt (isoTimestamp a) (isoTimestamp b) ↔ epochSeconds a < epochSeconds b := by
  rw [epochSeconds_lt_iff a b ha hb]
  unfold LexLt
  rw [← unitsLt_iff, codeUnits_isoTimestamp a hya, codeUnits_isoTimestamp b hyb]
  have da := daysInMonth_le a.year a.month
  have db := daysInMonth_le b.year b.month
  obtain ⟨-, a12, -, ad, ah, am, as, -⟩ := ha
  obtain ⟨-, b12, -, bd, bh, bm, bs, -⟩ := hb
  exact lexFields_iff _ _ _ _ _ _ _ _ _ _ _ _ hya hyb (by omega) (by omega) (by omega) (by omega)
    (by omega) (by omega) (by omega) (by omega) (by omega) (by omega)

theorem bar_not_mem_isoTimestamp (t : Instant) (hy : t.year ≤ 9999) : '|' ∉ isoTimestamp t := by
  rw [isoTimestamp_eq t hy]
  have hd : ∀ d, ¬ '|' = digitChar d := fun d h => digitChar_ne d '|' (by decide) h.symm
  simp [pad4, pad2, hd]

/-- C16 (lexical timestamp order): for two valid instants `a` and `b` with
years 0000 to 9999, rendered as the hooks render ledger timestamps
(`toISOString` with the milliseconds removed: `YYYY-MM-DDTHH:MM:SSZ`, every
field zero-padded), the string of `a` is lexically smaller than the string of
`b` (by UTF-16 code units, the order of `<` and `>` on JavaScript strings)
exactly when `a` truncated to the second is earlier than `b` truncated to the
second.  Hence, with a watermark file that holds the timestamp of `a` (up to
surrounding white space), the filter `lineTime > lastTime` keeps a ledger
entry stamped with `b` exactly when `b` lies in a later second than `a`. -/
theorem lexical_timestamp_order (a b : Instant) (ha : a.Valid) (hb : b.Valid)
    (hya : a.year ≤ 9999) (hyb : b.year ≤ 9999) :
    isoTimestamp a =
      pad4 a.year ++ '-' :: pad2 a.month ++ '-' :: pad2 a.day ++ 'T' :: pad2 a.hour ++
        ':' :: pad2 a.minute ++ ':' :: pad2 a.second ++ ['Z'] ∧
    (LexLt (isoTimestamp a) (isoTimestamp b) ↔ epochSeconds a < epochSeconds b) ∧
    (jsGt (isoTimestamp b) (isoTimestamp a) = true ↔ epochSeconds a < epochSeconds b) ∧
    ∀ ledger w rest : List Char, jsTrim w = isoTimestamp a →
      isoTimestamp b ++ fieldSep ++ rest ∈ ledgerLines ledger →
      (isoTimestamp b ++ fieldSep ++ rest ∈ newChanges ledger (some w) ↔
        epochSeconds a < epochSeconds b) := by
  have h := lexLt_isoTimestamp_iff a b ha hb hya hyb
  refine ⟨isoTimestamp_eq a hya, h, ?_, ?_⟩
  · rw [jsGt_iff]
    exact h
  · intro ledger w rest hw hmem
    unfold newChanges
    simp only [List.mem_filter, hmem, true_and, hw]
    rw [firstField_append _ _ (bar_not_mem_isoTimestamp b hyb), jsGt_iff]
    exact h

theorem lexical_timestamp_order_witness :
    (⟨2025, 1, 15, 10, 30, 0, 999⟩ : Instant).Valid ∧
    (⟨2025, 1, 15, 10, 30, 1, 0⟩ : Instant).Valid ∧
    jsGt (isoTimestamp ⟨2025, 1, 15, 10, 30, 1, 0⟩) (isoTimestamp ⟨2025, 1, 15, 10, 30, 0, 999⟩) =
      true :=
  ⟨by decide, by decide,
    (lexical_timestamp_order ⟨2025, 1, 15, 10, 30, 0, 999⟩ ⟨2025, 1, 15, 10, 30, 1, 0⟩
      (by decide) (by decide) (by decide) (by decide)).2.2.1.2 (by decide)⟩

/-! ## The Stop hook -/

theorem internal_isDir_of_entry (fs : FS) (name : String)
    (h : existsSync (join (INTERNAL fs) name) = true) : ∃ es, INTERNAL fs = some (.dir es) := by
  unfold join at h
  split at h
  · rename_i es heq
    exact ⟨es, heq⟩
  · simp [existsSync] at h

theorem pilot_isDir_of_internal (fs : FS) (es : List (String × Node))
    (h : INTERNAL fs = some (.dir es)) : ∃ ps, fs.pilot = some (.dir ps) := by
  unfold INTERNAL join at h
  split at h
  · rename_i ps heq
    exact ⟨ps, heq⟩
  · cases h

theorem setInternal_same (fs : FS) (name : String) (v : Node) (es : List (String × Node))
    (h : INTERNAL fs = some (.dir es)) :
    join (INTERNAL (fs.setInternal name v)) name = some v := by
  obtain ⟨ps, hp⟩ := pilot_isDir_of_internal fs es h
  have hi : join fs.pilot "internal" = some (.dir es) := h
  unfold FS.setInternal
  simp only [INTERNAL]
  rw [hp] at hi ⊢
  rw [join_putAt_same, hi]
  simp only [putAt, join]
  exact lookupEntry_setEntry_same _ _ _

theorem setInternal_ne (fs : FS) (name other : String) (v : Node) (es : List (String × Node))
    (h : INTERNAL fs = some (.dir es)) (hne : other ≠ name) :
    join (INTERNAL (fs.setInternal name v)) other = join (INTERNAL fs) other := by
  obtain ⟨ps, hp⟩ := pilot_isDir_of_internal fs es h
  have hi : join fs.pilot "internal" = some (.dir es) := h
  unfold FS.setInternal
  simp only [INTERNAL]
  rw [hp] at hi ⊢
  rw [join_putAt_same, hi]
  simp only [putAt, join]
  exact lookupEntry_setEntry_ne (Ne.symm hne) _ _

theorem unsynthesized_ok_exists (fs : FS) (lines : List (List Char))
    (h : unsynthesized fs = .ok lines) : existsSync (LEDGER fs) = true := by
  cases he : existsSync (LEDGER fs) with
  | true => rfl
  | false =>
    rw [unsynthesized_of_missing fs he] at h
    cases h

theorem roundNat_exact (n : Nat) (h : n < 2 ^ 53) : roundNat n = some n := by
  unfold roundNat
  rw [if_pos h]

theorem toDouble_exact (z : Int) (h : z.natAbs < 2 ^ 53) : toDouble z = .fin z := by
  unfold toDouble
  rw [roundNat_exact _ h]
  simp only
  congr 1
  split_ifs with hz <;> omega

theorem jsAdd1_exact (p : Int) (h1 : p.natAbs < 2 ^ 53) (h2 : (p + 1).natAbs < 2 ^ 53) :
    jsAdd1 (toDouble p) = .fin (p + 1) := by
  rw [toDouble_exact p h1]
  exact toDouble_exact (p + 1) h2

theorem sessionSynthesisHook_fires (input : HookInput) (fs : FS)
    (hstop : stopHookActive input.text = false) (hon : existsSync (ONBOARDING fs) = false)
    (lines : List (List Char)) (hl : unsynthesized fs = .ok lines) (hne : lines ≠ [])
    (hrun : (sessionSynthesisHook input fs).uncaught = none) :
    ∃ c : JsNum,
      sessionSynthesisHook input fs =
        ⟨fs.setInternal ".synthesis-count" (.file (String.mk (jsString c))), 2,
          [.synthesis c lines.length (countWeight lines.length c)], none⟩ ∧
      (existsSync (countFile fs) = false → c = 1) ∧
      (existsSync (countFile fs) = true →
        ∃ t, readFileSync (countFile fs) = .ok t ∧
          (parseInt10 (jsTrim t) = none → c = 1) ∧
          ∀ p, parseInt10 (jsTrim t) = some p →
            c = jsAdd1 (toDouble p) ∧
            (p.natAbs < 2 ^ 53 → (p + 1).natAbs < 2 ^ 53 → c = .fin (p + 1))) := by
  have hle := unsynthesized_ok_exists fs lines hl
  have hp : existsSync fs.pilot = true := existsSync_pilot_of_internal fs _ hle
  have hlen : ¬ lines.length = 0 := fun h => hne (List.length_eq_zero.mp h)
  unfold sessionSynthesisHook at hrun ⊢
  simp only [hstop, hp, hle, hon, hl, hlen, Bool.false_eq_true, if_false, Bool.not_true,
    HookResult.exit, HookResult.crash] at hrun ⊢
  by_cases hc : existsSync (countFile fs) = true
  · simp only [hc, if_true] at hrun ⊢
    cases hr : readFileSync (countFile fs) with
    | error e => simp [hr] at hrun
    | ok t =>
      simp only
      refine ⟨synthesisCount (some t), rfl, fun h => by simp at h, fun _ => ⟨t, rfl, ?_, ?_⟩⟩
      · intro hn
        simp [synthesisCount, hn]
      · intro p hpp
        have hs : synthesisCount (some t) = jsAdd1 (toDouble p) := by
          simp [synthesisCount, hpp]
        exact ⟨hs, fun h1 h2 => by rw [hs]; exact jsAdd1_exact p h1 h2⟩
  · have hc0 : existsSync (countFile fs) = false := by simpa using hc
    simp only [hc0, Bool.false_eq_true, if_false] at hrun ⊢
    exact ⟨synthesisCount none, rfl, fun _ => rfl, fun h => by cases h⟩

theorem sessionSynthesisHook_idle (input : HookInput) (fs : FS)
    (hrun : (sessionSynthesisHook input fs).uncaught = none)
    (h : ¬ (stopHookActive input.text = false ∧ existsSync fs.pilot = true ∧
      existsSync (LEDGER fs) = true ∧ existsSync (ONBOARDING fs) = false ∧
      ∃ lines, unsynthesized fs = .ok lines ∧ lines ≠ [])) :
    sessionSynthesisHook input fs = ⟨fs, 0, [], none⟩ := by
  unfold sessionSynthesisHook at hrun ⊢
  simp only [HookResult.exit, HookResult.crash] at hrun ⊢
  by_cases h1 : stopHookActive input.text = true
  · simp [h1]
  · by_cases h2 : existsSync fs.pilot = true
    · by_cases h3 : existsSync (LEDGER fs) = true
      · by_cases h4 : existsSync (ONBOARDING fs) = true
        · simp [h1, h2, h3, h4]
        · simp only [h1, h2, h3, h4, Bool.false_eq_true, if_false, Bool.not_true] at hrun ⊢
          cases hl : unsynthesized fs with
          | error e => simp [hl] at hrun
          | ok lines =>
            simp only
            by_cases h5 : lines.length = 0
            · simp [h5]
            · exfalso
              apply h
              refine ⟨by simpa using h1, h2, h3, by simpa using h4, lines, hl, ?_⟩
              intro h6
              exact h5 (by simp [h6])
      · simp [h1, h2, h3]
    · simp [h1, h2]

/-- C21 as stated fails.  With `change-ledger.log` a directory the Stop hook
reads no entry, yet it does not exit with code 0: the read raises and the run
ends with code 1.  With an unsynthesized entry and `.synthesis-count` a
directory it does not exit with code 2 either, and writes no trigger.  And
with a stored count of `2^53` and an unsynthesized entry the trigger is
written but the stored count is not increased: `2^53 + 1` is `2^53` in double
arithmetic. -/
theorem synthesis_trigger_counterexample :
    (existsSync (LEDGER fsLedgerIsDir) = true ∧
      (sessionSynthesisHook noReasonInput fsLedgerIsDir).exitCode = 1 ∧
      (sessionSynthesisHook noReasonInput fsLedgerIsDir).uncaught = some "EISDIR") ∧
    (unsynthesized fsCountIsDir = .ok ["2025-01-15T10:00:00Z | EDIT | a.ts".toList] ∧
      (sessionSynthesisHook noReasonInput fsCountIsDir).exitCode = 1 ∧
      (sessionSynthesisHook noReasonInput fsCountIsDir).stderr = []) ∧
    (readFileSync (countFile fsCountSaturated) = .ok "9007199254740992".toList ∧
      (sessionSynthesisHook noReasonInput fsCountSaturated).stderr =
        [.synthesis 9007199254740992 1 .light] ∧
      readFileSync (countFile (sessionSynthesisHook noReasonInput fsCountSaturated).fs) =
        .ok "9007199254740992".toList) :=
  ⟨⟨by decide, by decide, by decide⟩, ⟨rfl, by decide, by decide⟩, ⟨rfl, by decide, rfl⟩⟩

/-- C21 (synthesis trigger condition), amended: when no read of the Stop hook
raises (the ledger, the watermark and the count file are regular files where
they exist), it exits with code 2 exactly when the input does not mark
`stop_hook_active` as true, `.pilot/` and the ledger exist, the onboarding
flag is absent and the ledger has at least one unsynthesized entry, and it
writes the synthesis trigger exactly then.  In that case the trigger reports
the number of unsynthesized entries and the new count `c`: 1 when the count
file is absent or holds no number, otherwise the number `parseInt` reads from
it plus 1 in double arithmetic, which is exactly the stored integer plus 1
when both are below `2^53` in absolute value; the text of `c` is what
`.synthesis-count` holds afterwards, and the ledger and the watermark are
unchanged.  In every other case the hook exits with code 0, writes nothing and
leaves the state, so the count too, as it was. -/
theorem synthesis_trigger (input : HookInput) (fs : FS)
    (hrun : (sessionSynthesisHook input fs).uncaught = none) :
    ((sessionSynthesisHook input fs).exitCode = 2 ↔
      (stopHookActive input.text = false ∧ existsSync fs.pilot = true ∧
        existsSync (LEDGER fs) = true ∧ existsSync (ONBOARDING fs) = false ∧
        ∃ lines, unsynthesized fs = .ok lines ∧ lines ≠ [])) ∧
    ((∃ c n w, Msg.synthesis c n w ∈ (sessionSynthesisHook input fs).stderr) ↔
      (stopHookActive input.text = false ∧ existsSync fs.pilot = true ∧
        existsSync (LEDGER fs) = true ∧ existsSync (ONBOARDING fs) = false ∧
        ∃ lines, unsynthesized fs = .ok lines ∧ lines ≠ [])) ∧
    (stopHookActive input.text = false → existsSync (ONBOARDING fs) = false →
      ∀ lines, unsynthesized fs = .ok lines → lines ≠ [] →
      ∃ c : JsNum,
        (sessionSynthesisHook input fs).stderr =
          [.synthesis c lines.length (countWeight lines.length c)] ∧
        (existsSync (countFile fs) = false → c = 1) ∧
        (existsSync (countFile fs) = true →
          ∃ t, readFileSync (countFile fs) = .ok t ∧
            (parseInt10 (jsTrim t) = none → c = 1) ∧
            ∀ p, parseInt10 (jsTrim t) = some p →
              c = jsAdd1 (toDouble p) ∧
              (p.natAbs < 2 ^ 53 → (p + 1).natAbs < 2 ^ 53 → c = .fin (p + 1))) ∧
        (∀ n : Int, c = .fin n → countWeight lines.length c = sessionWeight lines.length n) ∧
        (∀ n : Nat, c = .fin n → n < 2 ^ 53 → jsString c = (Nat.repr n).toList) ∧
        readFileSync (countFile (sessionSynthesisHook input fs).fs) = .ok (jsString c) ∧
        LEDGER (sessionSynthesisHook input fs).fs = LEDGER fs ∧
        LAST_SYNTHESIS (sessionSynthesisHook input fs).fs = LAST_SYNTHESIS fs) ∧
    (¬ (stopHookActive input.text = false ∧ existsSync fs.pilot = true ∧
        existsSync (LEDGER fs) = true ∧ existsSync (ONBOARDING fs) = false ∧
        ∃ lines, unsynthesized fs = .ok lines ∧ lines ≠ []) →
      sessionSynthesisHook input fs = ⟨fs, 0, [], none⟩) := by
  have hfire : ∀ (h1 : stopHookActive input.text = false)
      (h4 : existsSync (ONBOARDING fs) = false) (lines : List (List Char))
      (hl : unsynthesized fs = .ok lines) (hne : lines ≠ []), _ :=
    fun h1 h4 lines hl hne => sessionSynthesisHook_fires input fs h1 h4 lines hl hne hrun
  have hidle := sessionSynthesisHook_idle input fs hrun
  refine ⟨?_, ?_, ?_, hidle⟩
  · constructor
    · intro h2
      by_contra hn
      rw [hidle hn] at h2
      cases h2
    · rintro ⟨h1, -, -, h4, lines, hl, hne⟩
      obtain ⟨c, hc, -⟩ := hfire h1 h4 lines hl hne
      rw [hc]
  · constructor
    · rintro ⟨c, n, w, hm⟩
      by_contra hn
      rw [hidle hn] at hm
      cases hm
    · rintro ⟨h1, -, -, h4, lines, hl, hne⟩
      obtain ⟨c, hc, -⟩ := hfire h1 h4 lines hl hne
      rw [hc]
      exact ⟨_, _, _, List.mem_singleton.mpr rfl⟩
  · intro h1 h4 lines hl hne
    obtain ⟨c, hc, hc1, hc2⟩ := hfire h1 h4 lines hl hne
    obtain ⟨es, hes⟩ := internal_isDir_of_entry fs _ (unsynthesized_ok_exists fs lines hl)
    refine ⟨c, by rw [hc], hc1, hc2, ?_, ?_, ?_, ?_, ?_⟩
    · rintro n rfl
      rfl
    · rintro n rfl hn
      simp only [jsString]
      rw [if_neg (by omega)]
      simp only [Int.natAbs_ofNat, jsNatString]
      rw [if_pos hn]
    · rw [hc]
      simp only [countFile]
      rw [setInternal_same fs _ _ es hes]
      simp [readFileSync]
    · rw [hc]
      simp only [LEDGER]
      exact setInternal_ne fs _ _ _ es hes (by decide)
    · rw [hc]
      simp only [LAST_SYNTHESIS]
      exact setInternal_ne fs _ _ _ es hes (by decide)

theorem synthesis_trigger_witness :
    (sessionSynthesisHook noReasonInput fsBusy).uncaught = none ∧
    (sessionSynthesisHook noReasonInput fsBusy).exitCode = 2 ∧
    (sessionSynthesisHook noReasonInput fsBusy).stderr = [.synthesis 11 2 .light] :=
  ⟨by decide,
    (synthesis_trigger noReasonInput fsBusy (by decide)).1.2
      ⟨by decide, by decide, by decide, by decide,
        ["2025-01-15T10:00:00Z | EDIT | a.ts".toList, "2025-01-15T10:05:00Z | BASH | ls".toList],
        rfl, by decide⟩,
    by decide⟩

/-! ## The lists `restored` and `failed` -/

/-- C22 (restored/failed partition): in every armed run of the guard with a
protected item missing, for every outcome of the copies: the guard prints the
lists `restored` and `failed` of the restore orchestration (under the headings
other than `Files Missing`); these lists have no duplicates and no common
entry; an item name is in one of them exactly when the item was missing; a
name is in `restored` exactly when a copy of that item, from the local or the
durable snapshot, returned without raising; and every entry of `failed` is the
bare name `.pilot/` or `CLAUDE.md`. -/
theorem restored_failed_partition (ft : Faults) (fs : FS) (ha : armed fs = true)
    (hm : ¬ (existsSync fs.pilot && existsSync fs.claudeMd) = true) :
    postBashGuard ft fs =
      report (!existsSync fs.pilot) (!existsSync fs.claudeMd)
        (recover ft (!existsSync fs.pilot) (!existsSync fs.claudeMd) fs) ∧
    (∀ r, (postBashGuard ft fs).stderr = some r → r.banner ≠ .filesMissing →
      r.restored = (recover ft (!existsSync fs.pilot) (!existsSync fs.claudeMd) fs).restored ∧
      r.failed = (recover ft (!existsSync fs.pilot) (!existsSync fs.claudeMd) fs).failed) ∧
    (recover ft (!existsSync fs.pilot) (!existsSync fs.claudeMd) fs).restored.Nodup ∧
    (recover ft (!existsSync fs.pilot) (!existsSync fs.claudeMd) fs).failed.Nodup ∧
    (∀ x, x ∈ (recover ft (!existsSync fs.pilot) (!existsSync fs.claudeMd) fs).restored →
      x ∉ (recover ft (!existsSync fs.pilot) (!existsSync fs.claudeMd) fs).failed) ∧
    (∀ x, (x ∈ (recover ft (!existsSync fs.pilot) (!existsSync fs.claudeMd) fs).restored ∨
        x ∈ (recover ft (!existsSync fs.pilot) (!existsSync fs.claudeMd) fs).failed) ↔
      ((x = ".pilot/" ∧ existsSync fs.pilot = false) ∨
        (x = "CLAUDE.md" ∧ existsSync fs.claudeMd = false))) ∧
    (∀ x, x ∈ (recover ft (!existsSync fs.pilot) (!existsSync fs.claudeMd) fs).restored ↔
      ∃ a ∈ (postBashGuard ft fs).attempts, a.item = x ∧ a.ok = true) ∧
    (∀ x, x ∈ (recover ft (!existsSync fs.pilot) (!existsSync fs.claudeMd) fs).failed →
      x = ".pilot/" ∨ x = "CLAUDE.md") := by
  have hg : postBashGuard ft fs =
      report (!existsSync fs.pilot) (!existsSync fs.claudeMd)
        (recover ft (!existsSync fs.pilot) (!existsSync fs.claudeMd) fs) := by
    rw [postBashGuard_armed ft fs ha, if_neg hm]
  have hat : (postBashGuard ft fs).attempts =
      (recover ft (!existsSync fs.pilot) (!existsSync fs.claudeMd) fs).attempts := by
    rw [hg]
    exact (report_exit _ _ _).2.2.1
  refine ⟨hg, ?_, ?_, ?_, ?_, ?_,
    fun x => by rw [hat]; exact mem_restored_iff _ _ _ _ x, ?_⟩
  · intro r hr hb
    rw [hg] at hr
    unfold report at hr
    dsimp only at hr
    split at hr
    · simp only [Option.some.injEq] at hr
      subst hr
      exact absurd rfl hb
    · split at hr
      · simp only [Option.some.injEq] at hr
        subst hr
        exact ⟨rfl, rfl⟩
      · simp only [Option.some.injEq] at hr
        subst hr
        exact ⟨rfl, rfl⟩
  all_goals
    simp only [recover_restored, recover_failed]
    generalize copyOk (pilotCopy ft .tmpSnap _) = tp
    generalize copyOk (claudeCopy ft .tmpSnap _) = tc
    generalize copyOk (pilotCopy ft .localSnap fs) = lp
    generalize copyOk (claudeCopy ft .localSnap fs) = lc
    generalize existsSync fs.pilot = ep at hm
    generalize existsSync fs.claudeMd = ec at hm
    rcases ep <;> rcases ec <;> rcases lp <;> rcases lc <;> rcases tp <;> rcases tc <;>
      simp at hm ⊢ <;> exact fun x => or_comm

theorem restored_failed_partition_witness :
    armed fsBothGone = true ∧
    (recover localPilotDenied (!existsSync fsBothGone.pilot) (!existsSync fsBothGone.claudeMd)
      fsBothGone).restored.Nodup ∧
    (recover localPilotDenied (!existsSync fsBothGone.pilot) (!existsSync fsBothGone.claudeMd)
      fsBothGone).failed.Nodup :=
  have h := restored_failed_partition localPilotDenied fsBothGone (by decide) (by decide)
  ⟨by decide, h.2.2.1, h.2.2.2.1⟩

/-! ## A capture taken while an item is missing -/

/-- C23 as stated fails: `fsLostClaude` is armed and `CLAUDE.md` is missing
when `pre-bash.js` runs; both captures succeed.  The command then deletes
`.pilot/`, and at the following check every copy of `.pilot/` raises.
`CLAUDE.md` is still missing and no other item is restored, yet the report is
`Integrity Alert`, not `Files Missing (Cannot Restore)`. -/
theorem capture_while_missing_counterexample :
    armed fsLostClaude = true ∧ existsSync (fsLostClaude.item .claudeMd) = false ∧
    (preBash noFaults "/work\n2025-01-15T10:32:00.000Z\n" fsLostClaude).localThrew = none ∧
    (preBash noFaults "/work\n2025-01-15T10:32:00.000Z\n" fsLostClaude).tmpThrew = none ∧
    (postBashGuard pilotDenied
      ((preBash noFaults "/work\n2025-01-15T10:32:00.000Z\n" fsLostClaude).fs.remove .pilot)).stderr =
      some ⟨.integrityAlert, [], [], [".pilot/", "CLAUDE.md"]⟩ ∧
    (postBashGuard pilotDenied
      ((preBash noFaults "/work\n2025-01-15T10:32:00.000Z\n" fsLostClaude).fs.remove .pilot)).exitCode =
      2 := by
  decide

/-- C23 (a capture taken while an item is missing), amended: in an armed state
in which item `X` is missing when `pre-bash.js` runs and both captures raise
nothing, neither snapshot holds `X` afterwards, whatever the snapshots held
before.  At a following check with the snapshots as the capture left them, the
guard armed and `X` still missing, the guard exits with code 2 and does not
restore `X`.  If the other item is present then, or was missing at capture
time too, no copy is run and the report is `Files Missing (Cannot Restore)`.
If the other item is missing at the check but existed at capture time, the
guard tries to restore it and the report is `Integrity Alert`, with `X` among
the items not restored, whether or not the other item is restored. -/
theorem capture_while_missing (ft : Faults) (stamp : String) (fs : FS) (X : Item)
    (ha : armed fs = true) (hX : existsSync (fs.item X) = false)
    (hl : (preBash ft stamp fs).localThrew = none)
    (ht : (preBash ft stamp fs).tmpThrew = none) :
    existsSync (join (SNAPSHOT_LOCAL (preBash ft stamp fs).fs) X.entry) = false ∧
    existsSync (join (preBash ft stamp fs).fs.snapshotTmp X.entry) = false ∧
    ∀ (ft2 : Faults) (s2 : FS),
      SNAPSHOT_LOCAL s2 = SNAPSHOT_LOCAL (preBash ft stamp fs).fs →
      s2.snapshotTmp = (preBash ft stamp fs).fs.snapshotTmp →
      armed s2 = true → existsSync (s2.item X) = false →
      (postBashGuard ft2 s2).exitCode = 2 ∧
      (∀ rep, (postBashGuard ft2 s2).stderr = some rep → X.label ∉ rep.restored) ∧
      ((existsSync (s2.item X.other) = true ∨ existsSync (fs.item X.other) = false) →
        (postBashGuard ft2 s2).stderr = some ⟨.filesMissing,
          (if existsSync s2.pilot then [] else [".pilot/"]) ++
            (if existsSync s2.claudeMd then [] else ["CLAUDE.md"]), [], []⟩ ∧
        (postBashGuard ft2 s2).attempts = []) ∧
      ((existsSync (s2.item X.other) = false ∧ existsSync (fs.item X.other) = true) →
        (postBashGuard ft2 s2).stderr.map (fun rep => rep.banner) = some Banner.integrityAlert ∧
        ∀ rep, (postBashGuard ft2 s2).stderr = some rep → X.label ∈ rep.failed) := by
  have hon : existsSync (ONBOARDING fs) = false := by
    simp only [armed, Bool.and_eq_true, Bool.not_eq_true'] at ha
    exact ha.1.1
  have hinit : initialized fs = true := by
    simp only [armed, Bool.and_eq_true] at ha
    exact ha.2
  obtain ⟨fl, ftm⟩ := preBash_fresh ft stamp fs hon hinit
  have hL := fl hl
  have hT := ftm ht
  have stagedL : ∀ Y : Item,
      existsSync (join (SNAPSHOT_LOCAL (preBash ft stamp fs).fs) Y.entry) =
        existsSync (fs.item Y) := by
    intro Y
    cases Y
    · exact hL.2.1
    · exact hL.2.2.1
  have stagedT : ∀ Y : Item,
      existsSync (join (preBash ft stamp fs).fs.snapshotTmp Y.entry) = existsSync (fs.item Y) := by
    intro Y
    cases Y
    · exact hT.2.1
    · exact hT.2.2.1
  refine ⟨by rw [stagedL, hX], by rw [stagedT, hX], ?_⟩
  intro ft2 s2 e1 e2 ha2 hX2
  have hL2 : existsSync (join (SNAPSHOT_LOCAL s2) X.entry) = false := by rw [e1, stagedL, hX]
  have hT2 : existsSync (join s2.snapshotTmp X.entry) = false := by rw [e2, stagedT, hX]
  obtain ⟨g1, g2, g3⟩ := guard_unstaged_item ft2 s2 X ha2 hX2 hL2 hT2
  have hcases : existsSync (s2.item X.other) = true ∨
      (existsSync (join (SNAPSHOT_LOCAL s2) X.other.entry) = false ∧
        existsSync (join s2.snapshotTmp X.other.entry) = false) ∨
      (existsSync (s2.item X.other) = false ∧
        (existsSync (join (SNAPSHOT_LOCAL s2) X.other.entry) = true ∨
          existsSync (join s2.snapshotTmp X.other.entry) = true)) := by
    rw [e1, e2, stagedL, stagedT]
    cases existsSync (s2.item X.other) <;> cases existsSync (fs.item X.other) <;> simp
  refine ⟨g1, ?_, ?_, ?_⟩
  · intro rep hrep
    rcases hcases with h | h | h
    · rw [(g2 (Or.inl h)).1] at hrep
      cases hrep
      simp
    · rw [(g2 (Or.inr h)).1] at hrep
      cases hrep
      simp
    · exact ((g3 h).2 rep hrep).2
  · intro h
    apply g2
    rcases h with h | h
    · exact Or.inl h
    · right
      rw [e1, e2, stagedL, stagedT, h]
      exact ⟨rfl, rfl⟩
  · rintro ⟨h1, h2⟩
    have h3 := g3 ⟨h1, Or.inl (by rw [e1, stagedL, h2])⟩
    exact ⟨h3.1, fun rep hrep => (h3.2 rep hrep).1⟩

theorem capture_while_missing_witness :
    armed fsLostClaude = true ∧ existsSync (fsLostClaude.item .claudeMd) = false ∧
    (postBashGuard noFaults
      (preBash noFaults "/work\n2025-01-15T10:32:00.000Z\n" fsLostClaude).fs).exitCode = 2 ∧
    (postBashGuard noFaults
      (preBash noFaults "/work\n2025-01-15T10:32:00.000Z\n" fsLostClaude).fs).stderr =
      some ⟨.filesMissing, ["CLAUDE.md"], [], []⟩ :=
  have h := (capture_while_missing noFaults "/work\n2025-01-15T10:32:00.000Z\n" fsLostClaude
    .claudeMd (by decide) (by decide) (by decide) (by decide)).2.2 noFaults
    (preBash noFaults "/work\n2025-01-15T10:32:00.000Z\n" fsLostClaude).fs rfl rfl
    (by decide) (by decide)
  ⟨by decide, by decide, h.1, (h.2.2.1 (Or.inl (by decide))).1⟩

/-! ## The three readers of the ledger -/

theorem unsynthesized_of_files (fs : FS) (L : String) (W : Option String)
    (hL : LEDGER fs = some (.file L)) (hW : LAST_SYNTHESIS fs = W.map Node.file) :
    unsynthesized fs = .ok (newChanges L.toList (W.map String.toList)) := by
  unfold unsynthesized
  rw [hL, hW]
  cases W <;> simp [readFileSync, existsSync]

theorem preCompact_of_lines (fs : FS) (lines : List (List Char))
    (hon : existsSync (ONBOARDING fs) = false) (hl : unsynthesized fs = .ok lines) :
    preCompact fs = ⟨fs, 0, if lines.length > 0 then [.compacting lines.length] else [], none⟩ := by
  have hle := unsynthesized_ok_exists fs lines hl
  have hp : existsSync fs.pilot = true := existsSync_pilot_of_internal fs _ hle
  unfold preCompact
  simp only [hp, hle, hon, hl, HookResult.exit, Bool.not_true, Bool.or_self, Bool.false_eq_true,
    if_false]
  split <;> rfl

/-- C24 (the three readers of the ledger agree): for every ledger text and
every watermark text or absent watermark, without the onboarding flag, with
`lines` the entries that `newChanges` selects from the two texts: `pre-compact`
reports a count exactly when `lines` is not empty and the count is the length
of `lines`; `session-start`, at a boundary with reason `clear`, `compact` or
`resume` whose reads raise nothing, gives a recovery message exactly when
`lines` is not empty, with that same count; and the Stop hook, when not
re-entered and when its reads raise nothing, writes the synthesis trigger
exactly when `lines` is not empty, with that same change count.  So the three
numbers are equal whenever two of them are reported. -/
theorem ledger_readers_agree (el : Elapsed) (startInput stopInput : HookInput) (fs : FS)
    (L : String) (W : Option String)
    (hon : existsSync (ONBOARDING fs) = false)
    (hL : LEDGER fs = some (.file L)) (hW : LAST_SYNTHESIS fs = W.map Node.file)
    (hsrc : sourceOf startInput = "clear".toList ∨ sourceOf startInput = "compact".toList ∨
      sourceOf startInput = "resume".toList)
    (hstop : stopHookActive stopInput.text = false)
    (hrun1 : (sessionStart el startInput fs).uncaught = none)
    (hrun2 : (sessionSynthesisHook stopInput fs).uncaught = none) :
    unsynthesized fs = .ok (newChanges L.toList (W.map String.toList)) ∧
    (preCompact fs).stderr =
      (if (newChanges L.toList (W.map String.toList)).length > 0 then
        [.compacting (newChanges L.toList (W.map String.toList)).length] else []) ∧
    (∀ n s, Msg.recovery n s ∈ (sessionStart el startInput fs).stderr ↔
      n = (newChanges L.toList (W.map String.toList)).length ∧ 0 < n ∧
        s = sourceOf startInput) ∧
    (∀ c n w, Msg.synthesis c n w ∈ (sessionSynthesisHook stopInput fs).stderr →
      n = (newChanges L.toList (W.map String.toList)).length) ∧
    ((∃ c n w, Msg.synthesis c n w ∈ (sessionSynthesisHook stopInput fs).stderr) ↔
      0 < (newChanges L.toList (W.map String.toList)).length) := by
  have hu := unsynthesized_of_files fs L W hL hW
  have hle := unsynthesized_ok_exists fs _ hu
  have hp : existsSync fs.pilot = true := existsSync_pilot_of_internal fs _ hle
  generalize newChanges L.toList (W.map String.toList) = lines at hu ⊢
  refine ⟨hu, ?_, ?_, ?_, ?_⟩
  · rw [preCompact_of_lines fs lines hon hu]
  · intro n s
    obtain ⟨r, m, v, hr, hm, hv, hs⟩ := sessionStart_run el startInput fs hon hp hrun1
    rw [hs]
    have hm1 := modulesCheck_cases _ _ hm
    have hv1 := revisitCheck_cases _ _ hv
    have hab : Msg.recovery n s ∉ absenceCheck el fs := by
      unfold absenceCheck
      dsimp only
      split_ifs <;> simp
    have hdp : Msg.recovery n s ∉ depMapCheck el fs := by
      unfold depMapCheck
      dsimp only
      split_ifs <;> simp
    have hmem : Msg.recovery n s ∈ r ++ absenceCheck el fs ++ m ++ depMapCheck el fs ++ v ↔
        Msg.recovery n s ∈ r := by
      rcases hm1 with rfl | ⟨nm, rfl⟩ <;> rcases hv1 with rfl | ⟨c, k, rfl⟩ <;> simp [hab, hdp]
    simp only [hmem]
    rw [recoveryCheck_mem _ fs r hr n s, hu]
    constructor
    · rintro ⟨h1, -, l2, h2, h3, h4⟩
      cases h2
      exact ⟨h3.symm, h4, h1⟩
    · rintro ⟨h1, h2, h3⟩
      exact ⟨h3, hsrc, lines, rfl, h1.symm, h2⟩
  · intro c n w hmem
    by_cases hne : lines = []
    · have hidle := sessionSynthesisHook_idle stopInput fs hrun2 (by
        rintro ⟨-, -, -, -, l2, h2, h3⟩
        rw [hu] at h2
        cases h2
        exact h3 hne)
      rw [hidle] at hmem
      cases hmem
    · obtain ⟨c2, hc, -⟩ := sessionSynthesisHook_fires stopInput fs hstop hon lines hu hne hrun2
      rw [hc] at hmem
      simp only [List.mem_singleton, Msg.synthesis.injEq] at hmem
      exact hmem.2.1
  · by_cases hne : lines = []
    · have hidle := sessionSynthesisHook_idle stopInput fs hrun2 (by
        rintro ⟨-, -, -, -, l2, h2, h3⟩
        rw [hu] at h2
        cases h2
        exact h3 hne)
      rw [hidle]
      simp [hne]
    · obtain ⟨c2, hc, -⟩ := sessionSynthesisHook_fires stopInput fs hstop hon lines hu hne hrun2
      rw [hc]
      constructor
      · intro _
        exact List.length_pos.mpr hne
      · intro _
        exact ⟨_, _, _, List.mem_singleton.mpr rfl⟩

theorem ledger_readers_agree_witness :
    (preCompact fsBusy).stderr = [.compacting 2] ∧
    Msg.recovery 2 "clear".toList ∈ (sessionStart ⟨0, 0⟩ clearInput fsBusy).stderr ∧
    (sessionSynthesisHook clearInput fsBusy).stderr = [.synthesis 11 2 .light] :=
  have h := ledger_readers_agree ⟨0, 0⟩ clearInput clearInput fsBusy
    "# Format\n2025-01-15T10:00:00Z | EDIT | a.ts\n2025-01-15T10:05:00Z | BASH | ls\n" none
    (by decide) rfl rfl (Or.inl (by decide)) (by decide) (by decide) (by decide)
  ⟨by decide, (h.2.2.1 2 "clear".toList).2 ⟨by decide, by decide, by decide⟩, by decide⟩

end ProjectPilot
